import Mathlib

/-!
Verification of the wentsketchy aerospace reconciliation engine.

The reconciler lives in the `items` package (two historical variants of
`AerospaceItem.render`); this file embeds both variants shallowly:

* Go strings are `List Char` (`Str`), so slicing and concatenation are list
  operations;
* Go maps are association lists with lookup / upsert / delete helpers, the
  list order standing in for Go's unspecified iteration order;
* a sketchybar command is the argument list built by the `s`/`m` helpers
  (`type Batches []string` joins them with spaces; the join is presentation
  only, so commands are kept as argument lists);
* time is natural-number milliseconds.

The first variant (with an unconditional bracket-spacer per visible
workspace) is embedded in namespace `P5`, the second (bracket only for
workspaces with windows, deferred bracket updates) in namespace `P6`.
-/

set_option maxHeartbeats 1000000

namespace Wentsketchy

/-- A Go string, modelled as its list of characters. -/
abbrev Str : Type := List Char

/-- One sketchybar command: the list of arguments assembled by the Go
helpers `s` and `m` (which join them with spaces into one batch entry). -/
abbrev Cmd : Type := List Str

/-- `type Batches []string` from the items package: the ordered command
batch accumulated during one reconciliation pass. -/
abbrev Batches : Type := List Cmd

/-- Lookup in a Go map modelled as an association list (`v, ok := m[k]`). -/
def alookup {α β : Type} [DecidableEq α] (m : List (α × β)) (k : α) : Option β :=
  match m with
  | [] => none
  | (k2, v) :: rest => if k2 = k then some v else alookup rest k

/-- Go `m[k] = v`: replace the value of an existing key, else append. -/
def aupsert {α β : Type} [DecidableEq α] (m : List (α × β)) (k : α) (v : β) :
    List (α × β) :=
  match m with
  | [] => [(k, v)]
  | (k2, v2) :: rest => if k2 = k then (k2, v) :: rest else (k2, v2) :: aupsert rest k v

/-- Go `delete(m, k)`. -/
def aerase {α β : Type} [DecidableEq α] (m : List (α × β)) (k : α) : List (α × β) :=
  m.filter (fun e => e.1 ≠ k)

/-- Go `m[x] = true` on a `map[string]bool` used as a set: insert keeping
first-insertion order. -/
def sinsert (s : List Str) (x : Str) : List Str :=
  if x ∈ s then s else s ++ [x]

/-- Insert several keys in order. -/
def insertAll (s : List Str) (xs : List Str) : List Str := xs.foldl sinsert s

theorem mem_sinsert {s : List Str} {x y : Str} :
    y ∈ sinsert s x ↔ y ∈ s ∨ y = x := by
  unfold sinsert
  split
  · rename_i h
    constructor
    · exact fun hy => Or.inl hy
    · rintro (hy | rfl)
      · exact hy
      · exact h
  · simp

theorem insertAll_nil (s : List Str) : insertAll s [] = s := rfl

theorem insertAll_cons (s : List Str) (x : Str) (rest : List Str) :
    insertAll s (x :: rest) = insertAll (sinsert s x) rest := rfl

theorem mem_insertAll {xs : List Str} :
    ∀ {s : List Str} {y : Str}, y ∈ insertAll s xs ↔ y ∈ s ∨ y ∈ xs := by
  induction xs with
  | nil => intro s y; simp [insertAll_nil]
  | cons x rest ih =>
    intro s y
    rw [insertAll_cons, ih, mem_sinsert]
    constructor
    · rintro ((h | rfl) | h)
      · exact Or.inl h
      · exact Or.inr (List.mem_cons_self _ _)
      · exact Or.inr (List.mem_cons_of_mem _ h)
    · rintro (h | h)
      · exact Or.inl (Or.inl h)
      · rcases List.mem_cons.mp h with rfl | h
        · exact Or.inl (Or.inr rfl)
        · exact Or.inr h

theorem alookup_eq_none {α β : Type} [DecidableEq α] {m : List (α × β)} {k : α} :
    alookup m k = none ↔ ∀ e ∈ m, e.1 ≠ k := by
  induction m with
  | nil => simp [alookup]
  | cons e rest ih =>
    obtain ⟨k2, v⟩ := e
    by_cases h : k2 = k
    · subst h
      simp [alookup]
    · simp only [alookup, if_neg h, ih, List.mem_cons]
      constructor
      · rintro hall e2 (rfl | he2)
        · exact h
        · exact hall e2 he2
      · intro hall e2 he2
        exact hall e2 (Or.inr he2)

theorem alookup_aupsert_self {α β : Type} [DecidableEq α] (m : List (α × β)) (k : α) (v : β) :
    alookup (aupsert m k v) k = some v := by
  induction m with
  | nil => simp [aupsert, alookup]
  | cons e rest ih =>
    obtain ⟨k2, v2⟩ := e
    by_cases h : k2 = k
    · subst h
      simp [aupsert, alookup]
    · simp [aupsert, alookup, h, ih]

theorem alookup_aupsert_ne {α β : Type} [DecidableEq α] (m : List (α × β)) (k k2 : α) (v : β)
    (h : k2 ≠ k) : alookup (aupsert m k v) k2 = alookup m k2 := by
  have hk : k ≠ k2 := Ne.symm h
  induction m with
  | nil => simp [aupsert, alookup, hk]
  | cons e rest ih =>
    obtain ⟨k3, v3⟩ := e
    by_cases h3 : k3 = k
    · subst h3
      simp [aupsert, alookup, hk]
    · by_cases h2 : k3 = k2 <;> simp [aupsert, alookup, h3, h2, ih, h]

theorem alookup_aerase_self {α β : Type} [DecidableEq α] (m : List (α × β)) (k : α) :
    alookup (aerase m k) k = none := by
  induction m with
  | nil => rfl
  | cons e rest ih =>
    obtain ⟨k2, v2⟩ := e
    by_cases h : k2 = k
    · subst h
      simpa [aerase, List.filter_cons] using ih
    · simp only [aerase, List.filter_cons] at ih ⊢
      simpa [h, alookup] using ih

theorem alookup_aerase_ne {α β : Type} [DecidableEq α] (m : List (α × β)) (k k2 : α)
    (h : k2 ≠ k) : alookup (aerase m k) k2 = alookup m k2 := by
  have hk : k ≠ k2 := Ne.symm h
  induction m with
  | nil => rfl
  | cons e rest ih =>
    obtain ⟨k3, v3⟩ := e
    by_cases h3 : k3 = k
    · subst h3
      simp only [aerase, List.filter_cons] at ih ⊢
      simpa [alookup, hk] using ih
    · by_cases h2 : k3 = k2
      · subst h2
        simp only [aerase, List.filter_cons] at ih ⊢
        simp [alookup, h3]
      · simp only [aerase, List.filter_cons, ne_eq, decide_not] at ih ⊢
        simp [alookup, h3, h2, ih]

theorem mem_aerase {α β : Type} [DecidableEq α] {m : List (α × β)} {k : α} {e : α × β} :
    e ∈ aerase m k ↔ e ∈ m ∧ e.1 ≠ k := by
  simp [aerase]

/-! ### Decimal formatting (Go `fmt.Sprintf("%d", …)` / `strconv`) -/

/-- The character of one decimal digit. -/
def digitChar (d : Nat) : Char :=
  match d with
  | 0 => '0' | 1 => '1' | 2 => '2' | 3 => '3' | 4 => '4'
  | 5 => '5' | 6 => '6' | 7 => '7' | 8 => '8' | _ => '9'

theorem digitChar_ne_dash (d : Nat) : digitChar d ≠ '-' := by
  unfold digitChar
  split <;> decide

theorem digitChar_injOn {a b : Nat} (ha : a < 10) (hb : b < 10)
    (h : digitChar a = digitChar b) : a = b := by
  interval_cases a <;> interval_cases b <;> simp_all [digitChar]

/-- The decimal digits of `n`, least significant first, extracted by
repeated division (the fuel argument only bounds the recursion: `n` many
divisions by ten always suffice). -/
def natDecAux : Nat → Nat → List Char
  | 0, _ => []
  | _ + 1, 0 => []
  | fuel + 1, n + 1 => digitChar ((n + 1) % 10) :: natDecAux fuel ((n + 1) / 10)

/-- Decimal representation of a natural number (most significant digit
first), as Go prints it. -/
def natDec (n : Nat) : Str :=
  if n = 0 then ['0'] else (natDecAux n n).reverse

theorem natDecAux_eq : ∀ (fuel n : Nat), n ≤ fuel →
    natDecAux fuel n = (Nat.digits 10 n).map digitChar := by
  intro fuel
  induction fuel with
  | zero =>
    intro n hn
    interval_cases n
    simp [natDecAux]
  | succ fuel ih =>
    intro n hn
    cases n with
    | zero => simp [natDecAux]
    | succ m =>
      rw [show natDecAux (fuel + 1) (m + 1) =
          digitChar ((m + 1) % 10) :: natDecAux fuel ((m + 1) / 10) from rfl]
      have hdiv : (m + 1) / 10 < m + 1 := Nat.div_lt_self (Nat.succ_pos m) (by norm_num)
      rw [ih ((m + 1) / 10) (by omega)]
      rw [Nat.digits_def' (by norm_num : 1 < 10) (Nat.succ_pos m)]
      simp

/-- The fueled digit extraction agrees with `Nat.digits`. -/
theorem natDec_eq_digits (n : Nat) :
    natDec n = if n = 0 then ['0'] else ((Nat.digits 10 n).map digitChar).reverse := by
  unfold natDec
  by_cases h : n = 0
  · rw [if_pos h, if_pos h]
  · rw [if_neg h, if_neg h, natDecAux_eq n n le_rfl]

theorem natDec_ne_nil (n : Nat) : natDec n ≠ [] := by
  rw [natDec_eq_digits]
  split
  · simp
  · rename_i h
    have : Nat.digits 10 n ≠ [] := Nat.digits_ne_nil_iff_ne_zero.mpr h
    simpa using this

theorem mem_natDec_ne_dash {n : Nat} {c : Char} (hc : c ∈ natDec n) : c ≠ '-' := by
  rw [natDec_eq_digits] at hc
  split at hc
  · rcases List.mem_singleton.mp hc with rfl
    decide
  · rcases List.mem_reverse.mp hc with hc2
    rcases List.mem_map.mp hc2 with ⟨d, _, rfl⟩
    exact digitChar_ne_dash d

theorem map_digitChar_inj :
    ∀ {l1 l2 : List Nat}, (∀ x ∈ l1, x < 10) → (∀ x ∈ l2, x < 10) →
      l1.map digitChar = l2.map digitChar → l1 = l2 := by
  intro l1
  induction l1 with
  | nil =>
    intro l2 _ _ h
    cases l2 with
    | nil => rfl
    | cons b t => simp at h
  | cons a t1 ih =>
    intro l2 h1 h2 h
    cases l2 with
    | nil => simp at h
    | cons b t2 =>
      simp only [List.map_cons, List.cons.injEq] at h
      have hab : a = b :=
        digitChar_injOn (h1 a (List.mem_cons_self _ _)) (h2 b (List.mem_cons_self _ _)) h.1
      have ht : t1 = t2 :=
        ih (fun x hx => h1 x (List.mem_cons_of_mem _ hx))
           (fun x hx => h2 x (List.mem_cons_of_mem _ hx)) h.2
      rw [hab, ht]

theorem natDec_inj {a b : Nat} (h : natDec a = natDec b) : a = b := by
  by_cases ha : a = 0 <;> by_cases hb : b = 0
  · rw [ha, hb]
  · exfalso
    rw [natDec_eq_digits, if_pos ha, natDec_eq_digits, if_neg hb] at h
    have hd := congrArg List.reverse h
    simp only [List.reverse_reverse, List.reverse_singleton] at hd
    have hlen := congrArg List.length hd.symm
    simp only [List.length_map, List.length_singleton] at hlen
    obtain ⟨d, hdig⟩ := List.length_eq_one.mp hlen
    rw [hdig] at hd
    simp only [List.map_cons, List.map_nil, List.cons.injEq] at hd
    have hd10 : d < 10 := by
      have := Nat.digits_lt_base (by norm_num) (hdig ▸ List.mem_singleton.mpr rfl)
      simpa using this
    have hd0 : d = 0 := digitChar_injOn hd10 (by norm_num) (by simpa [digitChar] using hd.1.symm)
    have := Nat.ofDigits_digits 10 b
    rw [hdig, hd0] at this
    simp [Nat.ofDigits] at this
    exact hb this.symm
  · exfalso
    rw [natDec_eq_digits, if_neg ha, natDec_eq_digits, if_pos hb] at h
    have hd := congrArg List.reverse h
    simp only [List.reverse_reverse, List.reverse_singleton] at hd
    have hlen := congrArg List.length hd
    simp only [List.length_map, List.length_singleton] at hlen
    obtain ⟨d, hdig⟩ := List.length_eq_one.mp hlen
    rw [hdig] at hd
    simp only [List.map_cons, List.map_nil, List.cons.injEq] at hd
    have hd10 : d < 10 := by
      have := Nat.digits_lt_base (by norm_num) (hdig ▸ List.mem_singleton.mpr rfl)
      simpa using this
    have hd0 : d = 0 := digitChar_injOn hd10 (by norm_num) (by simpa [digitChar] using hd.1)
    have := Nat.ofDigits_digits 10 a
    rw [hdig, hd0] at this
    simp [Nat.ofDigits] at this
    exact ha this.symm
  · rw [natDec_eq_digits, if_neg ha, natDec_eq_digits, if_neg hb] at h
    have hrev := congrArg List.reverse h
    simp only [List.reverse_reverse] at hrev
    have hdig : Nat.digits 10 a = Nat.digits 10 b :=
      map_digitChar_inj
        (fun x hx => Nat.digits_lt_base (by norm_num) hx)
        (fun x hx => Nat.digits_lt_base (by norm_num) hx) hrev
    calc a = Nat.ofDigits 10 (Nat.digits 10 a) := (Nat.ofDigits_digits 10 a).symm
    _ = Nat.ofDigits 10 (Nat.digits 10 b) := by rw [hdig]
    _ = b := Nat.ofDigits_digits 10 b

/-- Decimal representation of a Go `int` (`%d`), minus sign included. -/
def intDec (i : Int) : Str :=
  if i < 0 then '-' :: natDec i.natAbs else natDec i.toNat

theorem intDec_inj {a b : Int} (h : intDec a = intDec b) : a = b := by
  unfold intDec at h
  split at h <;> split at h
  · rename_i ha hb
    have htail : natDec a.natAbs = natDec b.natAbs := by
      have := congrArg List.tail h
      simpa using this
    have := natDec_inj htail
    omega
  · rename_i ha hb
    exfalso
    have hmem : '-' ∈ natDec b.toNat := by
      rw [← h]; exact List.mem_cons_self _ _
    exact mem_natDec_ne_dash hmem rfl
  · rename_i ha hb
    exfalso
    have hmem : '-' ∈ natDec a.toNat := by
      rw [h]; exact List.mem_cons_self _ _
    exact mem_natDec_ne_dash hmem rfl
  · rename_i ha hb
    have := natDec_inj h
    omega

/-! ### Item identifiers (items package constants and derivation helpers) -/

/-- `const aerospaceCheckerItemName = "aerospace.checker"`. -/
def aerospaceCheckerItemName : Str := "aerospace.checker".toList

/-- `const workspaceItemPrefix = "aerospace.workspace"`. -/
def workspaceItemPrefix : Str := "aerospace.workspace".toList

/-- `const windowItemPrefix = "aerospace.window"`. -/
def windowItemPrefix : Str := "aerospace.window".toList

/-- `const bracketItemPrefix = "aerospace.bracket"`. -/
def bracketItemPrefix : Str := "aerospace.bracket".toList

/-- `const bracketSpacerItemPrefix = "aerospace.bracket.spacer"`. -/
def bracketSpacerItemPrefix : Str := "aerospace.bracket.spacer".toList

/-- `const spacerItemPrefix = "aerospace.spacer"`. -/
def spacerItemPrefix : Str := "aerospace.spacer".toList

/-- The global spacer id `"aerospace.spacer"` used literally in `render`. -/
def aerospaceGlobalSpacerID : Str := "aerospace.spacer".toList

/-- `fmt.Sprintf("%s.%s", workspaceItemPrefix, spaceID)`. -/
def getSketchybarWorkspaceID (spaceID : Str) : Str :=
  workspaceItemPrefix ++ '.' :: spaceID

/-- `fmt.Sprintf("%s.%d", windowItemPrefix, windowID)`. -/
def getSketchybarWindowID (windowID : Int) : Str :=
  windowItemPrefix ++ '.' :: intDec windowID

/-- `fmt.Sprintf("%s.%s", bracketItemPrefix, spaceID)`. -/
def getSketchybarBracketID (spaceID : Str) : Str :=
  bracketItemPrefix ++ '.' :: spaceID

/-- `fmt.Sprintf("%s.%s", bracketSpacerItemPrefix, spaceID)` (first
variant only). -/
def getSketchybarBracketSpacerID (spaceID : Str) : Str :=
  bracketSpacerItemPrefix ++ '.' :: spaceID

/-- `fmt.Sprintf("%s.%s", spacerItemPrefix, spaceID)`. -/
def getSketchybarSpacerID (spaceID : Str) : Str :=
  spacerItemPrefix ++ '.' :: spaceID

/-- `len(itemID) > len(windowItemPrefix) && itemID[:len(windowItemPrefix)] == windowItemPrefix`. -/
def isWindowItem (itemID : Str) : Bool :=
  decide (itemID.length > windowItemPrefix.length) &&
    decide (itemID.take windowItemPrefix.length = windowItemPrefix)

/-- `len(itemID) > len(bracketItemPrefix) && itemID[:len(bracketItemPrefix)] == bracketItemPrefix`. -/
def isBracketItem (itemID : Str) : Bool :=
  decide (itemID.length > bracketItemPrefix.length) &&
    decide (itemID.take bracketItemPrefix.length = bracketItemPrefix)

/-- `bracketItemID[len(bracketItemPrefix)+1:]` guarded by `isBracketItem`
(the Go function returns `""` otherwise). -/
def extractWorkspaceFromBracketID (bracketItemID : Str) : Str :=
  if isBracketItem bracketItemID then
    bracketItemID.drop (bracketItemPrefix.length + 1)
  else []

/-- `belongsToWorkspace` always returns true in the source ("we use the
animation timing approach"). -/
def belongsToWorkspace (_windowItemID _workspaceID : Str) : Bool := true

theorem isBracketItem_getSketchybarBracketID (w : Str) :
    isBracketItem (getSketchybarBracketID w) = true := by
  unfold isBracketItem getSketchybarBracketID bracketItemPrefix
  apply Bool.and_eq_true_iff.mpr
  constructor
  · simp [List.length_append]
  · apply decide_eq_true
    rw [List.take_append_eq_append_take]
    simp

theorem isBracketItem_getSketchybarBracketSpacerID (w : Str) :
    isBracketItem (getSketchybarBracketSpacerID w) = true := by
  unfold isBracketItem getSketchybarBracketSpacerID bracketItemPrefix bracketSpacerItemPrefix
  apply Bool.and_eq_true_iff.mpr
  constructor
  · simp [List.length_append]
  · apply decide_eq_true
    rw [List.take_append_eq_append_take]
    simp

theorem extractWorkspaceFromBracketID_bracket (w : Str) :
    extractWorkspaceFromBracketID (getSketchybarBracketID w) = w := by
  rw [extractWorkspaceFromBracketID, if_pos]
  · unfold getSketchybarBracketID bracketItemPrefix
    rw [List.drop_append_eq_append_drop]
    simp
  · exact isBracketItem_getSketchybarBracketID w

theorem extractWorkspaceFromBracketID_bracketSpacer (w : Str) :
    extractWorkspaceFromBracketID (getSketchybarBracketSpacerID w) =
      "spacer.".toList ++ w := by
  rw [extractWorkspaceFromBracketID, if_pos]
  · unfold getSketchybarBracketSpacerID bracketSpacerItemPrefix bracketItemPrefix
    rw [List.drop_append_eq_append_drop]
    simp
  · exact isBracketItem_getSketchybarBracketSpacerID w

/-! ### Settings, colors and icon configuration

The colors package, the sketchybar transport package and the aerospace
tree types are not under src/, so their constants are modelled; the
values below follow `settings.go` / `icons.go` where those are present. -/

/-- Modelled from the spec: `colors.Transparent` (colors package absent
from src/; the value is irrelevant to the reconciler's control flow). -/
def colorsTransparent : Str := "0x00000000".toList

/-- Modelled from the spec: `colors.White`. -/
def colorsWhite : Str := "0xffffffff".toList

/-- Modelled from the spec: `colors.WhiteA40`. -/
def colorsWhiteA40 : Str := "0x66ffffff".toList

/-- Modelled from the spec: `colors.Black1`. -/
def colorsBlack1 : Str := "0xff161616".toList

/-- `settings.Sketchybar.Aerospace.TransitionTime = "1"` (a string in the
source; `render` parses it with `strconv.Atoi`). -/
def transitionTimeSetting : Str := "1".toList

/-- `strconv.Atoi` on the digits-only strings the settings use (Atoi's
sign handling is irrelevant: the one parsed setting is `"1"`): none on an
empty or non-digit string, else the decimal value of the digits. -/
def atoiNat (s : Str) : Option Nat :=
  if s ≠ [] ∧ s.all Char.isDigit then
    some (s.foldl (fun n c => n * 10 + (c.toNat - 48)) 0)
  else none

/-- `strconv.Atoi(settings.Sketchybar.Aerospace.TransitionTime)` with the
render's fallback of 5 on a parse error. -/
def transitionTimeMs : Nat := (atoiNat transitionTimeSetting).getD 5

/-- `time.Duration(transitionTimeMs) * time.Millisecond`, in
millisecond units (time is modelled as natural-number milliseconds). -/
def transitionDuration : Nat := transitionTimeMs

/-- `*settings.Sketchybar.ItemSpacing` = 2. -/
def itemSpacing : Int := 2

/-- `*settings.Sketchybar.Aerospace.Padding` = 8. -/
def aerospacePadding : Int := 8

/-- `settings.Sketchybar.Aerospace.WorkspaceBackgroundColor`. -/
def workspaceBackgroundColorSetting : Str := colorsTransparent

/-- `settings.Sketchybar.Aerospace.WorkspaceColor`. -/
def workspaceColorSetting : Str := colorsWhiteA40

/-- `settings.Sketchybar.Aerospace.WorkspaceFocusedBackgroundColor`. -/
def workspaceFocusedBackgroundColorSetting : Str := colorsWhite

/-- `settings.Sketchybar.Aerospace.WorkspaceFocusedColor`. -/
def workspaceFocusedColorSetting : Str := colorsBlack1

/-- `settings.Sketchybar.Aerospace.WindowColor`. -/
def windowColorSetting : Str := colorsWhiteA40

/-- `settings.Sketchybar.Aerospace.WindowFocusedColor`. -/
def windowFocusedColorSetting : Str := colorsWhite

/-- Modelled from the spec: `settings.FontAppIcon` (value not in src/). -/
def fontAppIcon : Str := "sketchybar-app-font:Regular:16.0".toList

/-- Modelled from the spec: `sketchybar.AnimationTanh` (sketchybar
package absent from src/). -/
def sketchybarAnimationTanh : Str := "tanh".toList

/-- Modelled from the spec: `events.DisplayChange` (sketchybar events
package absent from src/). -/
def eventsDisplayChange : Str := "display_change".toList

/-- Modelled from the spec: `events.SpaceWindowsChange`. -/
def eventsSpaceWindowsChange : Str := "space_windows_change".toList

/-- Modelled from the spec: `events.SystemWoke`. -/
def eventsSystemWoke : Str := "system_woke".toList

/-- Modelled from the spec: `events.FrontAppSwitched`. -/
def eventsFrontAppSwitched : Str := "front_app_switched".toList

/-- `icons.Workspace` from icons.go: the sole visibility filter; keys are
the six configured workspace names. -/
def iconsWorkspace : List (Str × Str) :=
  [("1".toList, "".toList),
   ("2".toList, "".toList),
   ("3".toList, "􀌤".toList),
   ("4".toList, "".toList),
   ("5".toList, "􀍉".toList),
   ("6".toList, "".toList)]

/-- `icons.IconInfo`. -/
structure IconInfo where
  icon : Str
  font : Str

/-- `icons.Unknown`. -/
def iconsUnknown : Str := "󰀧".toList

/-- Modelled from the spec: `icons.App` is configuration data absent from
the staged icons.go; windows whose app is not in the map fall back to
`icons.Unknown`, which is the only behavior the reconciler depends on. -/
def iconsApp : List (Str × IconInfo) := []

/-! ### Tree model

Modelled from the spec (§3 data model): the `internal/aerospace` tree
types are not under src/; fields and names follow their uses in the
items package (`tree.Monitors`, `monitor.Monitor`, `monitor.Workspaces`,
`workspace.Workspace`, `workspace.Windows`, `tree.IndexedWindows`,
`window.App`). -/

/-- Modelled from the spec: a window (integer id, owning application,
owning workspace). -/
structure Window where
  id : Int
  app : Str
  workspace : Str
deriving DecidableEq

/-- Modelled from the spec: a workspace with its ordered window-id list. -/
structure WorkspaceWithWindowIDs where
  workspace : Str
  windows : List Int
deriving DecidableEq

/-- Modelled from the spec: a monitor (integer id) with its ordered
workspaces. -/
structure MonitorWithWorkspaces where
  monitor : Int
  workspaces : List WorkspaceWithWindowIDs
deriving DecidableEq

/-- Modelled from the spec: the snapshot tree (ordered monitors plus the
WindowID index). -/
structure Tree where
  monitors : List MonitorWithWorkspaces
  indexedWindows : List (Int × Window)
deriving DecidableEq

/-- The `icons.Workspace` visibility filter applied inside `render`:
`if _, ok := icons.Workspace[workspace.Workspace]; ok`. -/
def isVisibleWorkspace (w : WorkspaceWithWindowIDs) : Bool :=
  (alookup iconsWorkspace w.workspace).isSome

/-- The `visibleWorkspaces` slice built per monitor inside `render`. -/
def visibleWorkspaces (m : MonitorWithWorkspaces) : List WorkspaceWithWindowIDs :=
  m.workspaces.filter isVisibleWorkspace

/-! ### Item options (sketchybar transport payloads)

Modelled from the spec: `internal/sketchybar`'s `ItemOptions` /
`BracketOptions` and their `ToArgs` are not under src/. Only the fields
the aerospace item sets are modelled; `toArgs` serializes them as
`key=value` argument strings. No claim depends on this serialization:
commands are classified by their first argument (`--add`, `--remove`,
`--set`, `--animate`, `--move`, `--subscribe`) only. -/

structure ItemOptions where
  display : Str := []
  width : Option Int := none
  paddingLeft : Option Int := none
  paddingRight : Option Int := none
  backgroundDrawing : Str := []
  backgroundColor : Str := []
  iconValue : Str := []
  iconDrawing : Str := []
  iconColor : Str := []
  iconFontFont : Str := []
  iconFontKind : Str := []
  iconFontSize : Str := []
  iconPaddingLeft : Option Int := none
  iconPaddingRight : Option Int := none
  clickScript : Str := []
  updates : Str := []
  script : Str := []
deriving DecidableEq

/-- One `key=value` argument. -/
def kv (k : String) (v : Str) : Str := k.toList ++ v

/-- An optional integer-valued `key=value` argument. -/
def kvInt (k : String) (v : Option Int) : List Str :=
  match v with
  | none => []
  | some i => [k.toList ++ intDec i]

def ItemOptions.toArgs (o : ItemOptions) : List Str :=
  (if o.display = [] then [] else [kv "display=" o.display]) ++
  kvInt "width=" o.width ++
  kvInt "padding_left=" o.paddingLeft ++
  kvInt "padding_right=" o.paddingRight ++
  (if o.backgroundDrawing = [] then [] else [kv "background.drawing=" o.backgroundDrawing]) ++
  (if o.backgroundColor = [] then [] else [kv "background.color=" o.backgroundColor]) ++
  (if o.iconValue = [] then [] else [kv "icon=" o.iconValue]) ++
  (if o.iconDrawing = [] then [] else [kv "icon.drawing=" o.iconDrawing]) ++
  (if o.iconColor = [] then [] else [kv "icon.color=" o.iconColor]) ++
  (if o.iconFontFont = [] then [] else [kv "icon.font=" o.iconFontFont]) ++
  (if o.iconFontKind = [] then [] else [kv "icon.font.kind=" o.iconFontKind]) ++
  (if o.iconFontSize = [] then [] else [kv "icon.font.size=" o.iconFontSize]) ++
  kvInt "icon.padding_left=" o.iconPaddingLeft ++
  kvInt "icon.padding_right=" o.iconPaddingRight ++
  (if o.clickScript = [] then [] else [kv "click_script=" o.clickScript]) ++
  (if o.updates = [] then [] else [kv "updates=" o.updates]) ++
  (if o.script = [] then [] else [kv "script=" o.script])

/-- `sketchybar.BracketOptions` as set by `addWorkspaceBracket`. -/
structure BracketOptions where
  backgroundDrawing : Str := []
  borderColor : Str := []
  backgroundColor : Str := []
deriving DecidableEq

def BracketOptions.toArgs (o : BracketOptions) : List Str :=
  (if o.backgroundDrawing = [] then [] else [kv "background.drawing=" o.backgroundDrawing]) ++
  (if o.borderColor = [] then [] else [kv "background.border_color=" o.borderColor]) ++
  (if o.backgroundColor = [] then [] else [kv "background.color=" o.backgroundColor])

/-! ### Shared item helpers of the aerospace item -/

/-- `workspaceColors` and `getWorkspaceColors`. -/
structure WorkspaceColors where
  backgroundColor : Str
  color : Str

def getWorkspaceColors (isFocusedWorkspace : Bool) : WorkspaceColors :=
  if isFocusedWorkspace then
    { backgroundColor := workspaceFocusedBackgroundColorSetting,
      color := workspaceFocusedColorSetting }
  else
    { backgroundColor := workspaceBackgroundColorSetting,
      color := workspaceColorSetting }

/-- `windowVisibility` and `getWindowVisibility` (`show` is a Lean
keyword, hence `showIcon`). -/
structure WindowVisibility where
  width : Option Int
  showIcon : Str
  color : Str
  focusedColor : Str

def getWindowVisibility (isFocusedWorkspace : Bool) : WindowVisibility :=
  if isFocusedWorkspace then
    { width := some 32, showIcon := "on".toList,
      color := windowColorSetting, focusedColor := windowFocusedColorSetting }
  else
    { width := some 0, showIcon := "off".toList,
      color := colorsTransparent, focusedColor := colorsTransparent }

/-- `getSketchybarDisplayIndex`. -/
def getSketchybarDisplayIndex (monitorCount : Nat) (monitorID : Int) : Str :=
  if monitorCount = 0 then "1".toList
  else
    let result := monitorID + 1
    let result := if result > (monitorCount : Int) then 1 else result
    intDec result

/-- `workspaceToSketchybar`: fails (aggregated error) when the workspace
has no configured icon. -/
def workspaceToSketchybar (isFocusedWorkspace : Bool) (monitorsCount : Nat)
    (monitorID : Int) (workspaceID : Str) : Option ItemOptions :=
  match alookup iconsWorkspace workspaceID with
  | none => none
  | some icon =>
    let colors := getWorkspaceColors isFocusedWorkspace
    some
      { display := getSketchybarDisplayIndex monitorsCount monitorID,
        paddingLeft := some 0,
        paddingRight := some 0,
        backgroundDrawing := "on".toList,
        backgroundColor := colors.backgroundColor,
        iconValue := icon,
        iconColor := colors.color,
        iconPaddingLeft := some aerospacePadding,
        iconPaddingRight := some aerospacePadding,
        clickScript :=
          "aerospace workspace \"".toList ++ workspaceID ++ "\"".toList }

/-- `windowToSketchybar` (`utils.Equals` is modelled as string equality;
internal/utils is not under src/). -/
def windowToSketchybar (isFocusedWorkspace : Bool) (focusedApp : Str)
    (monitorID : Int) (workspaceID : Str) (windowApp : Str) : ItemOptions :=
  let iconInfo :=
    match alookup iconsApp windowApp with
    | some info => info
    | none => { icon := iconsUnknown, font := fontAppIcon }
  let vis := getWindowVisibility isFocusedWorkspace
  let base : ItemOptions :=
    { display := intDec monitorID,
      width := vis.width,
      backgroundDrawing := "off".toList,
      iconDrawing := vis.showIcon,
      iconColor := vis.color,
      iconFontFont := iconInfo.font,
      iconFontKind := "Regular".toList,
      iconFontSize := "14.0".toList,
      iconPaddingLeft := some aerospacePadding,
      iconPaddingRight := some aerospacePadding,
      iconValue := iconInfo.icon,
      clickScript :=
        "aerospace workspace \"".toList ++ workspaceID ++ "\"".toList }
  if windowApp = focusedApp then { base with iconColor := vis.focusedColor } else base

/-- Modelled from the spec: the script `args.BuildEvent` builds (its
`json.Marshal` of a fixed struct never fails, so the checker item never
contributes an error). -/
def buildEventScript : Str :=
  "echo update args to fifo".toList

/-- The checker item options built inside `checker`. -/
def checkerItemOptions : ItemOptions :=
  { backgroundDrawing := "off".toList,
    updates := "on".toList,
    script := buildEventScript }

/-- The three commands `checker` appends. -/
def checkerCmds (position : Str) : Batches :=
  [["--add".toList, "item".toList, aerospaceCheckerItemName, position],
   ["--set".toList, aerospaceCheckerItemName] ++ checkerItemOptions.toArgs,
   ["--subscribe".toList, aerospaceCheckerItemName, eventsDisplayChange,
    eventsSpaceWindowsChange, eventsSystemWoke, eventsFrontAppSwitched]]

/-- The global `aerospace.spacer` item options built inside `render`. -/
def aerospaceSpacerItemOptions : ItemOptions :=
  { width := some (itemSpacing * 2), backgroundDrawing := "off".toList }

/-- The spacer item options built by `addWorkspaceSpacer`. -/
def workspaceSpacerItemOptions : ItemOptions :=
  { width := some (itemSpacing * 2), backgroundDrawing := "off".toList }

/-- `addWorkspaceSpacer`: add plus set. -/
def addWorkspaceSpacerCmds (workspaceID : Str) (position : Str) : Batches :=
  [["--add".toList, "item".toList, getSketchybarSpacerID workspaceID, position],
   ["--set".toList, getSketchybarSpacerID workspaceID] ++ workspaceSpacerItemOptions.toArgs]

/-- The shrink/hide animate command started for a disappearing window. -/
def animateCloseCmd (itemID : Str) : Cmd :=
  ["--animate".toList, sketchybarAnimationTanh, transitionTimeSetting,
   "--set".toList, itemID, "icon.drawing=off".toList, "width=0".toList]

/-! ### Phases shared verbatim by the two render variants

The loops below appear with identical text in both source files, so they
are defined once, over the state pieces they read and write. -/

/-- One iteration of the loop "remove brackets for workspaces that no
longer have windows". -/
def removeEmptyBracketsStep (rendered newIts : List Str)
    (acc : Batches × List (Str × Str)) (entry : Str × List Str) :
    Batches × List (Str × Str) :=
  let bracketID := getSketchybarBracketID entry.1
  if bracketID ∈ rendered ∧ bracketID ∉ newIts then
    (acc.1 ++ [["--remove".toList, bracketID]], aerase acc.2 entry.1)
  else acc

/-- The loop "remove brackets for workspaces that no longer have windows":
for each tracked workspace whose bracket is rendered but absent from the
target set, emit a remove and drop its `bracketStates` entry. -/
def removeEmptyBrackets (rendered : List Str) (wwids : List (Str × List Str))
    (bstates : List (Str × Str)) (newIts : List Str) (batches : Batches) :
    Batches × List (Str × Str) :=
  wwids.foldl (removeEmptyBracketsStep rendered newIts) (batches, bstates)

/-- One iteration of the disappearance loop (lines 158-184 of the first
variant, 159-185 of the second), threading (batches, closingItems,
bracketStates). -/
def closeStaleStep (newIts : List Str) (now : Nat)
    (acc : Batches × List (Str × Nat) × List (Str × Str)) (itemID : Str) :
    Batches × List (Str × Nat) × List (Str × Str) :=
  if itemID ∈ newIts then acc
  else if (alookup acc.2.1 itemID).isSome then acc
  else
    let closing := aupsert acc.2.1 itemID now
    if isBracketItem itemID then
      (acc.1 ++ [["--remove".toList, itemID]],
       aerase closing itemID,
       aerase acc.2.2 (extractWorkspaceFromBracketID itemID))
    else if isWindowItem itemID then
      (acc.1 ++ [animateCloseCmd itemID], closing, acc.2.2)
    else
      (acc.1, closing, acc.2.2)

/-- The disappearance loop over `renderedItems`. -/
def closeStale (rendered newIts : List Str) (now : Nat) (batches : Batches)
    (closing : List (Str × Nat)) (bracketStates : List (Str × Str)) :
    Batches × List (Str × Nat) × List (Str × Str) :=
  rendered.foldl (closeStaleStep newIts now) (batches, closing, bracketStates)

/-- One iteration of the expiry sweep. -/
def sweepStep (now : Nat) (acc : Batches × List (Str × Nat)) (entry : Str × Nat) :
    Batches × List (Str × Nat) :=
  if entry.2 + transitionDuration ≤ now then
    (acc.1 ++ [["--remove".toList, entry.1]], aerase acc.2 entry.1)
  else acc

/-- The expiry sweep: remove every closing item whose animation has run
for at least `transitionDuration`. -/
def sweepExpired (now : Nat) (batches : Batches) (closing : List (Str × Nat)) :
    Batches × List (Str × Nat) :=
  closing.foldl (sweepStep now) (batches, closing)

/-- The checker and global-spacer section of step 3 (identical in the two
variants): add the checker (with its subscriptions) and the global spacer
when not yet rendered, and always reissue the spacer's set command. -/
def checkerSpacerSection (rendered : List Str) (batches : Batches) (position : Str) :
    Batches :=
  let batches3 :=
    if aerospaceCheckerItemName ∈ rendered then batches
    else batches ++ checkerCmds position
  (if aerospaceGlobalSpacerID ∈ rendered then batches3
   else batches3 ++ [["--add".toList, "item".toList, aerospaceGlobalSpacerID, position]]) ++
  [["--set".toList, aerospaceGlobalSpacerID] ++ aerospaceSpacerItemOptions.toArgs]

/-- One iteration of the first window pass. -/
def windowsFirstPassStep (t : Tree) (isFocusedWorkspace : Bool) (focusedApp : Str)
    (monitorID : Int) (workspaceID : Str) (oldRendered : List Str) (position : Str)
    (b : Batches) (windowID : Int) : Batches :=
  match alookup t.indexedWindows windowID with
  | none => b
  | some window =>
    let windowItem :=
      windowToSketchybar isFocusedWorkspace focusedApp monitorID workspaceID window.app
    let sketchybarWindowID := getSketchybarWindowID windowID
    if sketchybarWindowID ∈ oldRendered then b
    else
      let initialWindowItem :=
        { windowItem with width := some 0, iconDrawing := "off".toList }
      b ++ [["--add".toList, "item".toList, sketchybarWindowID, position],
            ["--set".toList, sketchybarWindowID] ++ initialWindowItem.toArgs]

/-- The first window pass (identical in the two variants): add each
window that is not yet rendered, in its zero-width, icon-hidden initial
state. -/
def windowsFirstPass (t : Tree) (isFocusedWorkspace : Bool) (focusedApp : Str)
    (monitorID : Int) (workspaceID : Str) (oldRendered : List Str) (position : Str)
    (batches : Batches) (windows : List Int) : Batches :=
  windows.foldl
    (windowsFirstPassStep t isFocusedWorkspace focusedApp monitorID workspaceID
      oldRendered position)
    batches

/-! ## The first reconciler variant (src/unnamed/part_005) -/

namespace P5

/-- The `AerospaceItem` render state of the first variant: `renderedItems`
(a `map[string]bool` used as a set), `closingItems` (id to the closing
animation's start time), `workspaceWindowIDs` and `bracketStates`. -/
structure St where
  renderedItems : List Str
  closingItems : List (Str × Nat)
  workspaceWindowIDs : List (Str × List Str)
  bracketStates : List (Str × Str)
deriving DecidableEq

/-- The fresh state `NewAerospaceItem` starts from. -/
def initialSt : St :=
  { renderedItems := [], closingItems := [], workspaceWindowIDs := [], bracketStates := [] }

/-- The target-set entries one visible workspace contributes in the first
variant: workspace item, bracket item, bracket spacer, then one entry per
window id (render lines 127-132). -/
def workspaceNewItems (w : WorkspaceWithWindowIDs) : List Str :=
  [getSketchybarWorkspaceID w.workspace, getSketchybarBracketID w.workspace,
   getSketchybarBracketSpacerID w.workspace] ++ w.windows.map getSketchybarWindowID

/-- The `for i, workspace := range visibleWorkspaces` loop of the
target-set computation: every workspace contributes `workspaceNewItems`,
and every workspace but the last contributes its inter-workspace spacer. -/
def visibleLoopNewItems : List Str → List WorkspaceWithWindowIDs → List Str
  | acc, [] => acc
  | acc, [w] => insertAll acc (workspaceNewItems w)
  | acc, w :: ws =>
    visibleLoopNewItems
      (sinsert (insertAll acc (workspaceNewItems w)) (getSketchybarSpacerID w.workspace)) ws

/-- Step 1 of `render`: the full target set (`newItems`), starting with
the checker item and the global spacer. -/
def newItems (t : Tree) : List Str :=
  t.monitors.foldl (fun acc m => visibleLoopNewItems acc (visibleWorkspaces m))
    (insertAll [] [aerospaceCheckerItemName, aerospaceGlobalSpacerID])

/-- `addBracketSpacer`: add plus set of the zero-width bracket spacer. -/
def addBracketSpacerCmds (workspaceID : Str) (position : Str) : Batches :=
  [["--add".toList, "item".toList, getSketchybarBracketSpacerID workspaceID, position],
   ["--set".toList, getSketchybarBracketSpacerID workspaceID] ++
     (ItemOptions.toArgs { width := some 0, backgroundDrawing := "off".toList })]

/-- `addWorkspaceBracket` of the first variant: the bracket binds exactly
the workspace icon and the bracket spacer. -/
def addWorkspaceBracketCmds (isFocusedWorkspace : Bool) (workspaceID : Str) : Batches :=
  let colors := getWorkspaceColors isFocusedWorkspace
  [["--add".toList, "bracket".toList, getSketchybarBracketID workspaceID,
    getSketchybarWorkspaceID workspaceID, getSketchybarBracketSpacerID workspaceID],
   ["--set".toList, getSketchybarBracketID workspaceID] ++
     (BracketOptions.toArgs
       { backgroundDrawing := "on".toList,
         borderColor := colors.backgroundColor,
         backgroundColor := colorsTransparent })]

/-- `handleWorkspaceBracket` of the first variant: always animate the
border color (transparent when the workspace has no windows). -/
def handleWorkspaceBracketCmd (w : WorkspaceWithWindowIDs) (isFocusedWorkspace : Bool) : Cmd :=
  let colors := getWorkspaceColors isFocusedWorkspace
  let borderColor := if w.windows = [] then colorsTransparent else colors.backgroundColor
  ["--animate".toList, sketchybarAnimationTanh, transitionTimeSetting,
   "--set".toList, getSketchybarBracketID w.workspace,
   "background.border_color=".toList ++ borderColor]

/-- One iteration of the first variant's second window pass. -/
def windowsSecondPassStep (t : Tree) (isFocusedWorkspace : Bool) (focusedApp : Str)
    (monitorID : Int) (workspaceID : Str) (bp : Batches × Str) (windowID : Int) :
    Batches × Str :=
  match alookup t.indexedWindows windowID with
  | none => bp
  | some window =>
    let windowItem :=
      windowToSketchybar isFocusedWorkspace focusedApp monitorID workspaceID window.app
    let sketchybarWindowID := getSketchybarWindowID windowID
    (bp.1 ++
      [["--move".toList, sketchybarWindowID, "after".toList, bp.2],
       ["--animate".toList, sketchybarAnimationTanh, transitionTimeSetting,
        "--set".toList, sketchybarWindowID] ++ windowItem.toArgs],
     sketchybarWindowID)

/-- The second window pass of the first variant: move each window after
its previous sibling (chaining from the workspace icon) and animate it to
its final state. -/
def windowsSecondPass (t : Tree) (isFocusedWorkspace : Bool) (focusedApp : Str)
    (monitorID : Int) (workspaceID : Str) (start : Batches × Str) (windows : List Int) :
    Batches × Str :=
  windows.foldl
    (windowsSecondPassStep t isFocusedWorkspace focusedApp monitorID workspaceID)
    start

/-- The per-workspace body of the update pass (render lines 226-316),
threading (batches, workspaceWindowIDs, bracketStates, aggregated-error
flag). `oldRendered` is `item.renderedItems`, still unreplaced during
this loop. -/
def workspaceUpdate (t : Tree) (monitorsCount : Nat) (monitorID : Int)
    (focusedWorkspaceID focusedApp : Str) (oldRendered : List Str) (position : Str)
    (isLast : Bool)
    (acc : Batches × List (Str × List Str) × List (Str × Str) × Bool)
    (w : WorkspaceWithWindowIDs) :
    Batches × List (Str × List Str) × List (Str × Str) × Bool :=
  let (batches, wwids, bstates, errFlag) := acc
  let isFocusedWorkspace : Bool := focusedWorkspaceID = w.workspace
  match workspaceToSketchybar isFocusedWorkspace monitorsCount monitorID w.workspace with
  | none => (batches, wwids, bstates, true)
  | some workspaceSpace =>
    let sketchybarSpaceID := getSketchybarWorkspaceID w.workspace
    let batches :=
      if sketchybarSpaceID ∈ oldRendered then batches
      else batches ++ [["--add".toList, "item".toList, sketchybarSpaceID, position]]
    let batches :=
      batches ++ [["--animate".toList, sketchybarAnimationTanh, transitionTimeSetting,
                   "--set".toList, sketchybarSpaceID] ++ workspaceSpace.toArgs]
    let batches := windowsFirstPass t isFocusedWorkspace focusedApp monitorID w.workspace
      oldRendered position batches w.windows
    let sketchybarWindowIDs := w.windows.map
      (fun windowID =>
        if (alookup t.indexedWindows windowID).isSome then getSketchybarWindowID windowID
        else [])
    let secondPass := windowsSecondPass t isFocusedWorkspace focusedApp monitorID
      w.workspace (batches, sketchybarSpaceID) w.windows
    let batches := secondPass.1
    let batches :=
      if getSketchybarBracketSpacerID w.workspace ∈ oldRendered then batches
      else batches ++ addBracketSpacerCmds w.workspace position
    let batches :=
      if getSketchybarBracketID w.workspace ∈ oldRendered then batches
      else batches ++ addWorkspaceBracketCmds isFocusedWorkspace w.workspace
    let batches := batches ++ [handleWorkspaceBracketCmd w isFocusedWorkspace]
    let wwids := aupsert wwids w.workspace sketchybarWindowIDs
    let cleaned :=
      if w.windows = [] then (aerase wwids w.workspace, aerase bstates w.workspace)
      else (wwids, bstates)
    let batches :=
      if isLast then batches
      else if getSketchybarSpacerID w.workspace ∈ oldRendered then batches
      else batches ++ addWorkspaceSpacerCmds w.workspace position
    (batches, cleaned.1, cleaned.2, errFlag)

/-- The `for i, workspace := range visibleWorkspaces` update loop: only
the last visible workspace of a monitor skips the inter-workspace
spacer. -/
def visibleLoopUpdate (t : Tree) (monitorsCount : Nat) (monitorID : Int)
    (focusedWorkspaceID focusedApp : Str) (oldRendered : List Str) (position : Str) :
    (Batches × List (Str × List Str) × List (Str × Str) × Bool) →
      List WorkspaceWithWindowIDs →
      Batches × List (Str × List Str) × List (Str × Str) × Bool
  | acc, [] => acc
  | acc, [w] =>
    workspaceUpdate t monitorsCount monitorID focusedWorkspaceID focusedApp oldRendered
      position true acc w
  | acc, w :: ws =>
    visibleLoopUpdate t monitorsCount monitorID focusedWorkspaceID focusedApp oldRendered
      position
      (workspaceUpdate t monitorsCount monitorID focusedWorkspaceID focusedApp oldRendered
        position false acc w) ws

/-- Step 3's monitor loop (workspaces, windows, brackets, spacers). -/
def updatePass (t : Tree) (focusedWorkspaceID focusedApp : Str)
    (oldRendered : List Str) (position : Str) (batches : Batches)
    (wwids : List (Str × List Str)) (bstates : List (Str × Str)) :
    Batches × List (Str × List Str) × List (Str × Str) × Bool :=
  t.monitors.foldl
    (fun acc m =>
      visibleLoopUpdate t t.monitors.length m.monitor focusedWorkspaceID focusedApp
        oldRendered position acc (visibleWorkspaces m))
    (batches, wwids, bstates, false)

/-- The result of one `render` call: the extended batch, the new state,
and whether an error was returned. -/
structure RenderOut where
  batches : Batches
  st : St
  err : Bool
deriving DecidableEq

/-- `AerospaceItem.render` of the first variant, as a pure function of
the snapshot (`GetTree`), the focus state, the wall clock and the render
state. A nil tree aborts the cycle with the batch and state untouched. -/
def render (tree : Option Tree) (focusedWorkspaceID focusedApp : Str) (now : Nat)
    (st : St) (batches : Batches) (position : Str) : RenderOut :=
  match tree with
  | none => { batches := batches, st := st, err := true }
  | some t =>
    let newIts := newItems t
    let step2a := removeEmptyBrackets st.renderedItems st.workspaceWindowIDs st.bracketStates
      newIts batches
    let step2b := closeStale st.renderedItems newIts now step2a.1 st.closingItems step2a.2
    let step2c := sweepExpired now step2b.1 step2b.2.1
    let batches4 := checkerSpacerSection st.renderedItems step2c.1 position
    let step3 := updatePass t focusedWorkspaceID focusedApp st.renderedItems position
      batches4 st.workspaceWindowIDs step2b.2.2
    { batches := step3.1,
      st :=
        { renderedItems := newIts,
          closingItems := step2c.2,
          workspaceWindowIDs := step3.2.1,
          bracketStates := step3.2.2.1 },
      err := step3.2.2.2 }

end P5

/-! ## The second reconciler variant (src/unnamed/part_006) -/

namespace P6

/-- The render state of the second variant: as the first, plus
`pendingBracketUpdates` (brackets deferred while windows animate). -/
structure St where
  renderedItems : List Str
  closingItems : List (Str × Nat)
  workspaceWindowIDs : List (Str × List Str)
  pendingBracketUpdates : List (Str × List Str)
  bracketStates : List (Str × Str)
deriving DecidableEq

/-- The fresh state `NewAerospaceItem` starts from. -/
def initialSt : St :=
  { renderedItems := [], closingItems := [], workspaceWindowIDs := [],
    pendingBracketUpdates := [], bracketStates := [] }

/-- The target-set entries one visible workspace contributes in the
second variant: workspace item, the window items, and the bracket only
when the workspace has at least one window (render lines 127-133). -/
def workspaceNewItems (w : WorkspaceWithWindowIDs) : List Str :=
  getSketchybarWorkspaceID w.workspace :: w.windows.map getSketchybarWindowID ++
    (if w.windows = [] then [] else [getSketchybarBracketID w.workspace])

/-- The target-set loop over a monitor's visible workspaces. -/
def visibleLoopNewItems : List Str → List WorkspaceWithWindowIDs → List Str
  | acc, [] => acc
  | acc, [w] => insertAll acc (workspaceNewItems w)
  | acc, w :: ws =>
    visibleLoopNewItems
      (sinsert (insertAll acc (workspaceNewItems w)) (getSketchybarSpacerID w.workspace)) ws

/-- Step 1 of the second variant's `render`. -/
def newItems (t : Tree) : List Str :=
  t.monitors.foldl (fun acc m => visibleLoopNewItems acc (visibleWorkspaces m))
    (insertAll [] [aerospaceCheckerItemName, aerospaceGlobalSpacerID])

/-- The element-order comparison loop of `bracketNeedsUpdate`:
`for i, windowID := range currentWindowIDs { if i >= len(previous) ||
windowID != previous[i] { return true } }`. -/
def windowIDsDiffer : List Str → List Str → Bool
  | _, [] => false
  | [], _ :: _ => true
  | p :: ps, c :: cs => if c ≠ p then true else windowIDsDiffer ps cs

/-- `bracketNeedsUpdate` (render lines 446-466): with no recorded
membership it requires current windows to exist; otherwise it compares
length and element order. -/
def bracketNeedsUpdate (wwids : List (Str × List Str)) (workspaceID : Str)
    (currentWindowIDs : List Str) : Bool :=
  match alookup wwids workspaceID with
  | none => decide (0 < currentWindowIDs.length)
  | some previousWindowIDs =>
    if previousWindowIDs.length ≠ currentWindowIDs.length then true
    else windowIDsDiffer previousWindowIDs currentWindowIDs

/-- `hasAnimatingWindows`: a window still opening (not yet rendered) or a
window item still inside its closing animation window. -/
def hasAnimatingWindows (oldRendered : List Str) (closing : List (Str × Nat))
    (workspaceID : Str) (currentWindowIDs : List Str) (now : Nat) : Bool :=
  currentWindowIDs.any (fun windowID => !(decide (windowID ∈ oldRendered))) ||
  closing.any (fun e =>
    isWindowItem e.1 && belongsToWorkspace e.1 workspaceID &&
      decide (now < e.2 + transitionDuration))

/-- `addWorkspaceBracket` of the second variant: binds the workspace icon
and the non-empty window ids; adds nothing when no window id is valid. -/
def addWorkspaceBracketCmds (isFocusedWorkspace : Bool) (workspaceID : Str)
    (sketchybarWindowIDs : List Str) : Batches :=
  let colors := getWorkspaceColors isFocusedWorkspace
  let validWindowIDs := sketchybarWindowIDs.filter (fun windowID => windowID ≠ [])
  if validWindowIDs = [] then []
  else
    [["--add".toList, "bracket".toList, getSketchybarBracketID workspaceID,
      getSketchybarWorkspaceID workspaceID] ++ validWindowIDs,
     ["--set".toList, getSketchybarBracketID workspaceID] ++
       (BracketOptions.toArgs
         { backgroundDrawing := "on".toList,
           borderColor := colors.backgroundColor,
           backgroundColor := colorsTransparent })]

/-- One iteration of the second variant's second window pass. -/
def windowsSecondPassStep (t : Tree) (isFocusedWorkspace : Bool) (focusedApp : Str)
    (monitorID : Int) (workspaceID : Str) (oldRendered : List Str)
    (bp : Batches × Str) (windowID : Int) : Batches × Str :=
  match alookup t.indexedWindows windowID with
  | none => bp
  | some window =>
    let windowItem :=
      windowToSketchybar isFocusedWorkspace focusedApp monitorID workspaceID window.app
    let sketchybarWindowID := getSketchybarWindowID windowID
    let isNewWindow : Bool := !(decide (sketchybarWindowID ∈ oldRendered))
    let moves :=
      if isNewWindow then
        [["--move".toList, sketchybarWindowID, "after".toList, bp.2],
         ["--move".toList, sketchybarWindowID, "after".toList, bp.2]]
      else [["--move".toList, sketchybarWindowID, "after".toList, bp.2]]
    (bp.1 ++ moves ++
      [["--animate".toList, sketchybarAnimationTanh, transitionTimeSetting,
        "--set".toList, sketchybarWindowID] ++ windowItem.toArgs],
     sketchybarWindowID)

/-- The second window pass of the second variant: the move command is
issued twice for a new window ("ensure proper positioning before
animation"), then the animate-to-final-state command. -/
def windowsSecondPass (t : Tree) (isFocusedWorkspace : Bool) (focusedApp : Str)
    (monitorID : Int) (workspaceID : Str) (oldRendered : List Str)
    (start : Batches × Str) (windows : List Int) : Batches × Str :=
  windows.foldl
    (windowsSecondPassStep t isFocusedWorkspace focusedApp monitorID workspaceID
      oldRendered)
    start

/-- The accumulator threaded through the second variant's update pass. -/
structure UpdAcc where
  batches : Batches
  wwids : List (Str × List Str)
  bstates : List (Str × Str)
  pending : List (Str × List Str)
  errFlag : Bool
deriving DecidableEq

/-- `updateWorkspaceBracket`: remove the rendered bracket, clear stale
state, add the new bracket, overwrite `workspaceWindowIDs` and record the
bracket key. -/
def updateWorkspaceBracket (oldRendered : List Str) (acc : UpdAcc)
    (workspaceID : Str) (windowIDs : List Str) (isFocused : Bool) : UpdAcc :=
  let bracketID := getSketchybarBracketID workspaceID
  let batches :=
    if bracketID ∈ oldRendered then acc.batches ++ [["--remove".toList, bracketID]]
    else acc.batches
  let bstates := aerase acc.bstates workspaceID
  let pending := aerase acc.pending workspaceID
  let batches := batches ++ addWorkspaceBracketCmds isFocused workspaceID windowIDs
  let wwids := aupsert acc.wwids workspaceID windowIDs
  let bstates := aupsert bstates workspaceID (List.intercalate ",".toList windowIDs)
  { batches := batches, wwids := wwids, bstates := bstates, pending := pending,
    errFlag := acc.errFlag }

/-- `handleWorkspaceBracket` of the second variant: only recolor when the
membership is unchanged; defer while windows animate; otherwise recreate. -/
def handleWorkspaceBracket (oldRendered : List Str) (closing : List (Str × Nat))
    (now : Nat) (acc : UpdAcc) (w : WorkspaceWithWindowIDs)
    (sketchybarWindowIDs : List Str) (isFocusedWorkspace : Bool) : UpdAcc :=
  let bracketID := getSketchybarBracketID w.workspace
  let needsUpdate : Bool :=
    !(decide (bracketID ∈ oldRendered)) ||
      bracketNeedsUpdate acc.wwids w.workspace sketchybarWindowIDs
  if needsUpdate then
    if hasAnimatingWindows oldRendered closing w.workspace sketchybarWindowIDs now then
      { acc with pending := aupsert acc.pending w.workspace sketchybarWindowIDs }
    else
      updateWorkspaceBracket oldRendered acc w.workspace sketchybarWindowIDs
        isFocusedWorkspace
  else
    let colors := getWorkspaceColors isFocusedWorkspace
    let batches :=
      if bracketID ∈ oldRendered then
        acc.batches ++
          [["--animate".toList, sketchybarAnimationTanh, transitionTimeSetting,
            "--set".toList, bracketID,
            "background.border_color=".toList ++ colors.backgroundColor]]
      else acc.batches
    { acc with batches := batches }

/-- `processPendingBracketUpdates`: flush every deferred bracket whose
workspace has no animating window left. -/
def processPendingBracketUpdates (oldRendered : List Str) (closing : List (Str × Nat))
    (focusedWorkspaceID : Str) (now : Nat) (acc : UpdAcc) : UpdAcc :=
  acc.pending.foldl
    (fun a entry =>
      if hasAnimatingWindows oldRendered closing entry.1 entry.2 now then a
      else
        updateWorkspaceBracket oldRendered a entry.1 entry.2
          (decide (focusedWorkspaceID = entry.1)))
    acc

/-- The per-workspace body of the second variant's update pass. -/
def workspaceUpdate (t : Tree) (monitorsCount : Nat) (monitorID : Int)
    (focusedWorkspaceID focusedApp : Str) (oldRendered : List Str)
    (closing : List (Str × Nat)) (now : Nat) (position : Str) (isLast : Bool)
    (acc : UpdAcc) (w : WorkspaceWithWindowIDs) : UpdAcc :=
  let isFocusedWorkspace : Bool := focusedWorkspaceID = w.workspace
  match workspaceToSketchybar isFocusedWorkspace monitorsCount monitorID w.workspace with
  | none => { acc with errFlag := true }
  | some workspaceSpace =>
    let sketchybarSpaceID := getSketchybarWorkspaceID w.workspace
    let batches :=
      if sketchybarSpaceID ∈ oldRendered then acc.batches
      else acc.batches ++ [["--add".toList, "item".toList, sketchybarSpaceID, position]]
    let batches :=
      batches ++ [["--animate".toList, sketchybarAnimationTanh, transitionTimeSetting,
                   "--set".toList, sketchybarSpaceID] ++ workspaceSpace.toArgs]
    let batches := windowsFirstPass t isFocusedWorkspace focusedApp monitorID w.workspace
      oldRendered position batches w.windows
    let sketchybarWindowIDs := w.windows.map
      (fun windowID =>
        if (alookup t.indexedWindows windowID).isSome then getSketchybarWindowID windowID
        else [])
    let secondPass := windowsSecondPass t isFocusedWorkspace focusedApp monitorID
      w.workspace oldRendered (batches, sketchybarSpaceID) w.windows
    let acc1 : UpdAcc := { acc with batches := secondPass.1 }
    let acc2 :=
      if w.windows = [] then
        { acc1 with
            wwids := aerase acc1.wwids w.workspace,
            pending := aerase acc1.pending w.workspace,
            bstates := aerase acc1.bstates w.workspace }
      else
        handleWorkspaceBracket oldRendered closing now acc1 w sketchybarWindowIDs
          isFocusedWorkspace
    let batches :=
      if isLast then acc2.batches
      else if getSketchybarSpacerID w.workspace ∈ oldRendered then acc2.batches
      else acc2.batches ++ addWorkspaceSpacerCmds w.workspace position
    { acc2 with batches := batches }

/-- The update loop over a monitor's visible workspaces. -/
def visibleLoopUpdate (t : Tree) (monitorsCount : Nat) (monitorID : Int)
    (focusedWorkspaceID focusedApp : Str) (oldRendered : List Str)
    (closing : List (Str × Nat)) (now : Nat) (position : Str) :
    UpdAcc → List WorkspaceWithWindowIDs → UpdAcc
  | acc, [] => acc
  | acc, [w] =>
    workspaceUpdate t monitorsCount monitorID focusedWorkspaceID focusedApp oldRendered
      closing now position true acc w
  | acc, w :: ws =>
    visibleLoopUpdate t monitorsCount monitorID focusedWorkspaceID focusedApp oldRendered
      closing now position
      (workspaceUpdate t monitorsCount monitorID focusedWorkspaceID focusedApp oldRendered
        closing now position false acc w) ws

/-- Step 3's monitor loop of the second variant. -/
def updatePass (t : Tree) (focusedWorkspaceID focusedApp : Str)
    (oldRendered : List Str) (closing : List (Str × Nat)) (now : Nat)
    (position : Str) (batches : Batches) (wwids : List (Str × List Str))
    (pending : List (Str × List Str)) (bstates : List (Str × Str)) : UpdAcc :=
  t.monitors.foldl
    (fun acc m =>
      visibleLoopUpdate t t.monitors.length m.monitor focusedWorkspaceID focusedApp
        oldRendered closing now position acc (visibleWorkspaces m))
    { batches := batches, wwids := wwids, bstates := bstates, pending := pending,
      errFlag := false }

/-- The result of one `render` call of the second variant. -/
structure RenderOut where
  batches : Batches
  st : St
  err : Bool
deriving DecidableEq

/-- `AerospaceItem.render` of the second variant. -/
def render (tree : Option Tree) (focusedWorkspaceID focusedApp : Str) (now : Nat)
    (st : St) (batches : Batches) (position : Str) : RenderOut :=
  match tree with
  | none => { batches := batches, st := st, err := true }
  | some t =>
    let newIts := newItems t
    let step2a := removeEmptyBrackets st.renderedItems st.workspaceWindowIDs st.bracketStates
      newIts batches
    let step2b := closeStale st.renderedItems newIts now step2a.1 st.closingItems step2a.2
    let step2c := sweepExpired now step2b.1 step2b.2.1
    let batches4 := checkerSpacerSection st.renderedItems step2c.1 position
    let step3 := updatePass t focusedWorkspaceID focusedApp st.renderedItems step2c.2 now
      position batches4 st.workspaceWindowIDs st.pendingBracketUpdates step2b.2.2
    let step4 := processPendingBracketUpdates st.renderedItems step2c.2 focusedWorkspaceID
      now step3
    { batches := step4.batches,
      st :=
        { renderedItems := newIts,
          closingItems := step2c.2,
          workspaceWindowIDs := step4.wwids,
          pendingBracketUpdates := step4.pending,
          bracketStates := step4.bstates },
      err := step4.errFlag }

end P6

/-! ## Target-set membership characterizations -/

namespace P5

theorem mem_workspaceNewItems {w : WorkspaceWithWindowIDs} {y : Str} :
    y ∈ workspaceNewItems w ↔
      y = getSketchybarWorkspaceID w.workspace ∨
      y = getSketchybarBracketID w.workspace ∨
      y = getSketchybarBracketSpacerID w.workspace ∨
      ∃ wid ∈ w.windows, y = getSketchybarWindowID wid := by
  simp [workspaceNewItems, eq_comm]

theorem mem_visibleLoopNewItems :
    ∀ (ws : List WorkspaceWithWindowIDs) (acc : List Str) (y : Str),
      y ∈ visibleLoopNewItems acc ws ↔
        y ∈ acc ∨ (∃ w ∈ ws, y ∈ workspaceNewItems w) ∨
          ∃ w ∈ ws.dropLast, y = getSketchybarSpacerID w.workspace := by
  intro ws
  induction ws with
  | nil => intro acc y; simp [visibleLoopNewItems]
  | cons w ws ih =>
    intro acc y
    cases ws with
    | nil =>
      simp [visibleLoopNewItems, mem_insertAll]
    | cons w2 rest =>
      have hstep :
          visibleLoopNewItems acc (w :: w2 :: rest) =
            visibleLoopNewItems
              (sinsert (insertAll acc (workspaceNewItems w))
                (getSketchybarSpacerID w.workspace)) (w2 :: rest) := rfl
      have hdrop : (w :: w2 :: rest).dropLast = w :: (w2 :: rest).dropLast := rfl
      rw [hstep, ih, mem_sinsert, mem_insertAll, hdrop]
      constructor
      · rintro (((h | h) | h) | h | h)
        · exact Or.inl h
        · exact Or.inr (Or.inl ⟨w, by simp, h⟩)
        · exact Or.inr (Or.inr ⟨w, by simp, h⟩)
        · rcases h with ⟨w3, h3, hy⟩
          exact Or.inr (Or.inl ⟨w3, by simp [h3], hy⟩)
        · rcases h with ⟨w3, h3, hy⟩
          exact Or.inr (Or.inr ⟨w3, by simp [h3], hy⟩)
      · rintro (h | h | h)
        · exact Or.inl (Or.inl (Or.inl h))
        · rcases h with ⟨w3, h3, hy⟩
          rcases List.mem_cons.mp h3 with rfl | h3
          · exact Or.inl (Or.inl (Or.inr hy))
          · exact Or.inr (Or.inl ⟨w3, h3, hy⟩)
        · rcases h with ⟨w3, h3, hy⟩
          rcases List.mem_cons.mp h3 with rfl | h3
          · exact Or.inl (Or.inr hy)
          · exact Or.inr (Or.inr ⟨w3, h3, hy⟩)

theorem mem_newItems_foldl :
    ∀ (ms : List MonitorWithWorkspaces) (acc : List Str) (y : Str),
      y ∈ ms.foldl (fun acc m => visibleLoopNewItems acc (visibleWorkspaces m)) acc ↔
        y ∈ acc ∨
          ∃ m ∈ ms,
            (∃ w ∈ visibleWorkspaces m, y ∈ workspaceNewItems w) ∨
              ∃ w ∈ (visibleWorkspaces m).dropLast,
                y = getSketchybarSpacerID w.workspace := by
  intro ms
  induction ms with
  | nil => intro acc y; simp
  | cons m ms ih =>
    intro acc y
    rw [List.foldl_cons, ih, mem_visibleLoopNewItems]
    constructor
    · rintro ((h | h | h) | h)
      · exact Or.inl h
      · exact Or.inr ⟨m, by simp, Or.inl h⟩
      · exact Or.inr ⟨m, by simp, Or.inr h⟩
      · rcases h with ⟨m2, hm2, h⟩
        exact Or.inr ⟨m2, by simp [hm2], h⟩
    · rintro (h | h)
      · exact Or.inl (Or.inl h)
      · rcases h with ⟨m2, hm2, h⟩
        rcases List.mem_cons.mp hm2 with rfl | hm2
        · rcases h with h | h
          · exact Or.inl (Or.inr (Or.inl h))
          · exact Or.inl (Or.inr (Or.inr h))
        · exact Or.inr ⟨m2, hm2, h⟩

theorem mem_newItems {t : Tree} {y : Str} :
    y ∈ newItems t ↔
      y = aerospaceCheckerItemName ∨ y = aerospaceGlobalSpacerID ∨
        ∃ m ∈ t.monitors,
          (∃ w ∈ visibleWorkspaces m, y ∈ workspaceNewItems w) ∨
            ∃ w ∈ (visibleWorkspaces m).dropLast,
              y = getSketchybarSpacerID w.workspace := by
  rw [newItems, mem_newItems_foldl, mem_insertAll]
  constructor
  · rintro ((h | h) | h)
    · simp at h
    · rcases List.mem_cons.mp h with rfl | h
      · exact Or.inl rfl
      · rcases List.mem_singleton.mp h with rfl
        exact Or.inr (Or.inl rfl)
    · exact Or.inr (Or.inr h)
  · rintro (rfl | rfl | h)
    · exact Or.inl (Or.inr (by simp))
    · exact Or.inl (Or.inr (by simp))
    · exact Or.inr h

/-- After a successful pass, `renderedItems` is replaced by the target
set (render line 320). -/
theorem renderedItems_render (t : Tree) (f a : Str) (now : Nat) (st : St)
    (b : Batches) (pos : Str) :
    (render (some t) f a now st b pos).st.renderedItems = newItems t := rfl

end P5

namespace P6

theorem mem_workspaceNewItemsB {w : WorkspaceWithWindowIDs} {y : Str} :
    y ∈ workspaceNewItems w ↔
      y = getSketchybarWorkspaceID w.workspace ∨
      (∃ wid ∈ w.windows, y = getSketchybarWindowID wid) ∨
      (w.windows ≠ [] ∧ y = getSketchybarBracketID w.workspace) := by
  unfold workspaceNewItems
  by_cases h : w.windows = [] <;> simp [h, eq_comm]

theorem mem_visibleLoopNewItemsB :
    ∀ (ws : List WorkspaceWithWindowIDs) (acc : List Str) (y : Str),
      y ∈ visibleLoopNewItems acc ws ↔
        y ∈ acc ∨ (∃ w ∈ ws, y ∈ workspaceNewItems w) ∨
          ∃ w ∈ ws.dropLast, y = getSketchybarSpacerID w.workspace := by
  intro ws
  induction ws with
  | nil => intro acc y; simp [visibleLoopNewItems]
  | cons w ws ih =>
    intro acc y
    cases ws with
    | nil =>
      simp [visibleLoopNewItems, mem_insertAll]
    | cons w2 rest =>
      have hstep :
          visibleLoopNewItems acc (w :: w2 :: rest) =
            visibleLoopNewItems
              (sinsert (insertAll acc (workspaceNewItems w))
                (getSketchybarSpacerID w.workspace)) (w2 :: rest) := rfl
      have hdrop : (w :: w2 :: rest).dropLast = w :: (w2 :: rest).dropLast := rfl
      rw [hstep, ih, mem_sinsert, mem_insertAll, hdrop]
      constructor
      · rintro (((h | h) | h) | h | h)
        · exact Or.inl h
        · exact Or.inr (Or.inl ⟨w, by simp, h⟩)
        · exact Or.inr (Or.inr ⟨w, by simp, h⟩)
        · rcases h with ⟨w3, h3, hy⟩
          exact Or.inr (Or.inl ⟨w3, by simp [h3], hy⟩)
        · rcases h with ⟨w3, h3, hy⟩
          exact Or.inr (Or.inr ⟨w3, by simp [h3], hy⟩)
      · rintro (h | h | h)
        · exact Or.inl (Or.inl (Or.inl h))
        · rcases h with ⟨w3, h3, hy⟩
          rcases List.mem_cons.mp h3 with rfl | h3
          · exact Or.inl (Or.inl (Or.inr hy))
          · exact Or.inr (Or.inl ⟨w3, h3, hy⟩)
        · rcases h with ⟨w3, h3, hy⟩
          rcases List.mem_cons.mp h3 with rfl | h3
          · exact Or.inl (Or.inr hy)
          · exact Or.inr (Or.inr ⟨w3, h3, hy⟩)

theorem mem_newItems_foldlB :
    ∀ (ms : List MonitorWithWorkspaces) (acc : List Str) (y : Str),
      y ∈ ms.foldl (fun acc m => visibleLoopNewItems acc (visibleWorkspaces m)) acc ↔
        y ∈ acc ∨
          ∃ m ∈ ms,
            (∃ w ∈ visibleWorkspaces m, y ∈ workspaceNewItems w) ∨
              ∃ w ∈ (visibleWorkspaces m).dropLast,
                y = getSketchybarSpacerID w.workspace := by
  intro ms
  induction ms with
  | nil => intro acc y; simp
  | cons m ms ih =>
    intro acc y
    rw [List.foldl_cons, ih, mem_visibleLoopNewItemsB]
    constructor
    · rintro ((h | h | h) | h)
      · exact Or.inl h
      · exact Or.inr ⟨m, by simp, Or.inl h⟩
      · exact Or.inr ⟨m, by simp, Or.inr h⟩
      · rcases h with ⟨m2, hm2, h⟩
        exact Or.inr ⟨m2, by simp [hm2], h⟩
    · rintro (h | h)
      · exact Or.inl (Or.inl h)
      · rcases h with ⟨m2, hm2, h⟩
        rcases List.mem_cons.mp hm2 with rfl | hm2
        · rcases h with h | h
          · exact Or.inl (Or.inr (Or.inl h))
          · exact Or.inl (Or.inr (Or.inr h))
        · exact Or.inr ⟨m2, hm2, h⟩

theorem mem_newItemsB {t : Tree} {y : Str} :
    y ∈ newItems t ↔
      y = aerospaceCheckerItemName ∨ y = aerospaceGlobalSpacerID ∨
        ∃ m ∈ t.monitors,
          (∃ w ∈ visibleWorkspaces m, y ∈ workspaceNewItems w) ∨
            ∃ w ∈ (visibleWorkspaces m).dropLast,
              y = getSketchybarSpacerID w.workspace := by
  rw [newItems, mem_newItems_foldlB, mem_insertAll]
  constructor
  · rintro ((h | h) | h)
    · simp at h
    · rcases List.mem_cons.mp h with rfl | h
      · exact Or.inl rfl
      · rcases List.mem_singleton.mp h with rfl
        exact Or.inr (Or.inl rfl)
    · exact Or.inr (Or.inr h)
  · rintro (rfl | rfl | h)
    · exact Or.inl (Or.inr (by simp))
    · exact Or.inl (Or.inr (by simp))
    · exact Or.inr h

/-- After a successful pass, `renderedItems` is replaced by the target
set. -/
theorem renderedItems_renderB (t : Tree) (f a : Str) (now : Nat) (st : St)
    (b : Batches) (pos : Str) :
    (render (some t) f a now st b pos).st.renderedItems = newItems t := rfl

end P6

/-! ## Generic fold invariants -/

theorem foldl_pres {α β : Type} (f : β → α → β) (P : β → Prop)
    (h : ∀ b x, P b → P (f b x)) : ∀ (xs : List α) (b : β), P b → P (xs.foldl f b) := by
  intro xs
  induction xs with
  | nil => exact fun b hb => hb
  | cons x xs ih => exact fun b hb => ih (f b x) (h b x hb)

/-- Establish an invariant `P` at the first element satisfying `Q` (the
precondition `R` surviving until then), then preserve it. -/
theorem foldl_first {α β : Type} (f : β → α → β) (P R : β → Prop) (Q : α → Prop)
    (hpres : ∀ b x, P b → P (f b x))
    (hstart : ∀ b x, Q x → R b → P (f b x))
    (hR : ∀ b x, ¬ Q x → R b → R (f b x)) :
    ∀ (xs : List α) (b : β), R b → (∃ x ∈ xs, Q x) → P (xs.foldl f b) := by
  intro xs
  induction xs with
  | nil =>
    rintro b _ ⟨x, hx, _⟩
    simp at hx
  | cons x xs ih =>
    rintro b hRb hex
    by_cases hQ : Q x
    · exact foldl_pres f P hpres xs _ (hstart b x hQ hRb)
    · rcases hex with ⟨x2, hx2, hQ2⟩
      rcases List.mem_cons.mp hx2 with rfl | hx2
      · exact absurd hQ2 hQ
      · exact ih (f b x) (hR b x hQ hRb) ⟨x2, hx2, hQ2⟩

/-- Where each command of a fold's output batch comes from: the input, or
some step's own contribution. -/
theorem foldl_origin {α β : Type} (f : β → α → β) (proj : β → Batches)
    (S : α → Cmd → Prop)
    (h : ∀ b x c, c ∈ proj (f b x) → c ∈ proj b ∨ S x c) :
    ∀ (xs : List α) (b : β) (c : Cmd),
      c ∈ proj (xs.foldl f b) → c ∈ proj b ∨ ∃ x ∈ xs, S x c := by
  intro xs
  induction xs with
  | nil => exact fun b c hc => Or.inl hc
  | cons x xs ih =>
    intro b c hc
    rcases ih (f b x) c hc with hc2 | ⟨x2, hx2, hS⟩
    · rcases h b x c hc2 with hc3 | hS
      · exact Or.inl hc3
      · exact Or.inr ⟨x, List.mem_cons_self _ _, hS⟩
    · exact Or.inr ⟨x2, List.mem_cons_of_mem _ hx2, hS⟩

/-! ## Map-model auxiliary lemmas -/

theorem mem_aupsert_sub {α β : Type} [DecidableEq α] {m : List (α × β)} {k : α} {v : β}
    {e : α × β} (h : e ∈ aupsert m k v) : e ∈ m ∨ e = (k, v) := by
  induction m with
  | nil => simpa [aupsert] using h
  | cons e2 rest ih =>
    obtain ⟨k2, v2⟩ := e2
    by_cases hk : k2 = k
    · subst hk
      rw [aupsert, if_pos rfl] at h
      rcases List.mem_cons.mp h with rfl | h
      · exact Or.inr rfl
      · exact Or.inl (List.mem_cons_of_mem _ h)
    · rw [aupsert, if_neg hk] at h
      rcases List.mem_cons.mp h with rfl | h
      · exact Or.inl (List.mem_cons_self _ _)
      · rcases ih h with h2 | h2
        · exact Or.inl (List.mem_cons_of_mem _ h2)
        · exact Or.inr h2

theorem aerase_sub {α β : Type} [DecidableEq α] {m : List (α × β)} {k : α} {e : α × β}
    (h : e ∈ aerase m k) : e ∈ m :=
  (mem_aerase.mp h).1

theorem alookup_none_aerase {α β : Type} [DecidableEq α] {m : List (α × β)} {k k2 : α}
    (h : alookup m k = none) : alookup (aerase m k2) k = none := by
  by_cases hk : k = k2
  · subst hk
    exact alookup_aerase_self m k
  · rw [alookup_aerase_ne m k2 k hk]
    exact h

theorem alookup_none_mem {α β : Type} [DecidableEq α] {m : List (α × β)} {k : α}
    (h : alookup m k = none) : ∀ e ∈ m, e.1 ≠ k :=
  alookup_eq_none.mp h

theorem alookup_isSome_mem {α β : Type} [DecidableEq α] {m : List (α × β)} {k : α}
    (h : (alookup m k).isSome) : ∃ e ∈ m, e.1 = k := by
  induction m with
  | nil => simp [alookup] at h
  | cons e rest ih =>
    obtain ⟨k2, v⟩ := e
    by_cases hk : k2 = k
    · exact ⟨(k2, v), List.mem_cons_self _ _, hk⟩
    · rw [alookup, if_neg hk] at h
      rcases ih h with ⟨e2, he2, hk2⟩
      exact ⟨e2, List.mem_cons_of_mem _ he2, hk2⟩

theorem alookup_some_mem {α β : Type} [DecidableEq α] {m : List (α × β)} {k : α} {v : β}
    (h : alookup m k = some v) : (k, v) ∈ m := by
  induction m with
  | nil => simp [alookup] at h
  | cons e rest ih =>
    obtain ⟨k2, v2⟩ := e
    by_cases hk : k2 = k
    · subst hk
      rw [alookup, if_pos rfl] at h
      rcases Option.some.injEq .. ▸ h with rfl
      simp_all
    · rw [alookup, if_neg hk] at h
      exact List.mem_cons_of_mem _ (ih h)

/-! ## Step-level facts about the shared phases -/

theorem closeStaleStep_at_bracket {newIts : List Str} {now : Nat}
    {acc : Batches × List (Str × Nat) × List (Str × Str)} {x : Str}
    (h1 : x ∉ newIts) (h2 : alookup acc.2.1 x = none) (h3 : isBracketItem x = true) :
    closeStaleStep newIts now acc x =
      (acc.1 ++ [["--remove".toList, x]], aerase (aupsert acc.2.1 x now) x,
       aerase acc.2.2 (extractWorkspaceFromBracketID x)) := by
  unfold closeStaleStep
  rw [if_neg h1, if_neg (by simp [h2]), if_pos h3]

theorem closeStaleStep_at_window {newIts : List Str} {now : Nat}
    {acc : Batches × List (Str × Nat) × List (Str × Str)} {x : Str}
    (h1 : x ∉ newIts) (h2 : alookup acc.2.1 x = none) (h3 : isBracketItem x = false)
    (h4 : isWindowItem x = true) :
    closeStaleStep newIts now acc x =
      (acc.1 ++ [animateCloseCmd x], aupsert acc.2.1 x now, acc.2.2) := by
  unfold closeStaleStep
  rw [if_neg h1, if_neg (by simp [h2]), if_neg (by simp [h3]), if_pos h4]

theorem closeStaleStep_at_other {newIts : List Str} {now : Nat}
    {acc : Batches × List (Str × Nat) × List (Str × Str)} {x : Str}
    (h1 : x ∉ newIts) (h2 : alookup acc.2.1 x = none) (h3 : isBracketItem x = false)
    (h4 : isWindowItem x = false) :
    closeStaleStep newIts now acc x = (acc.1, aupsert acc.2.1 x now, acc.2.2) := by
  unfold closeStaleStep
  rw [if_neg h1, if_neg (by simp [h2]), if_neg (by simp [h3]), if_neg (by simp [h4])]

theorem closeStaleStep_cases (newIts : List Str) (now : Nat)
    (acc : Batches × List (Str × Nat) × List (Str × Str)) (x : Str) :
    closeStaleStep newIts now acc x = acc ∨
    (isBracketItem x = true ∧
      closeStaleStep newIts now acc x =
        (acc.1 ++ [["--remove".toList, x]], aerase (aupsert acc.2.1 x now) x,
         aerase acc.2.2 (extractWorkspaceFromBracketID x))) ∨
    (isBracketItem x = false ∧ isWindowItem x = true ∧
      closeStaleStep newIts now acc x =
        (acc.1 ++ [animateCloseCmd x], aupsert acc.2.1 x now, acc.2.2)) ∨
    (isBracketItem x = false ∧ isWindowItem x = false ∧
      closeStaleStep newIts now acc x = (acc.1, aupsert acc.2.1 x now, acc.2.2)) := by
  by_cases h1 : x ∈ newIts
  · left
    unfold closeStaleStep
    rw [if_pos h1]
  · by_cases h2 : (alookup acc.2.1 x).isSome
    · left
      unfold closeStaleStep
      rw [if_neg h1, if_pos h2]
    · have h2n : alookup acc.2.1 x = none := Option.not_isSome_iff_eq_none.mp h2
      by_cases h3 : isBracketItem x = true
      · exact Or.inr (Or.inl ⟨h3, closeStaleStep_at_bracket h1 h2n h3⟩)
      · have h3f : isBracketItem x = false := by simp at h3; exact h3
        by_cases h4 : isWindowItem x = true
        · exact Or.inr (Or.inr (Or.inl ⟨h3f, h4, closeStaleStep_at_window h1 h2n h3f h4⟩))
        · have h4f : isWindowItem x = false := by simp at h4; exact h4
          exact Or.inr (Or.inr (Or.inr ⟨h3f, h4f, closeStaleStep_at_other h1 h2n h3f h4f⟩))

theorem sweepStep_cases (now : Nat) (acc : Batches × List (Str × Nat)) (e : Str × Nat) :
    (¬ (e.2 + transitionDuration ≤ now) ∧ sweepStep now acc e = acc) ∨
    (e.2 + transitionDuration ≤ now ∧
      sweepStep now acc e = (acc.1 ++ [["--remove".toList, e.1]], aerase acc.2 e.1)) := by
  by_cases h : e.2 + transitionDuration ≤ now
  · right
    exact ⟨h, by unfold sweepStep; rw [if_pos h]⟩
  · left
    exact ⟨h, by unfold sweepStep; rw [if_neg h]⟩

theorem removeEmptyBracketsStep_cases (rendered newIts : List Str)
    (acc : Batches × List (Str × Str)) (entry : Str × List Str) :
    removeEmptyBracketsStep rendered newIts acc entry = acc ∨
    (getSketchybarBracketID entry.1 ∈ rendered ∧ getSketchybarBracketID entry.1 ∉ newIts ∧
      removeEmptyBracketsStep rendered newIts acc entry =
        (acc.1 ++ [["--remove".toList, getSketchybarBracketID entry.1]],
         aerase acc.2 entry.1)) := by
  by_cases h : getSketchybarBracketID entry.1 ∈ rendered ∧ getSketchybarBracketID entry.1 ∉ newIts
  · right
    exact ⟨h.1, h.2, by unfold removeEmptyBracketsStep; rw [if_pos h]⟩
  · left
    unfold removeEmptyBracketsStep
    rw [if_neg h]

theorem foldl_pres_mem {α β : Type} (f : β → α → β) (P : β → Prop) :
    ∀ (xs : List α), (∀ b, ∀ x ∈ xs, P b → P (f b x)) →
      ∀ b, P b → P (xs.foldl f b) := by
  intro xs
  induction xs with
  | nil => exact fun _ b hb => hb
  | cons x xs ih =>
    intro h b hb
    exact ih (fun b2 x2 hx2 => h b2 x2 (List.mem_cons_of_mem _ hx2)) (f b x)
      (h b x (List.mem_cons_self _ _) hb)

theorem foldl_sub {α β γ : Type} (f : β → α → β) (proj : β → List γ)
    (h : ∀ b x e, e ∈ proj (f b x) → e ∈ proj b) :
    ∀ (xs : List α) (b : β) (e : γ), e ∈ proj (xs.foldl f b) → e ∈ proj b := by
  intro xs
  induction xs with
  | nil => exact fun b e he => he
  | cons x xs ih => exact fun b e he => h b x e (ih (f b x) e he)

theorem foldl_noop {α β : Type} (f : β → α → β) :
    ∀ (xs : List α), (∀ b, ∀ x ∈ xs, f b x = b) → ∀ b, xs.foldl f b = b := by
  intro xs
  induction xs with
  | nil => exact fun _ _ => rfl
  | cons x xs ih =>
    intro h b
    rw [List.foldl_cons, h b x (List.mem_cons_self _ _)]
    exact ih (fun b2 x2 hx2 => h b2 x2 (List.mem_cons_of_mem _ hx2)) b

/-! ## Phase-level facts: the disappearance loop -/

theorem closeStale_batches_mono {rendered newIts : List Str} {now : Nat}
    {batches : Batches} {closing : List (Str × Nat)} {bstates : List (Str × Str)}
    {c : Cmd} (hc : c ∈ batches) :
    c ∈ (closeStale rendered newIts now batches closing bstates).1 := by
  unfold closeStale
  refine foldl_pres (closeStaleStep newIts now)
    (fun (acc : Batches × List (Str × Nat) × List (Str × Str)) => c ∈ acc.1) ?_
    rendered _ hc
  intro acc x h
  rcases closeStaleStep_cases newIts now acc x with heq | ⟨_, heq⟩ | ⟨_, _, heq⟩ |
    ⟨_, _, heq⟩ <;> rw [heq]
  · exact h
  · exact List.mem_append_left _ h
  · exact List.mem_append_left _ h
  · exact h

theorem closeStale_origin {rendered newIts : List Str} {now : Nat}
    {batches : Batches} {closing : List (Str × Nat)} {bstates : List (Str × Str)}
    {c : Cmd} (hc : c ∈ (closeStale rendered newIts now batches closing bstates).1) :
    c ∈ batches ∨ (∃ id, isBracketItem id = true ∧ c = ["--remove".toList, id]) ∨
      ∃ id, c = animateCloseCmd id := by
  unfold closeStale at hc
  have := foldl_origin (closeStaleStep newIts now) (fun acc => acc.1)
    (fun x c => (isBracketItem x = true ∧ c = ["--remove".toList, x]) ∨ c = animateCloseCmd x)
    ?_ rendered _ c hc
  · rcases this with h | ⟨x, _, ⟨hbx, rfl⟩ | rfl⟩
    · exact Or.inl h
    · exact Or.inr (Or.inl ⟨x, hbx, rfl⟩)
    · exact Or.inr (Or.inr ⟨x, rfl⟩)
  · intro b x c2 hc2
    rcases closeStaleStep_cases newIts now b x with heq | ⟨hbx, heq⟩ | ⟨_, _, heq⟩ |
      ⟨_, _, heq⟩ <;> rw [heq] at hc2
    · exact Or.inl hc2
    · rcases List.mem_append.mp hc2 with h | h
      · exact Or.inl h
      · exact Or.inr (Or.inl ⟨hbx, List.mem_singleton.mp h⟩)
    · rcases List.mem_append.mp hc2 with h | h
      · exact Or.inl h
      · exact Or.inr (Or.inr (List.mem_singleton.mp h))
    · exact Or.inl hc2

theorem closeStale_closing_sub {rendered newIts : List Str} {now : Nat}
    {batches : Batches} {closing : List (Str × Nat)} {bstates : List (Str × Str)}
    {e : Str × Nat} (he : e ∈ (closeStale rendered newIts now batches closing bstates).2.1) :
    e ∈ closing ∨ e.2 = now := by
  unfold closeStale at he
  refine foldl_pres (closeStaleStep newIts now)
    (fun (acc : Batches × List (Str × Nat) × List (Str × Str)) =>
      ∀ e2 ∈ acc.2.1, e2 ∈ closing ∨ e2.2 = now)
    ?_ rendered _ (fun e2 he2 => Or.inl he2) e he
  intro acc x h e2 he2
  rcases closeStaleStep_cases newIts now acc x with heq | ⟨_, heq⟩ | ⟨_, _, heq⟩ |
    ⟨_, _, heq⟩ <;> rw [heq] at he2
  · exact h e2 he2
  · rcases mem_aupsert_sub (aerase_sub he2) with h2 | h2
    · exact h e2 h2
    · exact Or.inr (by rw [h2])
  · rcases mem_aupsert_sub he2 with h2 | h2
    · exact h e2 h2
    · exact Or.inr (by rw [h2])
  · rcases mem_aupsert_sub he2 with h2 | h2
    · exact h e2 h2
    · exact Or.inr (by rw [h2])

theorem closeStale_bstates_pres_none {rendered newIts : List Str} {now : Nat}
    {batches : Batches} {closing : List (Str × Nat)} {bstates : List (Str × Str)}
    {k : Str} (hk : alookup bstates k = none) :
    alookup (closeStale rendered newIts now batches closing bstates).2.2 k = none := by
  unfold closeStale
  refine foldl_pres (closeStaleStep newIts now)
    (fun (acc : Batches × List (Str × Nat) × List (Str × Str)) =>
      alookup acc.2.2 k = none) ?_ rendered _ hk
  intro acc x h
  rcases closeStaleStep_cases newIts now acc x with heq | ⟨_, heq⟩ | ⟨_, _, heq⟩ |
    ⟨_, _, heq⟩ <;> rw [heq]
  · exact h
  · exact alookup_none_aerase h
  · exact h
  · exact h

theorem closeStale_noop {rendered newIts : List Str} {now : Nat} {batches : Batches}
    {closing : List (Str × Nat)} {bstates : List (Str × Str)}
    (h : ∀ x ∈ rendered, x ∈ newIts) :
    closeStale rendered newIts now batches closing bstates = (batches, closing, bstates) := by
  unfold closeStale
  refine foldl_noop (closeStaleStep newIts now) rendered ?_ _
  intro b x hx
  unfold closeStaleStep
  rw [if_pos (h x hx)]

theorem closeStale_bracket_spec {rendered newIts : List Str} {now : Nat}
    {batches : Batches} {closing : List (Str × Nat)} {bstates : List (Str × Str)}
    {id : Str} (hb : isBracketItem id = true) (hmem : id ∈ rendered)
    (hnew : id ∉ newIts) (hcl : alookup closing id = none) :
    ["--remove".toList, id] ∈ (closeStale rendered newIts now batches closing bstates).1 ∧
      alookup (closeStale rendered newIts now batches closing bstates).2.1 id = none ∧
      alookup (closeStale rendered newIts now batches closing bstates).2.2
        (extractWorkspaceFromBracketID id) = none := by
  unfold closeStale
  refine foldl_first (closeStaleStep newIts now)
    (fun acc => ["--remove".toList, id] ∈ acc.1 ∧ alookup acc.2.1 id = none ∧
      alookup acc.2.2 (extractWorkspaceFromBracketID id) = none)
    (fun acc => alookup acc.2.1 id = none) (fun x => x = id) ?_ ?_ ?_ rendered _ hcl
    ⟨id, hmem, rfl⟩
  · intro acc x ⟨h1, h2, h3⟩
    rcases closeStaleStep_cases newIts now acc x with heq | ⟨hbx, heq⟩ | ⟨hbx, _, heq⟩ |
      ⟨hbx, _, heq⟩ <;> rw [heq]
    · exact ⟨h1, h2, h3⟩
    · refine ⟨List.mem_append_left _ h1, ?_, alookup_none_aerase h3⟩
      by_cases hx : x = id
      · subst hx
        exact alookup_aerase_self _ _
      · rw [alookup_aerase_ne _ _ _ (fun h => hx h.symm),
          alookup_aupsert_ne _ _ _ _ (fun h => hx h.symm)]
        exact h2
    · by_cases hx : x = id
      · subst hx
        rw [hbx] at hb
        cases hb
      · exact ⟨List.mem_append_left _ h1,
          by rw [alookup_aupsert_ne _ _ _ _ (fun h => hx h.symm)]; exact h2, h3⟩
    · by_cases hx : x = id
      · subst hx
        rw [hbx] at hb
        cases hb
      · exact ⟨h1,
          by rw [alookup_aupsert_ne _ _ _ _ (fun h => hx h.symm)]; exact h2, h3⟩
  · intro acc x hQ hR
    subst hQ
    rw [closeStaleStep_at_bracket hnew hR hb]
    refine ⟨List.mem_append_right _ (List.mem_singleton.mpr rfl), ?_, ?_⟩
    · exact alookup_aerase_self _ _
    · exact alookup_aerase_self _ _
  · intro acc x hQ hR
    rcases closeStaleStep_cases newIts now acc x with heq | ⟨_, heq⟩ | ⟨_, _, heq⟩ |
      ⟨_, _, heq⟩ <;> rw [heq]
    · exact hR
    · rw [alookup_aerase_ne _ _ _ (fun h => hQ h.symm),
        alookup_aupsert_ne _ _ _ _ (fun h => hQ h.symm)]
      exact hR
    · rw [alookup_aupsert_ne _ _ _ _ (fun h => hQ h.symm)]
      exact hR
    · rw [alookup_aupsert_ne _ _ _ _ (fun h => hQ h.symm)]
      exact hR

theorem closeStale_window_spec {rendered newIts : List Str} {now : Nat}
    {batches : Batches} {closing : List (Str × Nat)} {bstates : List (Str × Str)}
    {id : Str} (hb : isBracketItem id = false) (hw : isWindowItem id = true)
    (hmem : id ∈ rendered) (hnew : id ∉ newIts) (hcl : alookup closing id = none) :
    animateCloseCmd id ∈ (closeStale rendered newIts now batches closing bstates).1 ∧
      alookup (closeStale rendered newIts now batches closing bstates).2.1 id =
        some now := by
  unfold closeStale
  refine foldl_first (closeStaleStep newIts now)
    (fun acc => animateCloseCmd id ∈ acc.1 ∧ alookup acc.2.1 id = some now)
    (fun acc => alookup acc.2.1 id = none) (fun x => x = id) ?_ ?_ ?_ rendered _ hcl
    ⟨id, hmem, rfl⟩
  · intro acc x ⟨h1, h2⟩
    rcases closeStaleStep_cases newIts now acc x with heq | ⟨hbx, heq⟩ | ⟨_, _, heq⟩ |
      ⟨_, _, heq⟩ <;> rw [heq]
    · exact ⟨h1, h2⟩
    · by_cases hx : x = id
      · subst hx
        rw [hbx] at hb
        cases hb
      · exact ⟨List.mem_append_left _ h1,
          by
            rw [alookup_aerase_ne _ _ _ (fun h => hx h.symm),
              alookup_aupsert_ne _ _ _ _ (fun h => hx h.symm)]
            exact h2⟩
    · by_cases hx : x = id
      · subst hx
        exact ⟨List.mem_append_left _ h1, alookup_aupsert_self _ _ _⟩
      · exact ⟨List.mem_append_left _ h1,
          by rw [alookup_aupsert_ne _ _ _ _ (fun h => hx h.symm)]; exact h2⟩
    · by_cases hx : x = id
      · subst hx
        exact ⟨h1, alookup_aupsert_self _ _ _⟩
      · exact ⟨h1,
          by rw [alookup_aupsert_ne _ _ _ _ (fun h => hx h.symm)]; exact h2⟩
  · intro acc x hQ hR
    subst hQ
    rw [closeStaleStep_at_window hnew hR hb hw]
    exact ⟨List.mem_append_right _ (List.mem_singleton.mpr rfl),
      alookup_aupsert_self _ _ _⟩
  · intro acc x hQ hR
    rcases closeStaleStep_cases newIts now acc x with heq | ⟨_, heq⟩ | ⟨_, _, heq⟩ |
      ⟨_, _, heq⟩ <;> rw [heq]
    · exact hR
    · rw [alookup_aerase_ne _ _ _ (fun h => hQ h.symm),
        alookup_aupsert_ne _ _ _ _ (fun h => hQ h.symm)]
      exact hR
    · rw [alookup_aupsert_ne _ _ _ _ (fun h => hQ h.symm)]
      exact hR
    · rw [alookup_aupsert_ne _ _ _ _ (fun h => hQ h.symm)]
      exact hR

theorem closeStale_other_spec {rendered newIts : List Str} {now : Nat}
    {batches : Batches} {closing : List (Str × Nat)} {bstates : List (Str × Str)}
    {id : Str} (hb : isBracketItem id = false) (hw : isWindowItem id = false)
    (hmem : id ∈ rendered) (hnew : id ∉ newIts) (hcl : alookup closing id = none) :
    alookup (closeStale rendered newIts now batches closing bstates).2.1 id = some now := by
  unfold closeStale
  refine foldl_first (closeStaleStep newIts now)
    (fun acc => alookup acc.2.1 id = some now)
    (fun acc => alookup acc.2.1 id = none) (fun x => x = id) ?_ ?_ ?_ rendered _ hcl
    ⟨id, hmem, rfl⟩
  · intro acc x h2
    rcases closeStaleStep_cases newIts now acc x with heq | ⟨hbx, heq⟩ | ⟨_, hwx, heq⟩ |
      ⟨_, _, heq⟩ <;> rw [heq]
    · exact h2
    · by_cases hx : x = id
      · subst hx
        rw [hbx] at hb
        cases hb
      · rw [alookup_aerase_ne _ _ _ (fun h => hx h.symm),
          alookup_aupsert_ne _ _ _ _ (fun h => hx h.symm)]
        exact h2
    · by_cases hx : x = id
      · subst hx
        exact alookup_aupsert_self _ _ _
      · rw [alookup_aupsert_ne _ _ _ _ (fun h => hx h.symm)]
        exact h2
    · by_cases hx : x = id
      · subst hx
        exact alookup_aupsert_self _ _ _
      · rw [alookup_aupsert_ne _ _ _ _ (fun h => hx h.symm)]
        exact h2
  · intro acc x hQ hR
    subst hQ
    rw [closeStaleStep_at_other hnew hR hb hw]
    exact alookup_aupsert_self _ _ _
  · intro acc x hQ hR
    rcases closeStaleStep_cases newIts now acc x with heq | ⟨_, heq⟩ | ⟨_, _, heq⟩ |
      ⟨_, _, heq⟩ <;> rw [heq]
    · exact hR
    · rw [alookup_aerase_ne _ _ _ (fun h => hQ h.symm),
        alookup_aupsert_ne _ _ _ _ (fun h => hQ h.symm)]
      exact hR
    · rw [alookup_aupsert_ne _ _ _ _ (fun h => hQ h.symm)]
      exact hR
    · rw [alookup_aupsert_ne _ _ _ _ (fun h => hQ h.symm)]
      exact hR

theorem closeStaleStep_pres_lookup_some {newIts : List Str} {now : Nat}
    {acc : Batches × List (Str × Nat) × List (Str × Str)} {x id : Str} {v : Nat}
    (h : alookup acc.2.1 id = some v) :
    alookup (closeStaleStep newIts now acc x).2.1 id = some v := by
  unfold closeStaleStep
  split
  · exact h
  split
  · exact h
  rename_i h2
  have hxid : x ≠ id := by
    intro he
    subst he
    rw [h] at h2
    simp at h2
  split
  · rw [alookup_aerase_ne _ _ _ (Ne.symm hxid), alookup_aupsert_ne _ _ _ _ (Ne.symm hxid)]
    exact h
  split
  · rw [alookup_aupsert_ne _ _ _ _ (Ne.symm hxid)]
    exact h
  · rw [alookup_aupsert_ne _ _ _ _ (Ne.symm hxid)]
    exact h

theorem closeStale_pres_lookup_some {rendered newIts : List Str} {now : Nat}
    {batches : Batches} {closing : List (Str × Nat)} {bstates : List (Str × Str)}
    {id : Str} {v : Nat} (h : alookup closing id = some v) :
    alookup (closeStale rendered newIts now batches closing bstates).2.1 id = some v := by
  unfold closeStale
  refine foldl_pres (closeStaleStep newIts now)
    (fun (acc : Batches × List (Str × Nat) × List (Str × Str)) =>
      alookup acc.2.1 id = some v) ?_ rendered _ h
  intro acc x h2
  exact closeStaleStep_pres_lookup_some h2

/-! ## Phase-level facts: the expiry sweep -/

theorem sweepStep_batches_mono {now : Nat} {acc : Batches × List (Str × Nat)}
    {e : Str × Nat} {c : Cmd} (hc : c ∈ acc.1) : c ∈ (sweepStep now acc e).1 := by
  rcases sweepStep_cases now acc e with ⟨_, heq⟩ | ⟨_, heq⟩ <;> rw [heq]
  · exact hc
  · exact List.mem_append_left _ hc

theorem sweep_batches_mono {now : Nat} {batches : Batches} {closing : List (Str × Nat)}
    {c : Cmd} (hc : c ∈ batches) : c ∈ (sweepExpired now batches closing).1 := by
  unfold sweepExpired
  exact foldl_pres (sweepStep now)
    (fun (acc : Batches × List (Str × Nat)) => c ∈ acc.1)
    (fun acc e h => sweepStep_batches_mono h) closing _ hc

theorem sweep_origin {now : Nat} {batches : Batches} {closing : List (Str × Nat)}
    {c : Cmd} (hc : c ∈ (sweepExpired now batches closing).1) :
    c ∈ batches ∨ ∃ e ∈ closing, e.2 + transitionDuration ≤ now ∧
      c = ["--remove".toList, e.1] := by
  unfold sweepExpired at hc
  exact foldl_origin (sweepStep now) (fun acc => acc.1)
    (fun e c => e.2 + transitionDuration ≤ now ∧ c = ["--remove".toList, e.1])
    (by
      intro b e c2 hc2
      rcases sweepStep_cases now b e with ⟨_, heq⟩ | ⟨hexp, heq⟩ <;> rw [heq] at hc2
      · exact Or.inl hc2
      · rcases List.mem_append.mp hc2 with h | h
        · exact Or.inl h
        · exact Or.inr ⟨hexp, List.mem_singleton.mp h⟩)
    closing _ c hc

theorem sweep_fold_sub {now : Nat} :
    ∀ (entries : List (Str × Nat)) (acc : Batches × List (Str × Nat)) (e : Str × Nat),
      e ∈ (entries.foldl (sweepStep now) acc).2 → e ∈ acc.2 := by
  refine foldl_sub (sweepStep now) (fun (acc : Batches × List (Str × Nat)) => acc.2) ?_
  intro b x e he
  rcases sweepStep_cases now b x with ⟨_, heq⟩ | ⟨_, heq⟩ <;> rw [heq] at he
  · exact he
  · exact aerase_sub he

/-- No surviving closing entry shares its key with an expired entry of
the swept snapshot. -/
theorem sweep_go_no_expired_key {now : Nat} :
    ∀ (entries : List (Str × Nat)) (acc : Batches × List (Str × Nat)) (e : Str × Nat),
      e ∈ (entries.foldl (sweepStep now) acc).2 →
        ∀ e2 ∈ entries, e2.2 + transitionDuration ≤ now → e.1 ≠ e2.1 := by
  intro entries
  induction entries with
  | nil =>
    intro acc e _ e2 he2
    simp at he2
  | cons e3 rest ih =>
    intro acc e he e2 he2 hexp
    rcases List.mem_cons.mp he2 with rfl | he2
    · have hsub : e ∈ (sweepStep now acc e2).2 := sweep_fold_sub rest _ e he
      rcases sweepStep_cases now acc e2 with ⟨hne, _⟩ | ⟨_, heq⟩
      · exact absurd hexp hne
      · rw [heq] at hsub
        exact (mem_aerase.mp hsub).2
    · exact ih (sweepStep now acc e3) e he e2 he2 hexp

/-- Every entry of the swept closing map is not yet expired. -/
theorem sweep_out_not_expired {now : Nat} {batches : Batches}
    {closing : List (Str × Nat)} {e : Str × Nat}
    (he : e ∈ (sweepExpired now batches closing).2) :
    ¬ (e.2 + transitionDuration ≤ now) := by
  intro hexp
  have hin : e ∈ closing := sweep_fold_sub closing _ e he
  exact sweep_go_no_expired_key closing _ e he e hin hexp rfl

theorem sweep_emits {now : Nat} {batches : Batches} {closing : List (Str × Nat)}
    {id : Str} {s : Nat} (h : alookup closing id = some s)
    (hexp : s + transitionDuration ≤ now) :
    ["--remove".toList, id] ∈ (sweepExpired now batches closing).1 ∧
      alookup (sweepExpired now batches closing).2 id = none := by
  unfold sweepExpired
  refine foldl_first (sweepStep now)
    (fun acc => ["--remove".toList, id] ∈ acc.1 ∧ alookup acc.2 id = none)
    (fun _ => True) (fun e => e.1 = id ∧ e.2 + transitionDuration ≤ now) ?_ ?_ ?_
    closing _ trivial ⟨(id, s), alookup_some_mem h, rfl, hexp⟩
  · intro acc e ⟨h1, h2⟩
    rcases sweepStep_cases now acc e with ⟨_, heq⟩ | ⟨_, heq⟩ <;> rw [heq]
    · exact ⟨h1, h2⟩
    · exact ⟨List.mem_append_left _ h1, alookup_none_aerase h2⟩
  · intro acc e ⟨hQ1, hQ2⟩ _
    have heq : sweepStep now acc e =
        (acc.1 ++ [["--remove".toList, e.1]], aerase acc.2 e.1) := by
      unfold sweepStep
      rw [if_pos hQ2]
    rw [heq, hQ1]
    exact ⟨List.mem_append_right _ (List.mem_singleton.mpr rfl), alookup_aerase_self _ _⟩
  · exact fun _ _ _ _ => trivial

theorem sweep_pres_lookup {now : Nat} {batches : Batches} {closing : List (Str × Nat)}
    {id : Str} {v : Nat}
    (hall : ∀ e ∈ closing, e.1 = id → ¬ (e.2 + transitionDuration ≤ now))
    (h : alookup closing id = some v) :
    alookup (sweepExpired now batches closing).2 id = some v := by
  unfold sweepExpired
  refine foldl_pres_mem (sweepStep now) (fun acc => alookup acc.2 id = some v)
    closing ?_ _ h
  intro acc e he h2
  rcases sweepStep_cases now acc e with ⟨_, heq⟩ | ⟨hexp, heq⟩ <;> rw [heq]
  · exact h2
  · have hne : e.1 ≠ id := fun hk => hall e he hk hexp
    rw [alookup_aerase_ne _ _ _ (fun hk => hne hk.symm)]
    exact h2

theorem sweep_pres_none {now : Nat} {batches : Batches} {closing : List (Str × Nat)}
    {id : Str} (h : alookup closing id = none) :
    alookup (sweepExpired now batches closing).2 id = none := by
  unfold sweepExpired
  refine foldl_pres (sweepStep now)
    (fun (acc : Batches × List (Str × Nat)) => alookup acc.2 id = none) ?_ closing _ h
  intro acc e h2
  rcases sweepStep_cases now acc e with ⟨_, heq⟩ | ⟨_, heq⟩ <;> rw [heq]
  · exact h2
  · exact alookup_none_aerase h2

theorem sweep_noop {now : Nat} {batches : Batches} {closing : List (Str × Nat)}
    (h : ∀ e ∈ closing, ¬ (e.2 + transitionDuration ≤ now)) :
    sweepExpired now batches closing = (batches, closing) := by
  unfold sweepExpired
  refine foldl_noop (sweepStep now) closing ?_ _
  intro b e he
  unfold sweepStep
  rw [if_neg (h e he)]

/-! ## Phase-level facts: the empty-bracket removal loop -/

theorem removeEmptyBrackets_batches_mono {rendered newIts : List Str}
    {wwids : List (Str × List Str)} {bstates : List (Str × Str)} {batches : Batches}
    {c : Cmd} (hc : c ∈ batches) :
    c ∈ (removeEmptyBrackets rendered wwids bstates newIts batches).1 := by
  unfold removeEmptyBrackets
  refine foldl_pres (removeEmptyBracketsStep rendered newIts)
    (fun (acc : Batches × List (Str × Str)) => c ∈ acc.1) ?_ wwids _ hc
  intro acc e h
  rcases removeEmptyBracketsStep_cases rendered newIts acc e with heq | ⟨_, _, heq⟩ <;>
    rw [heq]
  · exact h
  · exact List.mem_append_left _ h

theorem removeEmptyBrackets_origin {rendered newIts : List Str}
    {wwids : List (Str × List Str)} {bstates : List (Str × Str)} {batches : Batches}
    {c : Cmd} (hc : c ∈ (removeEmptyBrackets rendered wwids bstates newIts batches).1) :
    c ∈ batches ∨ ∃ w, c = ["--remove".toList, getSketchybarBracketID w] := by
  unfold removeEmptyBrackets at hc
  have := foldl_origin (removeEmptyBracketsStep rendered newIts) (fun acc => acc.1)
    (fun e c => c = ["--remove".toList, getSketchybarBracketID e.1])
    (by
      intro b e c2 hc2
      rcases removeEmptyBracketsStep_cases rendered newIts b e with heq | ⟨_, _, heq⟩ <;>
        rw [heq] at hc2
      · exact Or.inl hc2
      · rcases List.mem_append.mp hc2 with h | h
        · exact Or.inl h
        · exact Or.inr (List.mem_singleton.mp h))
    wwids _ c hc
  rcases this with h | ⟨e, _, h⟩
  · exact Or.inl h
  · exact Or.inr ⟨e.1, h⟩

theorem removeEmptyBrackets_emits {rendered newIts : List Str}
    {wwids : List (Str × List Str)} {bstates : List (Str × Str)} {batches : Batches}
    {w : Str} (hmem : ∃ e ∈ wwids, e.1 = w)
    (hr : getSketchybarBracketID w ∈ rendered)
    (hn : getSketchybarBracketID w ∉ newIts) :
    ["--remove".toList, getSketchybarBracketID w] ∈
      (removeEmptyBrackets rendered wwids bstates newIts batches).1 := by
  unfold removeEmptyBrackets
  refine foldl_first (removeEmptyBracketsStep rendered newIts)
    (fun acc => ["--remove".toList, getSketchybarBracketID w] ∈ acc.1)
    (fun _ => True) (fun e => e.1 = w) ?_ ?_ ?_ wwids _ trivial hmem
  · intro acc e h
    rcases removeEmptyBracketsStep_cases rendered newIts acc e with heq | ⟨_, _, heq⟩ <;>
      rw [heq]
    · exact h
    · exact List.mem_append_left _ h
  · intro acc e hQ _
    have heq : removeEmptyBracketsStep rendered newIts acc e =
        (acc.1 ++ [["--remove".toList, getSketchybarBracketID e.1]], aerase acc.2 e.1) := by
      unfold removeEmptyBracketsStep
      rw [if_pos ⟨by rw [hQ]; exact hr, by rw [hQ]; exact hn⟩]
    rw [heq, hQ]
    exact List.mem_append_right _ (List.mem_singleton.mpr rfl)
  · exact fun _ _ _ _ => trivial

theorem removeEmptyBrackets_noop {rendered newIts : List Str}
    {wwids : List (Str × List Str)} {bstates : List (Str × Str)} {batches : Batches}
    (h : ∀ x ∈ rendered, x ∈ newIts) :
    removeEmptyBrackets rendered wwids bstates newIts batches = (batches, bstates) := by
  unfold removeEmptyBrackets
  refine foldl_noop (removeEmptyBracketsStep rendered newIts) wwids ?_ _
  intro b e
  intro _
  unfold removeEmptyBracketsStep
  rw [if_neg]
  rintro ⟨h1, h2⟩
  exact h2 (h _ h1)

/-! ## Command-head classification -/

/-- The command is not a remove command. -/
abbrev noRemove (c : Cmd) : Prop := c.head? ≠ some ("--remove".toList)

/-- The command is neither an add nor a remove command. -/
abbrev noAddRemove (c : Cmd) : Prop :=
  c.head? ≠ some ("--add".toList) ∧ c.head? ≠ some ("--remove".toList)

theorem head_ne {a b : Str} {c : Cmd} (h : c.head? = some a) (hne : a ≠ b) :
    c.head? ≠ some b := by
  rw [h]
  simp [hne]

theorem mem_checkerCmds_noRemove {position : Str} {c : Cmd}
    (hc : c ∈ checkerCmds position) : noRemove c := by
  unfold checkerCmds at hc
  rcases List.mem_cons.mp hc with rfl | hc
  · exact head_ne rfl (by decide)
  rcases List.mem_cons.mp hc with rfl | hc
  · exact head_ne rfl (by decide)
  rcases List.mem_singleton.mp hc with rfl
  exact head_ne rfl (by decide)

/-! ## Phase-level facts: the checker / global-spacer section -/

theorem checkerSpacerSection_cases (rendered : List Str) (batches : Batches)
    (position : Str) :
    ∃ mid : Batches,
      checkerSpacerSection rendered batches position =
        mid ++ [["--set".toList, aerospaceGlobalSpacerID] ++ aerospaceSpacerItemOptions.toArgs] ∧
      (mid = batches ∨
        mid = batches ++ checkerCmds position ∨
        mid = batches ++ [["--add".toList, "item".toList, aerospaceGlobalSpacerID, position]] ∨
        mid = batches ++ checkerCmds position ++
          [["--add".toList, "item".toList, aerospaceGlobalSpacerID, position]]) ∧
      (aerospaceCheckerItemName ∈ rendered → aerospaceGlobalSpacerID ∈ rendered →
        mid = batches) := by
  unfold checkerSpacerSection
  by_cases h3 : aerospaceCheckerItemName ∈ rendered <;>
    by_cases h4 : aerospaceGlobalSpacerID ∈ rendered
  · refine ⟨batches, ?_, Or.inl rfl, fun _ _ => rfl⟩
    simp only [h3, h4, if_true]
  · refine ⟨batches ++ [["--add".toList, "item".toList, aerospaceGlobalSpacerID, position]],
      ?_, Or.inr (Or.inr (Or.inl rfl)), fun _ hg => absurd hg h4⟩
    simp only [h3, if_true, if_neg h4]
  · refine ⟨batches ++ checkerCmds position, ?_, Or.inr (Or.inl rfl),
      fun hcx _ => absurd hcx h3⟩
    simp only [if_neg h3, h4, if_true]
  · refine ⟨batches ++ checkerCmds position ++
      [["--add".toList, "item".toList, aerospaceGlobalSpacerID, position]],
      ?_, Or.inr (Or.inr (Or.inr rfl)), fun hcx _ => absurd hcx h3⟩
    simp only [if_neg h3, if_neg h4]

theorem checkerSpacerSection_batches_mono {rendered : List Str} {batches : Batches}
    {position : Str} {c : Cmd} (hc : c ∈ batches) :
    c ∈ checkerSpacerSection rendered batches position := by
  rcases checkerSpacerSection_cases rendered batches position with
    ⟨mid, heq, hmid, _⟩
  rw [heq]
  refine List.mem_append_left _ ?_
  rcases hmid with rfl | rfl | rfl | rfl
  · exact hc
  · exact List.mem_append_left _ hc
  · exact List.mem_append_left _ hc
  · exact List.mem_append_left _ (List.mem_append_left _ hc)

theorem checkerSpacerSection_origin {rendered : List Str} {batches : Batches}
    {position : Str} {c : Cmd} (hc : c ∈ checkerSpacerSection rendered batches position) :
    c ∈ batches ∨ noRemove c := by
  rcases checkerSpacerSection_cases rendered batches position with
    ⟨mid, heq, hmid, _⟩
  rw [heq] at hc
  rcases List.mem_append.mp hc with h | h
  · rcases hmid with rfl | rfl | rfl | rfl
    · exact Or.inl h
    · rcases List.mem_append.mp h with h2 | h2
      · exact Or.inl h2
      · exact Or.inr (mem_checkerCmds_noRemove h2)
    · rcases List.mem_append.mp h with h2 | h2
      · exact Or.inl h2
      · rcases List.mem_singleton.mp h2 with rfl
        exact Or.inr (head_ne rfl (by decide))
    · rcases List.mem_append.mp h with h2 | h2
      · rcases List.mem_append.mp h2 with h3 | h3
        · exact Or.inl h3
        · exact Or.inr (mem_checkerCmds_noRemove h3)
      · rcases List.mem_singleton.mp h2 with rfl
        exact Or.inr (head_ne rfl (by decide))
  · rcases List.mem_singleton.mp h with rfl
    exact Or.inr (head_ne rfl (by decide))

theorem checkerSpacerSection_covered {rendered : List Str} {batches : Batches}
    {position : Str} (h1 : aerospaceCheckerItemName ∈ rendered)
    (h2 : aerospaceGlobalSpacerID ∈ rendered) {c : Cmd}
    (hc : c ∈ checkerSpacerSection rendered batches position) :
    c ∈ batches ∨ noAddRemove c := by
  rcases checkerSpacerSection_cases rendered batches position with
    ⟨mid, heq, _, hcov⟩
  rw [heq, hcov h1 h2] at hc
  rcases List.mem_append.mp hc with h | h
  · exact Or.inl h
  · rcases List.mem_singleton.mp h with rfl
    exact Or.inr ⟨head_ne rfl (by decide), head_ne rfl (by decide)⟩

/-! ## Phase-level facts: the window passes -/

theorem windowsFirstPassStep_cases (t : Tree) (isF : Bool) (fa : Str) (mid : Int)
    (wk : Str) (old : List Str) (pos : Str) (b : Batches) (wid : Int) :
    windowsFirstPassStep t isF fa mid wk old pos b wid = b ∨
    (getSketchybarWindowID wid ∉ old ∧
      ∃ args : List Str,
        windowsFirstPassStep t isF fa mid wk old pos b wid =
          b ++ [["--add".toList, "item".toList, getSketchybarWindowID wid, pos],
                ["--set".toList, getSketchybarWindowID wid] ++ args]) := by
  unfold windowsFirstPassStep
  split
  · exact Or.inl rfl
  · simp only []
    by_cases hmem : getSketchybarWindowID wid ∈ old
    · exact Or.inl (by rw [if_pos hmem])
    · exact Or.inr ⟨hmem, _, by rw [if_neg hmem]⟩

theorem windowsFirstPass_batches_mono (t : Tree) (isF : Bool) (fa : Str) (mid : Int)
    (wk : Str) (old : List Str) (pos : Str) (batches : Batches) (windows : List Int)
    {c : Cmd} (hc : c ∈ batches) :
    c ∈ windowsFirstPass t isF fa mid wk old pos batches windows := by
  unfold windowsFirstPass
  refine foldl_pres (windowsFirstPassStep t isF fa mid wk old pos)
    (fun b => c ∈ b) ?_ windows _ hc
  intro b x h
  rcases windowsFirstPassStep_cases t isF fa mid wk old pos b x with heq | ⟨_, _, heq⟩ <;>
    rw [heq]
  · exact h
  · exact List.mem_append_left _ h

theorem windowsFirstPass_origin {t : Tree} {isF : Bool} {fa : Str} {mid : Int}
    {wk : Str} {old : List Str} {pos : Str} {batches : Batches} {windows : List Int}
    {c : Cmd} (hc : c ∈ windowsFirstPass t isF fa mid wk old pos batches windows) :
    c ∈ batches ∨ noRemove c := by
  unfold windowsFirstPass at hc
  have := foldl_origin (windowsFirstPassStep t isF fa mid wk old pos) (fun b => b)
    (fun _ c => noRemove c)
    (by
      intro b x c2 hc2
      rcases windowsFirstPassStep_cases t isF fa mid wk old pos b x with heq |
        ⟨_, args, heq⟩ <;> rw [heq] at hc2
      · exact Or.inl hc2
      · rcases List.mem_append.mp hc2 with h | h
        · exact Or.inl h
        · rcases List.mem_cons.mp h with rfl | h2
          · exact Or.inr (head_ne rfl (by decide))
          · rcases List.mem_singleton.mp h2 with rfl
            exact Or.inr (head_ne rfl (by decide)))
    windows _ c hc
  rcases this with h | ⟨_, _, h⟩
  · exact Or.inl h
  · exact Or.inr h

theorem windowsFirstPass_noop {t : Tree} {isF : Bool} {fa : Str} {mid : Int}
    {wk : Str} {old : List Str} {pos : Str} {batches : Batches} {windows : List Int}
    (h : ∀ wid ∈ windows, getSketchybarWindowID wid ∈ old) :
    windowsFirstPass t isF fa mid wk old pos batches windows = batches := by
  unfold windowsFirstPass
  refine foldl_noop _ windows ?_ _
  intro b wid hwid
  unfold windowsFirstPassStep
  split
  · rfl
  · simp only []
    rw [if_pos (h wid hwid)]

end Wentsketchy

namespace Wentsketchy

namespace P5

theorem windowsSecondPassStep_cases (t : Tree) (isF : Bool) (fa : Str) (mid : Int)
    (wk : Str) (bp : Batches × Str) (wid : Int) :
    windowsSecondPassStep t isF fa mid wk bp wid = bp ∨
    ∃ args : List Str,
      windowsSecondPassStep t isF fa mid wk bp wid =
        (bp.1 ++
          [["--move".toList, getSketchybarWindowID wid, "after".toList, bp.2],
           ["--animate".toList, sketchybarAnimationTanh, transitionTimeSetting,
            "--set".toList, getSketchybarWindowID wid] ++ args],
         getSketchybarWindowID wid) := by
  unfold windowsSecondPassStep
  cases hal : alookup t.indexedWindows wid with
  | none => exact Or.inl rfl
  | some win => exact Or.inr ⟨_, rfl⟩

theorem windowsSecondPass_batches_mono (t : Tree) (isF : Bool) (fa : Str) (mid : Int)
    (wk : Str) (start : Batches × Str) (windows : List Int) {c : Cmd}
    (hc : c ∈ start.1) :
    c ∈ (windowsSecondPass t isF fa mid wk start windows).1 := by
  unfold windowsSecondPass
  refine foldl_pres (windowsSecondPassStep t isF fa mid wk)
    (fun (bp : Batches × Str) => c ∈ bp.1) ?_ windows _ hc
  intro bp x h
  rcases windowsSecondPassStep_cases t isF fa mid wk bp x with heq | ⟨_, heq⟩ <;> rw [heq]
  · exact h
  · exact List.mem_append_left _ h

theorem windowsSecondPass_origin {t : Tree} {isF : Bool} {fa : Str} {mid : Int}
    {wk : Str} {start : Batches × Str} {windows : List Int} {c : Cmd}
    (hc : c ∈ (windowsSecondPass t isF fa mid wk start windows).1) :
    c ∈ start.1 ∨ noAddRemove c := by
  unfold windowsSecondPass at hc
  have := foldl_origin (windowsSecondPassStep t isF fa mid wk)
    (fun (bp : Batches × Str) => bp.1) (fun _ c => noAddRemove c)
    (by
      intro bp x c2 hc2
      rcases windowsSecondPassStep_cases t isF fa mid wk bp x with heq | ⟨args, heq⟩ <;>
        rw [heq] at hc2
      · exact Or.inl hc2
      · rcases List.mem_append.mp hc2 with h | h
        · exact Or.inl h
        · rcases List.mem_cons.mp h with rfl | h2
          · exact Or.inr ⟨head_ne rfl (by decide), head_ne rfl (by decide)⟩
          · rcases List.mem_singleton.mp h2 with rfl
            exact Or.inr ⟨head_ne rfl (by decide), head_ne rfl (by decide)⟩)
    windows _ c hc
  rcases this with h | ⟨_, _, h⟩
  · exact Or.inl h
  · exact Or.inr h

end P5

namespace P6

theorem windowsSecondPassStep_casesB (t : Tree) (isF : Bool) (fa : Str) (mid : Int)
    (wk : Str) (old : List Str) (bp : Batches × Str) (wid : Int) :
    windowsSecondPassStep t isF fa mid wk old bp wid = bp ∨
    ∃ (moves : Batches) (args : List Str),
      (∀ m ∈ moves, m = ["--move".toList, getSketchybarWindowID wid, "after".toList, bp.2]) ∧
      windowsSecondPassStep t isF fa mid wk old bp wid =
        (bp.1 ++ moves ++
          [["--animate".toList, sketchybarAnimationTanh, transitionTimeSetting,
            "--set".toList, getSketchybarWindowID wid] ++ args],
         getSketchybarWindowID wid) := by
  unfold windowsSecondPassStep
  split
  · exact Or.inl rfl
  · simp only []
    by_cases hmem : getSketchybarWindowID wid ∈ old
    · have hb : (!(decide (getSketchybarWindowID wid ∈ old))) = false := by simp [hmem]
      rw [hb, if_neg (by decide)]
      refine Or.inr ⟨_, _, ?_, rfl⟩
      intro m hm
      rcases List.mem_singleton.mp hm with rfl
      rfl
    · have hb : (!(decide (getSketchybarWindowID wid ∈ old))) = true := by simp [hmem]
      rw [hb, if_pos rfl]
      refine Or.inr ⟨_, _, ?_, rfl⟩
      intro m hm
      rcases List.mem_cons.mp hm with rfl | hm
      · rfl
      · rcases List.mem_singleton.mp hm with rfl
        rfl

theorem windowsSecondPass_batches_monoB (t : Tree) (isF : Bool) (fa : Str) (mid : Int)
    (wk : Str) (old : List Str) (start : Batches × Str) (windows : List Int) {c : Cmd}
    (hc : c ∈ start.1) :
    c ∈ (windowsSecondPass t isF fa mid wk old start windows).1 := by
  unfold windowsSecondPass
  refine foldl_pres (windowsSecondPassStep t isF fa mid wk old)
    (fun (bp : Batches × Str) => c ∈ bp.1) ?_ windows _ hc
  intro bp x h
  rcases windowsSecondPassStep_casesB t isF fa mid wk old bp x with heq | ⟨_, _, _, heq⟩ <;>
    rw [heq]
  · exact h
  · exact List.mem_append_left _ (List.mem_append_left _ h)

theorem windowsSecondPass_originB {t : Tree} {isF : Bool} {fa : Str} {mid : Int}
    {wk : Str} {old : List Str} {start : Batches × Str} {windows : List Int} {c : Cmd}
    (hc : c ∈ (windowsSecondPass t isF fa mid wk old start windows).1) :
    c ∈ start.1 ∨ noAddRemove c := by
  unfold windowsSecondPass at hc
  have := foldl_origin (windowsSecondPassStep t isF fa mid wk old)
    (fun (bp : Batches × Str) => bp.1) (fun _ c => noAddRemove c)
    (by
      intro bp x c2 hc2
      rcases windowsSecondPassStep_casesB t isF fa mid wk old bp x with heq |
        ⟨moves, args, hmoves, heq⟩ <;> rw [heq] at hc2
      · exact Or.inl hc2
      · rcases List.mem_append.mp hc2 with h | h
        · rcases List.mem_append.mp h with h2 | h2
          · exact Or.inl h2
          · have hc2eq := hmoves c2 h2
            subst hc2eq
            exact Or.inr ⟨head_ne rfl (by decide), head_ne rfl (by decide)⟩
        · rcases List.mem_singleton.mp h with rfl
          exact Or.inr ⟨head_ne rfl (by decide), head_ne rfl (by decide)⟩)
    windows _ c hc
  rcases this with h | ⟨_, _, h⟩
  · exact Or.inl h
  · exact Or.inr h

end P6

/-! ## The first variant's update pass -/

theorem mem_addWorkspaceSpacerCmds_noRemove {w pos : Str} {c : Cmd}
    (hc : c ∈ addWorkspaceSpacerCmds w pos) : noRemove c := by
  unfold addWorkspaceSpacerCmds at hc
  rcases List.mem_cons.mp hc with rfl | hc
  · exact head_ne rfl (by decide)
  rcases List.mem_singleton.mp hc with rfl
  exact head_ne rfl (by decide)

namespace P5

theorem mem_addBracketSpacerCmds_noRemove {w pos : Str} {c : Cmd}
    (hc : c ∈ addBracketSpacerCmds w pos) : noRemove c := by
  unfold addBracketSpacerCmds at hc
  rcases List.mem_cons.mp hc with rfl | hc
  · exact head_ne rfl (by decide)
  rcases List.mem_singleton.mp hc with rfl
  exact head_ne rfl (by decide)

theorem mem_addWorkspaceBracketCmds_noRemove {isF : Bool} {w : Str} {c : Cmd}
    (hc : c ∈ addWorkspaceBracketCmds isF w) : noRemove c := by
  unfold addWorkspaceBracketCmds at hc
  rcases List.mem_cons.mp hc with rfl | hc
  · exact head_ne rfl (by decide)
  rcases List.mem_singleton.mp hc with rfl
  exact head_ne rfl (by decide)

theorem handleWorkspaceBracketCmd_noAddRemove (w : WorkspaceWithWindowIDs) (isF : Bool) :
    noAddRemove (handleWorkspaceBracketCmd w isF) :=
  ⟨head_ne rfl (by decide), head_ne rfl (by decide)⟩

/-- The per-workspace coverage hypothesis for the no-add direction: every
identifier the update pass would add for `w` is already rendered. -/
def wsCovered (old : List Str) (w : WorkspaceWithWindowIDs) : Prop :=
  getSketchybarWorkspaceID w.workspace ∈ old ∧
  getSketchybarBracketID w.workspace ∈ old ∧
  getSketchybarBracketSpacerID w.workspace ∈ old ∧
  ∀ wid ∈ w.windows, getSketchybarWindowID wid ∈ old

theorem workspaceUpdate_batches_mono {t : Tree} {mc : Nat} {mid : Int} {f a : Str}
    {old : List Str} {pos : Str} {isLast : Bool}
    {acc : Batches × List (Str × List Str) × List (Str × Str) × Bool}
    {w : WorkspaceWithWindowIDs} {c : Cmd} (hc : c ∈ acc.1) :
    c ∈ (workspaceUpdate t mc mid f a old pos isLast acc w).1 := by
  obtain ⟨b0, w0, s0, e0⟩ := acc
  unfold workspaceUpdate
  simp only []
  split
  · exact hc
  · rename_i opts hopts
    have hb2 : c ∈ (if getSketchybarWorkspaceID w.workspace ∈ old then b0
        else b0 ++ [["--add".toList, "item".toList, getSketchybarWorkspaceID w.workspace,
          pos]]) := by
      split
      · exact hc
      · exact List.mem_append_left _ hc
    have hb3 := List.mem_append_left
      [["--animate".toList, sketchybarAnimationTanh, transitionTimeSetting,
        "--set".toList, getSketchybarWorkspaceID w.workspace] ++ opts.toArgs] hb2
    have hb4 := windowsFirstPass_batches_mono t (decide (f = w.workspace)) a mid
      w.workspace old pos _ w.windows hb3
    have hb5 := windowsSecondPass_batches_mono t (decide (f = w.workspace)) a mid
      w.workspace (_, getSketchybarWorkspaceID w.workspace) w.windows hb4
    have hb6 : c ∈ (if getSketchybarBracketSpacerID w.workspace ∈ old then
        (windowsSecondPass t (decide (f = w.workspace)) a mid w.workspace
          (windowsFirstPass t (decide (f = w.workspace)) a mid w.workspace old pos
            ((if getSketchybarWorkspaceID w.workspace ∈ old then b0
              else b0 ++ [["--add".toList, "item".toList,
                getSketchybarWorkspaceID w.workspace, pos]]) ++
             [["--animate".toList, sketchybarAnimationTanh, transitionTimeSetting,
               "--set".toList, getSketchybarWorkspaceID w.workspace] ++ opts.toArgs])
            w.windows, getSketchybarWorkspaceID w.workspace) w.windows).1
        else
        (windowsSecondPass t (decide (f = w.workspace)) a mid w.workspace
          (windowsFirstPass t (decide (f = w.workspace)) a mid w.workspace old pos
            ((if getSketchybarWorkspaceID w.workspace ∈ old then b0
              else b0 ++ [["--add".toList, "item".toList,
                getSketchybarWorkspaceID w.workspace, pos]]) ++
             [["--animate".toList, sketchybarAnimationTanh, transitionTimeSetting,
               "--set".toList, getSketchybarWorkspaceID w.workspace] ++ opts.toArgs])
            w.windows, getSketchybarWorkspaceID w.workspace) w.windows).1 ++
          addBracketSpacerCmds w.workspace pos) := by
      split
      · exact hb5
      · exact List.mem_append_left _ hb5
    have hb7 : c ∈ (if getSketchybarBracketID w.workspace ∈ old then
        (if getSketchybarBracketSpacerID w.workspace ∈ old then
          (windowsSecondPass t (decide (f = w.workspace)) a mid w.workspace
            (windowsFirstPass t (decide (f = w.workspace)) a mid w.workspace old pos
              ((if getSketchybarWorkspaceID w.workspace ∈ old then b0
                else b0 ++ [["--add".toList, "item".toList,
                  getSketchybarWorkspaceID w.workspace, pos]]) ++
               [["--animate".toList, sketchybarAnimationTanh, transitionTimeSetting,
                 "--set".toList, getSketchybarWorkspaceID w.workspace] ++ opts.toArgs])
              w.windows, getSketchybarWorkspaceID w.workspace) w.windows).1
          else
          (windowsSecondPass t (decide (f = w.workspace)) a mid w.workspace
            (windowsFirstPass t (decide (f = w.workspace)) a mid w.workspace old pos
              ((if getSketchybarWorkspaceID w.workspace ∈ old then b0
                else b0 ++ [["--add".toList, "item".toList,
                  getSketchybarWorkspaceID w.workspace, pos]]) ++
               [["--animate".toList, sketchybarAnimationTanh, transitionTimeSetting,
                 "--set".toList, getSketchybarWorkspaceID w.workspace] ++ opts.toArgs])
              w.windows, getSketchybarWorkspaceID w.workspace) w.windows).1 ++
            addBracketSpacerCmds w.workspace pos)
        else
        (if getSketchybarBracketSpacerID w.workspace ∈ old then
          (windowsSecondPass t (decide (f = w.workspace)) a mid w.workspace
            (windowsFirstPass t (decide (f = w.workspace)) a mid w.workspace old pos
              ((if getSketchybarWorkspaceID w.workspace ∈ old then b0
                else b0 ++ [["--add".toList, "item".toList,
                  getSketchybarWorkspaceID w.workspace, pos]]) ++
               [["--animate".toList, sketchybarAnimationTanh, transitionTimeSetting,
                 "--set".toList, getSketchybarWorkspaceID w.workspace] ++ opts.toArgs])
              w.windows, getSketchybarWorkspaceID w.workspace) w.windows).1
          else
          (windowsSecondPass t (decide (f = w.workspace)) a mid w.workspace
            (windowsFirstPass t (decide (f = w.workspace)) a mid w.workspace old pos
              ((if getSketchybarWorkspaceID w.workspace ∈ old then b0
                else b0 ++ [["--add".toList, "item".toList,
                  getSketchybarWorkspaceID w.workspace, pos]]) ++
               [["--animate".toList, sketchybarAnimationTanh, transitionTimeSetting,
                 "--set".toList, getSketchybarWorkspaceID w.workspace] ++ opts.toArgs])
              w.windows, getSketchybarWorkspaceID w.workspace) w.windows).1 ++
            addBracketSpacerCmds w.workspace pos) ++
          addWorkspaceBracketCmds (decide (f = w.workspace)) w.workspace) := by
      split
      · exact hb6
      · exact List.mem_append_left _ hb6
    have hb8 := List.mem_append_left
      [handleWorkspaceBracketCmd w (decide (f = w.workspace))] hb7
    split
    · exact hb8
    · split
      · exact hb8
      · exact List.mem_append_left _ hb8

end P5

theorem mem_ite_self_append_elim {γ : Type} {P : Prop} [Decidable P] {X ext : List γ}
    {c : γ} (hc : c ∈ (if P then X else X ++ ext)) : c ∈ X ∨ c ∈ ext := by
  split at hc
  · exact Or.inl hc
  · exact List.mem_append.mp hc

theorem mem_spacer_ite_elim {γ : Type} {P Q : Prop} [Decidable P] [Decidable Q]
    {X ext : List γ} {c : γ}
    (hc : c ∈ (if P then X else if Q then X else X ++ ext)) : c ∈ X ∨ c ∈ ext := by
  split at hc
  · exact Or.inl hc
  · exact mem_ite_self_append_elim hc

namespace P5

theorem workspaceUpdate_origin {t : Tree} {mc : Nat} {mid : Int} {f a : Str}
    {old : List Str} {pos : Str} {isLast : Bool}
    {acc : Batches × List (Str × List Str) × List (Str × Str) × Bool}
    {w : WorkspaceWithWindowIDs} {c : Cmd}
    (hc : c ∈ (workspaceUpdate t mc mid f a old pos isLast acc w).1) :
    c ∈ acc.1 ∨ noRemove c := by
  obtain ⟨b0, w0, s0, e0⟩ := acc
  unfold workspaceUpdate at hc
  simp only [] at hc
  split at hc
  · exact Or.inl hc
  · rcases mem_spacer_ite_elim hc with hc | hsp
    · rcases List.mem_append.mp hc with hc | hone
      · rcases mem_ite_self_append_elim hc with hc | hbr
        · rcases mem_ite_self_append_elim hc with hc | hbsp
          · rcases windowsSecondPass_origin hc with hc | hno
            · rcases windowsFirstPass_origin hc with hc | hno
              · rcases List.mem_append.mp hc with hc | hone
                · rcases mem_ite_self_append_elim hc with hc | hadd
                  · exact Or.inl hc
                  · rcases List.mem_singleton.mp hadd with rfl
                    exact Or.inr (head_ne rfl (by decide))
                · rcases List.mem_singleton.mp hone with rfl
                  exact Or.inr (head_ne rfl (by decide))
              · exact Or.inr hno
            · exact Or.inr hno.2
          · exact Or.inr (mem_addBracketSpacerCmds_noRemove hbsp)
        · exact Or.inr (mem_addWorkspaceBracketCmds_noRemove hbr)
      · rcases List.mem_singleton.mp hone with rfl
        exact Or.inr (handleWorkspaceBracketCmd_noAddRemove w _).2
    · exact Or.inr (mem_addWorkspaceSpacerCmds_noRemove hsp)

theorem workspaceUpdate_covered {t : Tree} {mc : Nat} {mid : Int} {f a : Str}
    {old : List Str} {pos : Str} {isLast : Bool}
    {acc : Batches × List (Str × List Str) × List (Str × Str) × Bool}
    {w : WorkspaceWithWindowIDs} {c : Cmd} (hcov : wsCovered old w)
    (hsp : isLast = false → getSketchybarSpacerID w.workspace ∈ old)
    (hc : c ∈ (workspaceUpdate t mc mid f a old pos isLast acc w).1) :
    c ∈ acc.1 ∨ noAddRemove c := by
  obtain ⟨b0, w0, s0, e0⟩ := acc
  unfold workspaceUpdate at hc
  simp only [] at hc
  split at hc
  · exact Or.inl hc
  · rw [if_pos hcov.2.1, if_pos hcov.2.2.1, windowsFirstPass_noop hcov.2.2.2,
      if_pos hcov.1] at hc
    split at hc
    · rcases List.mem_append.mp hc with hc | hone
      · rcases windowsSecondPass_origin hc with hc | hno
        · rcases List.mem_append.mp hc with hc | hone
          · exact Or.inl hc
          · rcases List.mem_singleton.mp hone with rfl
            exact Or.inr ⟨head_ne rfl (by decide), head_ne rfl (by decide)⟩
        · exact Or.inr hno
      · rcases List.mem_singleton.mp hone with rfl
        exact Or.inr (handleWorkspaceBracketCmd_noAddRemove w _)
    · rename_i hl
      rw [if_pos (hsp (by simpa using hl))] at hc
      rcases List.mem_append.mp hc with hc | hone
      · rcases windowsSecondPass_origin hc with hc | hno
        · rcases List.mem_append.mp hc with hc | hone
          · exact Or.inl hc
          · rcases List.mem_singleton.mp hone with rfl
            exact Or.inr ⟨head_ne rfl (by decide), head_ne rfl (by decide)⟩
        · exact Or.inr hno
      · rcases List.mem_singleton.mp hone with rfl
        exact Or.inr (handleWorkspaceBracketCmd_noAddRemove w _)

theorem workspaceUpdate_bstates_pres_none {t : Tree} {mc : Nat} {mid : Int} {f a : Str}
    {old : List Str} {pos : Str} {isLast : Bool}
    {acc : Batches × List (Str × List Str) × List (Str × Str) × Bool}
    {w : WorkspaceWithWindowIDs} {k : Str} (hk : alookup acc.2.2.1 k = none) :
    alookup (workspaceUpdate t mc mid f a old pos isLast acc w).2.2.1 k = none := by
  obtain ⟨b0, w0, s0, e0⟩ := acc
  unfold workspaceUpdate
  simp only []
  split
  · exact hk
  · show alookup (if w.windows = [] then _ else _ : _ × _).2 k = none
    split
    · exact alookup_none_aerase hk
    · exact hk

theorem visibleLoopUpdate_batches_mono {t : Tree} {mc : Nat} {mid : Int} {f a : Str}
    {old : List Str} {pos : Str} :
    ∀ (ws : List WorkspaceWithWindowIDs)
      (acc : Batches × List (Str × List Str) × List (Str × Str) × Bool) {c : Cmd},
      c ∈ acc.1 → c ∈ (visibleLoopUpdate t mc mid f a old pos acc ws).1 := by
  intro ws
  induction ws with
  | nil => exact fun acc _ hc => hc
  | cons w ws ih =>
    intro acc c hc
    cases ws with
    | nil => exact workspaceUpdate_batches_mono hc
    | cons w2 rest => exact ih _ (workspaceUpdate_batches_mono hc)

theorem visibleLoopUpdate_origin {t : Tree} {mc : Nat} {mid : Int} {f a : Str}
    {old : List Str} {pos : Str} :
    ∀ (ws : List WorkspaceWithWindowIDs)
      (acc : Batches × List (Str × List Str) × List (Str × Str) × Bool) {c : Cmd},
      c ∈ (visibleLoopUpdate t mc mid f a old pos acc ws).1 →
        c ∈ acc.1 ∨ noRemove c := by
  intro ws
  induction ws with
  | nil => exact fun acc _ hc => Or.inl hc
  | cons w ws ih =>
    intro acc c hc
    cases ws with
    | nil => exact workspaceUpdate_origin hc
    | cons w2 rest =>
      rcases ih _ hc with hc2 | hn
      · exact workspaceUpdate_origin hc2
      · exact Or.inr hn

theorem visibleLoopUpdate_covered {t : Tree} {mc : Nat} {mid : Int} {f a : Str}
    {old : List Str} {pos : Str} :
    ∀ (ws : List WorkspaceWithWindowIDs)
      (acc : Batches × List (Str × List Str) × List (Str × Str) × Bool) {c : Cmd},
      (∀ w ∈ ws, wsCovered old w) →
      (∀ w ∈ ws.dropLast, getSketchybarSpacerID w.workspace ∈ old) →
      c ∈ (visibleLoopUpdate t mc mid f a old pos acc ws).1 →
        c ∈ acc.1 ∨ noAddRemove c := by
  intro ws
  induction ws with
  | nil => exact fun acc _ _ _ hc => Or.inl hc
  | cons w ws ih =>
    intro acc c hcov hsp hc
    cases ws with
    | nil =>
      exact workspaceUpdate_covered (hcov w (List.mem_singleton.mpr rfl))
        (fun h => by cases h) hc
    | cons w2 rest =>
      have hdrop : (w :: w2 :: rest).dropLast = w :: (w2 :: rest).dropLast := rfl
      rcases ih _ (fun w3 h3 => hcov w3 (List.mem_cons_of_mem _ h3))
        (fun w3 h3 => hsp w3 (by rw [hdrop]; exact List.mem_cons_of_mem _ h3)) hc with
        hc2 | hn
      · exact workspaceUpdate_covered (hcov w (List.mem_cons_self _ _))
          (fun _ => hsp w (by rw [hdrop]; exact List.mem_cons_self _ _)) hc2
      · exact Or.inr hn

theorem visibleLoopUpdate_bstates_pres_none {t : Tree} {mc : Nat} {mid : Int}
    {f a : Str} {old : List Str} {pos : Str} :
    ∀ (ws : List WorkspaceWithWindowIDs)
      (acc : Batches × List (Str × List Str) × List (Str × Str) × Bool) {k : Str},
      alookup acc.2.2.1 k = none →
        alookup (visibleLoopUpdate t mc mid f a old pos acc ws).2.2.1 k = none := by
  intro ws
  induction ws with
  | nil => exact fun acc _ hk => hk
  | cons w ws ih =>
    intro acc k hk
    cases ws with
    | nil => exact workspaceUpdate_bstates_pres_none hk
    | cons w2 rest => exact ih _ (workspaceUpdate_bstates_pres_none hk)

theorem updatePass_batches_mono {t : Tree} {f a : Str} {old : List Str} {pos : Str}
    {batches : Batches} {wwids : List (Str × List Str)} {bstates : List (Str × Str)}
    {c : Cmd} (hc : c ∈ batches) :
    c ∈ (updatePass t f a old pos batches wwids bstates).1 := by
  unfold updatePass
  refine foldl_pres _
    (fun (acc : Batches × List (Str × List Str) × List (Str × Str) × Bool) => c ∈ acc.1)
    ?_ t.monitors _ hc
  intro acc m h
  exact visibleLoopUpdate_batches_mono _ _ h

theorem updatePass_origin {t : Tree} {f a : Str} {old : List Str} {pos : Str}
    {batches : Batches} {wwids : List (Str × List Str)} {bstates : List (Str × Str)}
    {c : Cmd} (hc : c ∈ (updatePass t f a old pos batches wwids bstates).1) :
    c ∈ batches ∨ noRemove c := by
  unfold updatePass at hc
  have := foldl_origin
    (fun (acc : Batches × List (Str × List Str) × List (Str × Str) × Bool) m =>
      visibleLoopUpdate t t.monitors.length m.monitor f a old pos acc
        (visibleWorkspaces m))
    (fun acc => acc.1) (fun _ c => noRemove c)
    (by
      intro b m c2 hc2
      exact visibleLoopUpdate_origin _ _ hc2)
    t.monitors _ c hc
  rcases this with h | ⟨_, _, h⟩
  · exact Or.inl h
  · exact Or.inr h

theorem updatePass_covered {t : Tree} {f a : Str} {old : List Str} {pos : Str}
    {batches : Batches} {wwids : List (Str × List Str)} {bstates : List (Str × Str)}
    {c : Cmd}
    (hcov : ∀ m ∈ t.monitors, ∀ w ∈ visibleWorkspaces m, wsCovered old w)
    (hsp : ∀ m ∈ t.monitors, ∀ w ∈ (visibleWorkspaces m).dropLast,
      getSketchybarSpacerID w.workspace ∈ old)
    (hc : c ∈ (updatePass t f a old pos batches wwids bstates).1) :
    c ∈ batches ∨ noAddRemove c := by
  unfold updatePass at hc
  have := foldl_origin
    (fun (acc : Batches × List (Str × List Str) × List (Str × Str) × Bool) m =>
      visibleLoopUpdate t t.monitors.length m.monitor f a old pos acc
        (visibleWorkspaces m))
    (fun acc => acc.1) (fun m c => m ∈ t.monitors → noAddRemove c)
    ?_ t.monitors _ c hc
  · rcases this with h | ⟨m, hm, h⟩
    · exact Or.inl h
    · exact Or.inr (h hm)
  · intro b m c2 hc2
    by_cases hm : m ∈ t.monitors
    · rcases visibleLoopUpdate_covered _ _ (hcov m hm) (hsp m hm) hc2 with h | h
      · exact Or.inl h
      · exact Or.inr (fun _ => h)
    · rcases visibleLoopUpdate_origin _ _ hc2 with h | h
      · exact Or.inl h
      · exact Or.inr (fun hm2 => absurd hm2 hm)

theorem updatePass_bstates_pres_none {t : Tree} {f a : Str} {old : List Str}
    {pos : Str} {batches : Batches} {wwids : List (Str × List Str)}
    {bstates : List (Str × Str)} {k : Str} (hk : alookup bstates k = none) :
    alookup (updatePass t f a old pos batches wwids bstates).2.2.1 k = none := by
  unfold updatePass
  refine foldl_pres _
    (fun (acc : Batches × List (Str × List Str) × List (Str × Str) × Bool) =>
      alookup acc.2.2.1 k = none)
    ?_ t.monitors _ hk
  intro acc m h
  exact visibleLoopUpdate_bstates_pres_none _ _ h

/-- The empty-bracket removal as applied inside `render`. -/
def step2a (t : Tree) (st : St) (b : Batches) : Batches × List (Str × Str) :=
  removeEmptyBrackets st.renderedItems st.workspaceWindowIDs st.bracketStates (newItems t) b

/-- The disappearance loop as applied inside `render`. -/
def step2b (t : Tree) (st : St) (b : Batches) (now : Nat) :
    Batches × List (Str × Nat) × List (Str × Str) :=
  closeStale st.renderedItems (newItems t) now (step2a t st b).1 st.closingItems
    (step2a t st b).2

/-- The expiry sweep as applied inside `render`. -/
def step2c (t : Tree) (st : St) (b : Batches) (now : Nat) : Batches × List (Str × Nat) :=
  sweepExpired now (step2b t st b now).1 (step2b t st b now).2.1

/-- The update pass as applied inside `render`. -/
def step3 (t : Tree) (f a : Str) (st : St) (b : Batches) (now : Nat) (pos : Str) :
    Batches × List (Str × List Str) × List (Str × Str) × Bool :=
  updatePass t f a st.renderedItems pos
    (checkerSpacerSection st.renderedItems (step2c t st b now).1 pos)
    st.workspaceWindowIDs (step2b t st b now).2.2

/-- `render` on a non-nil tree is the composition of its phases. -/
theorem render_some_eq (t : Tree) (f a : Str) (now : Nat) (st : St) (b : Batches)
    (pos : Str) :
    render (some t) f a now st b pos =
      { batches := (step3 t f a st b now pos).1,
        st :=
          { renderedItems := newItems t,
            closingItems := (step2c t st b now).2,
            workspaceWindowIDs := (step3 t f a st b now pos).2.1,
            bracketStates := (step3 t f a st b now pos).2.2.1 },
        err := (step3 t f a st b now pos).2.2.2 } := rfl

theorem checker_mem_newItems (t : Tree) : aerospaceCheckerItemName ∈ newItems t :=
  mem_newItems.mpr (Or.inl rfl)

theorem gsp_mem_newItems (t : Tree) : aerospaceGlobalSpacerID ∈ newItems t :=
  mem_newItems.mpr (Or.inr (Or.inl rfl))

/-- Every identifier the update pass could add for a visible workspace is
in the target set. -/
theorem newItems_covers (t : Tree) :
    ∀ m ∈ t.monitors, ∀ w ∈ visibleWorkspaces m, wsCovered (newItems t) w := by
  intro m hm w hw
  refine ⟨?_, ?_, ?_, ?_⟩
  · exact mem_newItems.mpr (Or.inr (Or.inr ⟨m, hm, Or.inl ⟨w, hw,
      mem_workspaceNewItems.mpr (Or.inl rfl)⟩⟩))
  · exact mem_newItems.mpr (Or.inr (Or.inr ⟨m, hm, Or.inl ⟨w, hw,
      mem_workspaceNewItems.mpr (Or.inr (Or.inl rfl))⟩⟩))
  · exact mem_newItems.mpr (Or.inr (Or.inr ⟨m, hm, Or.inl ⟨w, hw,
      mem_workspaceNewItems.mpr (Or.inr (Or.inr (Or.inl rfl)))⟩⟩))
  · intro wid hwid
    exact mem_newItems.mpr (Or.inr (Or.inr ⟨m, hm, Or.inl ⟨w, hw,
      mem_workspaceNewItems.mpr (Or.inr (Or.inr (Or.inr ⟨wid, hwid, rfl⟩)))⟩⟩))

theorem newItems_covers_spacers (t : Tree) :
    ∀ m ∈ t.monitors, ∀ w ∈ (visibleWorkspaces m).dropLast,
      getSketchybarSpacerID w.workspace ∈ newItems t := by
  intro m hm w hw
  exact mem_newItems.mpr (Or.inr (Or.inr ⟨m, hm, Or.inr ⟨w, hw, rfl⟩⟩))

end P5

/-! ## Identifier distinctness -/

/-- Every configured (visible) workspace name has length one. -/
theorem visible_length_one {w : Str} (h : (alookup iconsWorkspace w).isSome) :
    w.length = 1 := by
  rcases alookup_isSome_mem h with ⟨e, he, hk⟩
  subst hk
  fin_cases he <;> decide

/-- Two appended strings differ when their prefixes disagree on the
first `k` characters. -/
theorem append_ne_of_take_ne (p q x y : Str) (k : Nat) (hkp : k ≤ p.length)
    (hkq : k ≤ q.length) (hne : p.take k ≠ q.take k) : p ++ x ≠ q ++ y := by
  intro h
  apply hne
  have h1 : (p ++ x).take k = p.take k := by
    rw [List.take_append_eq_append_take, Nat.sub_eq_zero_of_le hkp]
    simp
  have h2 : (q ++ y).take k = q.take k := by
    rw [List.take_append_eq_append_take, Nat.sub_eq_zero_of_le hkq]
    simp
  rw [← h1, h, h2]

theorem wsID_def (w : Str) :
    getSketchybarWorkspaceID w = "aerospace.workspace.".toList ++ w := rfl

theorem winID_def (i : Int) :
    getSketchybarWindowID i = "aerospace.window.".toList ++ intDec i := rfl

theorem brID_def (w : Str) :
    getSketchybarBracketID w = "aerospace.bracket.".toList ++ w := rfl

theorem brspID_def (w : Str) :
    getSketchybarBracketSpacerID w = "aerospace.bracket.spacer.".toList ++ w := rfl

theorem spID_def (w : Str) :
    getSketchybarSpacerID w = "aerospace.spacer.".toList ++ w := rfl

theorem checker_def : aerospaceCheckerItemName = "aerospace.checker".toList ++ [] := by
  simp [aerospaceCheckerItemName]

theorem gsp_def : aerospaceGlobalSpacerID = "aerospace.spacer".toList ++ [] := by
  simp [aerospaceGlobalSpacerID]

theorem wsID_inj {w1 w2 : Str} (h : getSketchybarWorkspaceID w1 = getSketchybarWorkspaceID w2) :
    w1 = w2 :=
  List.append_cancel_left (by rw [← wsID_def, ← wsID_def, h])

theorem brID_inj {w1 w2 : Str} (h : getSketchybarBracketID w1 = getSketchybarBracketID w2) :
    w1 = w2 :=
  List.append_cancel_left (by rw [← brID_def, ← brID_def, h])

theorem brspID_inj {w1 w2 : Str}
    (h : getSketchybarBracketSpacerID w1 = getSketchybarBracketSpacerID w2) : w1 = w2 :=
  List.append_cancel_left (by rw [← brspID_def, ← brspID_def, h])

theorem spID_inj {w1 w2 : Str} (h : getSketchybarSpacerID w1 = getSketchybarSpacerID w2) :
    w1 = w2 :=
  List.append_cancel_left (by rw [← spID_def, ← spID_def, h])

theorem winID_inj {i1 i2 : Int} (h : getSketchybarWindowID i1 = getSketchybarWindowID i2) :
    i1 = i2 :=
  intDec_inj (List.append_cancel_left (by rw [← winID_def, ← winID_def, h]))

theorem wsID_ne_brID (w1 w2 : Str) :
    getSketchybarWorkspaceID w1 ≠ getSketchybarBracketID w2 := by
  rw [wsID_def, brID_def]
  exact append_ne_of_take_ne _ _ _ _ 11 (by decide) (by decide) (by decide)

theorem wsID_ne_brspID (w1 w2 : Str) :
    getSketchybarWorkspaceID w1 ≠ getSketchybarBracketSpacerID w2 := by
  rw [wsID_def, brspID_def]
  exact append_ne_of_take_ne _ _ _ _ 11 (by decide) (by decide) (by decide)

theorem wsID_ne_spID (w1 w2 : Str) :
    getSketchybarWorkspaceID w1 ≠ getSketchybarSpacerID w2 := by
  rw [wsID_def, spID_def]
  exact append_ne_of_take_ne _ _ _ _ 11 (by decide) (by decide) (by decide)

theorem wsID_ne_winID (w1 : Str) (i : Int) :
    getSketchybarWorkspaceID w1 ≠ getSketchybarWindowID i := by
  rw [wsID_def, winID_def]
  exact append_ne_of_take_ne _ _ _ _ 12 (by decide) (by decide) (by decide)

theorem wsID_ne_checker (w : Str) :
    getSketchybarWorkspaceID w ≠ aerospaceCheckerItemName := by
  rw [wsID_def, checker_def]
  exact append_ne_of_take_ne _ _ _ _ 11 (by decide) (by decide) (by decide)

theorem wsID_ne_gsp (w : Str) :
    getSketchybarWorkspaceID w ≠ aerospaceGlobalSpacerID := by
  rw [wsID_def, gsp_def]
  exact append_ne_of_take_ne _ _ _ _ 11 (by decide) (by decide) (by decide)

theorem brID_ne_spID (w1 w2 : Str) :
    getSketchybarBracketID w1 ≠ getSketchybarSpacerID w2 := by
  rw [brID_def, spID_def]
  exact append_ne_of_take_ne _ _ _ _ 11 (by decide) (by decide) (by decide)

theorem brID_ne_winID (w1 : Str) (i : Int) :
    getSketchybarBracketID w1 ≠ getSketchybarWindowID i := by
  rw [brID_def, winID_def]
  exact append_ne_of_take_ne _ _ _ _ 11 (by decide) (by decide) (by decide)

theorem brID_ne_checker (w : Str) :
    getSketchybarBracketID w ≠ aerospaceCheckerItemName := by
  rw [brID_def, checker_def]
  exact append_ne_of_take_ne _ _ _ _ 11 (by decide) (by decide) (by decide)

theorem brID_ne_gsp (w : Str) :
    getSketchybarBracketID w ≠ aerospaceGlobalSpacerID := by
  rw [brID_def, gsp_def]
  exact append_ne_of_take_ne _ _ _ _ 11 (by decide) (by decide) (by decide)

theorem brspID_ne_spID (w1 w2 : Str) :
    getSketchybarBracketSpacerID w1 ≠ getSketchybarSpacerID w2 := by
  rw [brspID_def, spID_def]
  exact append_ne_of_take_ne _ _ _ _ 11 (by decide) (by decide) (by decide)

theorem brspID_ne_winID (w1 : Str) (i : Int) :
    getSketchybarBracketSpacerID w1 ≠ getSketchybarWindowID i := by
  rw [brspID_def, winID_def]
  exact append_ne_of_take_ne _ _ _ _ 11 (by decide) (by decide) (by decide)

theorem brspID_ne_checker (w : Str) :
    getSketchybarBracketSpacerID w ≠ aerospaceCheckerItemName := by
  rw [brspID_def, checker_def]
  exact append_ne_of_take_ne _ _ _ _ 11 (by decide) (by decide) (by decide)

theorem brspID_ne_gsp (w : Str) :
    getSketchybarBracketSpacerID w ≠ aerospaceGlobalSpacerID := by
  rw [brspID_def, gsp_def]
  exact append_ne_of_take_ne _ _ _ _ 11 (by decide) (by decide) (by decide)

theorem spID_ne_winID (w1 : Str) (i : Int) :
    getSketchybarSpacerID w1 ≠ getSketchybarWindowID i := by
  rw [spID_def, winID_def]
  exact append_ne_of_take_ne _ _ _ _ 11 (by decide) (by decide) (by decide)

theorem spID_ne_checker (w : Str) :
    getSketchybarSpacerID w ≠ aerospaceCheckerItemName := by
  rw [spID_def, checker_def]
  exact append_ne_of_take_ne _ _ _ _ 11 (by decide) (by decide) (by decide)

theorem spID_ne_gsp (w : Str) : getSketchybarSpacerID w ≠ aerospaceGlobalSpacerID := by
  intro h
  have hlen := congrArg List.length h
  simp [getSketchybarSpacerID, spacerItemPrefix, aerospaceGlobalSpacerID] at hlen

theorem winID_ne_checker (i : Int) :
    getSketchybarWindowID i ≠ aerospaceCheckerItemName := by
  rw [winID_def, checker_def]
  exact append_ne_of_take_ne _ _ _ _ 11 (by decide) (by decide) (by decide)

theorem winID_ne_gsp (i : Int) :
    getSketchybarWindowID i ≠ aerospaceGlobalSpacerID := by
  rw [winID_def, gsp_def]
  exact append_ne_of_take_ne _ _ _ _ 11 (by decide) (by decide) (by decide)

theorem checker_ne_gsp : aerospaceCheckerItemName ≠ aerospaceGlobalSpacerID := by decide

/-- The one real prefix collision: the bracket id of workspace
`"spacer." ++ w` is exactly the bracket-spacer id of workspace `w`. A
visible workspace name (length 1) can never take that form. -/
theorem brID_ne_brspID_of_visible {w1 : Str} (w2 : Str)
    (h1 : (alookup iconsWorkspace w1).isSome) :
    getSketchybarBracketID w1 ≠ getSketchybarBracketSpacerID w2 := by
  intro h
  have hform : getSketchybarBracketSpacerID w2 =
      "aerospace.bracket.".toList ++ ("spacer.".toList ++ w2) := rfl
  rw [brID_def, hform] at h
  have hw : w1 = "spacer.".toList ++ w2 := List.append_cancel_left h
  have hlen := congrArg List.length hw
  rw [visible_length_one h1] at hlen
  simp [List.length_append] at hlen

/-! ## The bracket-membership comparison (second variant) -/

namespace P6

theorem windowIDsDiffer_iff_ne :
    ∀ {prev cur : List Str}, prev.length = cur.length →
      (windowIDsDiffer prev cur = true ↔ prev ≠ cur) := by
  intro prev
  induction prev with
  | nil =>
    intro cur hlen
    cases cur with
    | nil => simp [windowIDsDiffer]
    | cons c cs => simp at hlen
  | cons p ps ih =>
    intro cur hlen
    cases cur with
    | nil => simp at hlen
    | cons c cs =>
      simp only [List.length_cons, Nat.succ.injEq] at hlen
      by_cases hcp : c = p
      · subst hcp
        rw [show windowIDsDiffer (c :: ps) (c :: cs) = windowIDsDiffer ps cs by
          simp [windowIDsDiffer]]
        rw [ih hlen]
        simp
      · rw [show windowIDsDiffer (p :: ps) (c :: cs) = true by
          simp [windowIDsDiffer, hcp]]
        simp [hcp]
        intro h
        exact absurd h.symm hcp

/-- The exact condition under which `bracketNeedsUpdate` answers true:
with no recorded membership it also requires a non-empty current list
(this is where the claim's plain "no previous membership" reading
fails). -/
theorem bracketNeedsUpdate_iff (wwids : List (Str × List Str)) (workspaceID : Str)
    (cur : List Str) :
    bracketNeedsUpdate wwids workspaceID cur = true ↔
      (alookup wwids workspaceID = none ∧ cur ≠ []) ∨
        ∃ prev, alookup wwids workspaceID = some prev ∧ prev ≠ cur := by
  cases hl : alookup wwids workspaceID with
  | none =>
    have hb : bracketNeedsUpdate wwids workspaceID cur = decide (0 < cur.length) := by
      unfold bracketNeedsUpdate
      rw [hl]
    rw [hb]
    constructor
    · intro h
      refine Or.inl ⟨rfl, ?_⟩
      intro hc
      subst hc
      simp at h
    · rintro (⟨_, hc⟩ | ⟨prev, hp, _⟩)
      · have : 0 < cur.length := List.length_pos.mpr hc
        simpa using this
      · simp at hp
  | some prev =>
    have hb : bracketNeedsUpdate wwids workspaceID cur =
        (if prev.length ≠ cur.length then true else windowIDsDiffer prev cur) := by
      unfold bracketNeedsUpdate
      rw [hl]
    rw [hb]
    by_cases hlen : prev.length ≠ cur.length
    · rw [if_pos hlen]
      constructor
      · intro _
        exact Or.inr ⟨prev, rfl, fun hpc => hlen (by rw [hpc])⟩
      · intro _
        rfl
    · rw [if_neg hlen]
      push_neg at hlen
      rw [windowIDsDiffer_iff_ne hlen]
      constructor
      · intro h
        exact Or.inr ⟨prev, rfl, h⟩
      · rintro (⟨hnone, _⟩ | ⟨prev2, hp, hne⟩)
        · simp at hnone
        · simp only [Option.some.injEq] at hp
          subst hp
          exact hne

end P6

/-! ## The second variant's update pass -/

/-- Establish an invariant `P` at the first listed element satisfying `Q`
and preserve it, with the step hypotheses available only at list
members. -/
theorem foldl_first_mem {α β : Type} (f : β → α → β) (P R : β → Prop) (Q : α → Prop) :
    ∀ (xs : List α),
      (∀ b, ∀ x ∈ xs, P b → P (f b x)) →
      (∀ b, ∀ x ∈ xs, Q x → R b → P (f b x)) →
      (∀ b, ∀ x ∈ xs, ¬ Q x → R b → R (f b x)) →
      ∀ b, R b → (∃ x ∈ xs, Q x) → P (xs.foldl f b) := by
  intro xs
  induction xs with
  | nil =>
    rintro _ _ _ b _ ⟨x, hx, _⟩
    simp at hx
  | cons x xs ih =>
    rintro hpres hstart hR b hRb hex
    by_cases hQ : Q x
    · refine foldl_pres_mem f P xs ?_ (f b x)
        (hstart b x (List.mem_cons_self _ _) hQ hRb)
      intro b2 x2 hx2
      exact hpres b2 x2 (List.mem_cons_of_mem _ hx2)
    · rcases hex with ⟨x2, hx2, hQ2⟩
      rcases List.mem_cons.mp hx2 with rfl | hx2
      · exact absurd hQ2 hQ
      · exact ih (fun b2 x2 h2 => hpres b2 x2 (List.mem_cons_of_mem _ h2))
          (fun b2 x2 h2 => hstart b2 x2 (List.mem_cons_of_mem _ h2))
          (fun b2 x2 h2 => hR b2 x2 (List.mem_cons_of_mem _ h2))
          (f b x) (hR b x (List.mem_cons_self _ _) hQ hRb) ⟨x2, hx2, hQ2⟩

/-- `workspaceToSketchybar` succeeds exactly on configured (visible)
workspace names. -/
theorem workspaceToSketchybar_ne_none (isF : Bool) (mc : Nat) (mid : Int) (wk : Str)
    (h : (alookup iconsWorkspace wk).isSome) :
    workspaceToSketchybar isF mc mid wk ≠ none := by
  unfold workspaceToSketchybar
  cases hal : alookup iconsWorkspace wk with
  | none => rw [hal] at h; simp at h
  | some icon => simp

namespace P6

/-- The three per-workspace tracking maps of the accumulator hold nothing
at key `w`. -/
def accNone (acc : UpdAcc) (w : Str) : Prop :=
  alookup acc.wwids w = none ∧ alookup acc.pending w = none ∧
    alookup acc.bstates w = none

theorem updateWorkspaceBracket_batches_mono {old : List Str} {acc : UpdAcc}
    {wk : Str} {wids : List Str} {isF : Bool} {c : Cmd} (hc : c ∈ acc.batches) :
    c ∈ (updateWorkspaceBracket old acc wk wids isF).batches := by
  unfold updateWorkspaceBracket
  simp only []
  refine List.mem_append_left _ ?_
  split
  · exact List.mem_append_left _ hc
  · exact hc

theorem updateWorkspaceBracket_pres_none {old : List Str} {acc : UpdAcc}
    {wk : Str} {wids : List Str} {isF : Bool} {w : Str} (hne : wk ≠ w)
    (h : accNone acc w) : accNone (updateWorkspaceBracket old acc wk wids isF) w := by
  obtain ⟨h1, h2, h3⟩ := h
  refine ⟨?_, ?_, ?_⟩
  · show alookup (aupsert acc.wwids wk wids) w = none
    rw [alookup_aupsert_ne _ _ _ _ (Ne.symm hne)]
    exact h1
  · show alookup (aerase acc.pending wk) w = none
    exact alookup_none_aerase h2
  · show alookup (aupsert (aerase acc.bstates wk) wk
      (List.intercalate (",".toList) wids)) w = none
    rw [alookup_aupsert_ne _ _ _ _ (Ne.symm hne)]
    exact alookup_none_aerase h3

theorem handleWorkspaceBracket_batches_mono {old : List Str}
    {closing : List (Str × Nat)} {now : Nat} {acc : UpdAcc}
    {w : WorkspaceWithWindowIDs} {wids : List Str} {isF : Bool} {c : Cmd}
    (hc : c ∈ acc.batches) :
    c ∈ (handleWorkspaceBracket old closing now acc w wids isF).batches := by
  unfold handleWorkspaceBracket
  simp only []
  split
  · split
    · exact hc
    · exact updateWorkspaceBracket_batches_mono hc
  · show c ∈ (if getSketchybarBracketID w.workspace ∈ old then acc.batches ++ _
      else acc.batches)
    split
    · exact List.mem_append_left _ hc
    · exact hc

theorem handleWorkspaceBracket_pres_none {old : List Str}
    {closing : List (Str × Nat)} {now : Nat} {acc : UpdAcc}
    {w : WorkspaceWithWindowIDs} {wids : List Str} {isF : Bool} {w0 : Str}
    (hne : w.workspace ≠ w0) (h : accNone acc w0) :
    accNone (handleWorkspaceBracket old closing now acc w wids isF) w0 := by
  unfold handleWorkspaceBracket
  simp only []
  split
  · split
    · refine ⟨h.1, ?_, h.2.2⟩
      show alookup (aupsert acc.pending w.workspace wids) w0 = none
      rw [alookup_aupsert_ne _ _ _ _ (Ne.symm hne)]
      exact h.2.1
    · exact updateWorkspaceBracket_pres_none hne h
  · exact h

/-- Membership survives the trailing inter-workspace-spacer conditional. -/
theorem mem_spacer_ite_intro {g : Type} {P Q : Prop} [Decidable P] [Decidable Q]
    {X ext : List g} {c : g} (hc : c ∈ X) :
    c ∈ (if P then X else if Q then X else X ++ ext) := by
  split
  · exact hc
  · split
    · exact hc
    · exact List.mem_append_left _ hc

/-- Membership in the batch of a conditional accumulator, by branch. -/
theorem mem_ite_batches {P : Prop} [Decidable P] {a1 a2 : UpdAcc} {c : Cmd}
    (h1 : P → c ∈ a1.batches) (h2 : ¬ P → c ∈ a2.batches) :
    c ∈ (if P then a1 else a2).batches := by
  split
  · rename_i hp
    exact h1 hp
  · rename_i hp
    exact h2 hp

theorem workspaceUpdate_batches_monoB {t : Tree} {mc : Nat} {mid : Int} {f a : Str}
    {old : List Str} {closing : List (Str × Nat)} {now : Nat} {pos : Str}
    {isLast : Bool} {acc : UpdAcc} {w : WorkspaceWithWindowIDs} {c : Cmd}
    (hc : c ∈ acc.batches) :
    c ∈ (workspaceUpdate t mc mid f a old closing now pos isLast acc w).batches := by
  unfold workspaceUpdate
  simp only []
  split
  · exact hc
  · refine mem_spacer_ite_intro ?_
    refine mem_ite_batches (fun _ => ?_) (fun _ => ?_)
    · refine windowsSecondPass_batches_monoB t _ a mid w.workspace old _ w.windows ?_
      refine windowsFirstPass_batches_mono t _ a mid w.workspace old pos _ w.windows ?_
      refine List.mem_append_left _ ?_
      split
      · exact hc
      · exact List.mem_append_left _ hc
    · refine handleWorkspaceBracket_batches_mono ?_
      refine windowsSecondPass_batches_monoB t _ a mid w.workspace old _ w.windows ?_
      refine windowsFirstPass_batches_mono t _ a mid w.workspace old pos _ w.windows ?_
      refine List.mem_append_left _ ?_
      split
      · exact hc
      · exact List.mem_append_left _ hc

theorem workspaceUpdate_establishB {t : Tree} {mc : Nat} {mid : Int} {f a : Str}
    {old : List Str} {closing : List (Str × Nat)} {now : Nat} {pos : Str}
    {isLast : Bool} {acc : UpdAcc} {w : WorkspaceWithWindowIDs} {w0 : Str}
    (hvis : (alookup iconsWorkspace w.workspace).isSome)
    (hwk : w.workspace = w0) (hemp : w.windows = []) :
    accNone (workspaceUpdate t mc mid f a old closing now pos isLast acc w) w0 := by
  unfold workspaceUpdate
  simp only []
  split
  · rename_i hws
    exact absurd hws (workspaceToSketchybar_ne_none _ _ _ _ hvis)
  · rw [if_pos hemp]
    subst hwk
    exact ⟨alookup_aerase_self _ _, alookup_aerase_self _ _, alookup_aerase_self _ _⟩

theorem workspaceUpdate_pres_noneB {t : Tree} {mc : Nat} {mid : Int} {f a : Str}
    {old : List Str} {closing : List (Str × Nat)} {now : Nat} {pos : Str}
    {isLast : Bool} {acc : UpdAcc} {w : WorkspaceWithWindowIDs} {w0 : Str}
    (hsafe : w.workspace = w0 → w.windows = []) (h : accNone acc w0) :
    accNone (workspaceUpdate t mc mid f a old closing now pos isLast acc w) w0 := by
  unfold workspaceUpdate
  simp only []
  split
  · exact h
  · by_cases hemp : w.windows = []
    · rw [if_pos hemp]
      exact ⟨alookup_none_aerase h.1, alookup_none_aerase h.2.1,
        alookup_none_aerase h.2.2⟩
    · rw [if_neg hemp]
      have hwne : w.workspace ≠ w0 := fun hk => hemp (hsafe hk)
      exact handleWorkspaceBracket_pres_none hwne h

theorem visibleLoopUpdate_batches_monoB {t : Tree} {mc : Nat} {mid : Int} {f a : Str}
    {old : List Str} {closing : List (Str × Nat)} {now : Nat} {pos : Str} :
    ∀ (ws : List WorkspaceWithWindowIDs) (acc : UpdAcc) {c : Cmd},
      c ∈ acc.batches →
        c ∈ (visibleLoopUpdate t mc mid f a old closing now pos acc ws).batches := by
  intro ws
  induction ws with
  | nil => exact fun acc _ hc => hc
  | cons w ws ih =>
    intro acc c hc
    cases ws with
    | nil => exact workspaceUpdate_batches_monoB hc
    | cons w2 rest => exact ih _ (workspaceUpdate_batches_monoB hc)

theorem visibleLoopUpdate_pres_noneB {t : Tree} {mc : Nat} {mid : Int} {f a : Str}
    {old : List Str} {closing : List (Str × Nat)} {now : Nat} {pos : Str} :
    ∀ (ws : List WorkspaceWithWindowIDs) (acc : UpdAcc) {w0 : Str},
      (∀ ws2 ∈ ws, ws2.workspace = w0 → ws2.windows = []) →
      accNone acc w0 →
        accNone (visibleLoopUpdate t mc mid f a old closing now pos acc ws) w0 := by
  intro ws
  induction ws with
  | nil => exact fun acc _ _ h => h
  | cons w ws ih =>
    intro acc w0 hsafe h
    cases ws with
    | nil => exact workspaceUpdate_pres_noneB (hsafe w (List.mem_singleton.mpr rfl)) h
    | cons w2 rest =>
      exact ih _ (fun ws2 h2 => hsafe ws2 (List.mem_cons_of_mem _ h2))
        (workspaceUpdate_pres_noneB (hsafe w (List.mem_cons_self _ _)) h)

theorem visibleLoopUpdate_establishB {t : Tree} {mc : Nat} {mid : Int} {f a : Str}
    {old : List Str} {closing : List (Str × Nat)} {now : Nat} {pos : Str} :
    ∀ (ws : List WorkspaceWithWindowIDs) (acc : UpdAcc) {w0 : Str},
      (∀ ws2 ∈ ws, (alookup iconsWorkspace ws2.workspace).isSome) →
      (∀ ws2 ∈ ws, ws2.workspace = w0 → ws2.windows = []) →
      (∃ ws2 ∈ ws, ws2.workspace = w0) →
        accNone (visibleLoopUpdate t mc mid f a old closing now pos acc ws) w0 := by
  intro ws
  induction ws with
  | nil =>
    rintro acc w0 _ _ ⟨ws2, hmem, _⟩
    simp at hmem
  | cons w ws ih =>
    intro acc w0 hvis hsafe hex
    by_cases hq : w.workspace = w0
    · have hest : ∀ (acc2 : UpdAcc) (isLast : Bool),
          accNone (workspaceUpdate t mc mid f a old closing now pos isLast acc2 w) w0 :=
        fun acc2 isLast =>
          workspaceUpdate_establishB (hvis w (List.mem_cons_self _ _)) hq
            (hsafe w (List.mem_cons_self _ _) hq)
      cases ws with
      | nil => exact hest acc true
      | cons w2 rest =>
        exact visibleLoopUpdate_pres_noneB (w2 :: rest) _
          (fun ws2 h2 => hsafe ws2 (List.mem_cons_of_mem _ h2)) (hest acc false)
    · rcases hex with ⟨ws2, hmem, hk⟩
      rcases List.mem_cons.mp hmem with rfl | hmem
      · exact absurd hk hq
      · cases rest : ws with
        | nil =>
          rw [rest] at hmem
          simp at hmem
        | cons w2 rest2 =>
          subst rest
          exact ih _ (fun ws3 h3 => hvis ws3 (List.mem_cons_of_mem _ h3))
            (fun ws3 h3 => hsafe ws3 (List.mem_cons_of_mem _ h3)) ⟨ws2, hmem, hk⟩

theorem updatePass_batches_monoB {t : Tree} {f a : Str} {old : List Str}
    {closing : List (Str × Nat)} {now : Nat} {pos : Str} {batches : Batches}
    {wwids pending : List (Str × List Str)} {bstates : List (Str × Str)} {c : Cmd}
    (hc : c ∈ batches) :
    c ∈ (updatePass t f a old closing now pos batches wwids pending bstates).batches := by
  unfold updatePass
  refine foldl_pres _ (fun (acc : UpdAcc) => c ∈ acc.batches) ?_ t.monitors _ hc
  intro acc m h
  exact visibleLoopUpdate_batches_monoB _ _ h

theorem mem_visibleWorkspaces_isSome {m : MonitorWithWorkspaces}
    {w : WorkspaceWithWindowIDs} (h : w ∈ visibleWorkspaces m) :
    (alookup iconsWorkspace w.workspace).isSome := by
  have := List.of_mem_filter h
  simpa [isVisibleWorkspace] using this

theorem updatePass_purgeB {t : Tree} {f a : Str} {old : List Str}
    {closing : List (Str × Nat)} {now : Nat} {pos : Str} {batches : Batches}
    {wwids pending : List (Str × List Str)} {bstates : List (Str × Str)} {w0 : Str}
    (hall : ∀ m ∈ t.monitors, ∀ ws ∈ visibleWorkspaces m,
      ws.workspace = w0 → ws.windows = [])
    (hex : ∃ m ∈ t.monitors, ∃ ws ∈ visibleWorkspaces m, ws.workspace = w0) :
    accNone (updatePass t f a old closing now pos batches wwids pending bstates) w0 := by
  unfold updatePass
  refine foldl_first_mem _ (fun (acc : UpdAcc) => accNone acc w0) (fun _ => True)
    (fun m => ∃ ws ∈ visibleWorkspaces m, ws.workspace = w0) t.monitors ?_ ?_ ?_ _
    trivial hex
  · intro b m hm hb
    exact visibleLoopUpdate_pres_noneB _ _ (hall m hm) hb
  · intro b m hm hq _
    exact visibleLoopUpdate_establishB _ _
      (fun ws2 h2 => mem_visibleWorkspaces_isSome h2) (hall m hm) hq
  · exact fun _ _ _ _ _ => trivial

theorem processPending_batches_mono {old : List Str} {closing : List (Str × Nat)}
    {f : Str} {now : Nat} {acc : UpdAcc} {c : Cmd} (hc : c ∈ acc.batches) :
    c ∈ (processPendingBracketUpdates old closing f now acc).batches := by
  unfold processPendingBracketUpdates
  refine foldl_pres _ (fun (a2 : UpdAcc) => c ∈ a2.batches) ?_ acc.pending _ hc
  intro a2 e h
  split
  · exact h
  · exact updateWorkspaceBracket_batches_mono h

theorem processPending_pres_none {old : List Str} {closing : List (Str × Nat)}
    {f : Str} {now : Nat} {acc : UpdAcc} {w0 : Str} (h : accNone acc w0) :
    accNone (processPendingBracketUpdates old closing f now acc) w0 := by
  unfold processPendingBracketUpdates
  refine foldl_pres_mem _ (fun (a2 : UpdAcc) => accNone a2 w0) acc.pending ?_ _ h
  intro a2 e he ha
  split
  · exact ha
  · exact updateWorkspaceBracket_pres_none (alookup_none_mem h.2.1 e he) ha

/-- The empty-bracket removal as applied inside the second variant's
`render`. -/
def step2aB (t : Tree) (st : St) (b : Batches) : Batches × List (Str × Str) :=
  removeEmptyBrackets st.renderedItems st.workspaceWindowIDs st.bracketStates (newItems t) b

/-- The disappearance loop as applied inside the second variant's
`render`. -/
def step2bB (t : Tree) (st : St) (b : Batches) (now : Nat) :
    Batches × List (Str × Nat) × List (Str × Str) :=
  closeStale st.renderedItems (newItems t) now (step2aB t st b).1 st.closingItems
    (step2aB t st b).2

/-- The expiry sweep as applied inside the second variant's `render`. -/
def step2cB (t : Tree) (st : St) (b : Batches) (now : Nat) : Batches × List (Str × Nat) :=
  sweepExpired now (step2bB t st b now).1 (step2bB t st b now).2.1

/-- The update pass as applied inside the second variant's `render`. -/
def step3B (t : Tree) (f a : Str) (st : St) (b : Batches) (now : Nat) (pos : Str) :
    UpdAcc :=
  updatePass t f a st.renderedItems (step2cB t st b now).2 now pos
    (checkerSpacerSection st.renderedItems (step2cB t st b now).1 pos)
    st.workspaceWindowIDs st.pendingBracketUpdates (step2bB t st b now).2.2

/-- The pending-bracket flush as applied inside the second variant's
`render`. -/
def step4B (t : Tree) (f a : Str) (st : St) (b : Batches) (now : Nat) (pos : Str) :
    UpdAcc :=
  processPendingBracketUpdates st.renderedItems (step2cB t st b now).2 f now
    (step3B t f a st b now pos)

/-- The second variant's `render` on a non-nil tree is the composition of
its phases. -/
theorem render_some_eqB (t : Tree) (f a : Str) (now : Nat) (st : St) (b : Batches)
    (pos : Str) :
    render (some t) f a now st b pos =
      { batches := (step4B t f a st b now pos).batches,
        st :=
          { renderedItems := newItems t,
            closingItems := (step2cB t st b now).2,
            workspaceWindowIDs := (step4B t f a st b now pos).wwids,
            pendingBracketUpdates := (step4B t f a st b now pos).pending,
            bracketStates := (step4B t f a st b now pos).bstates },
        err := (step4B t f a st b now pos).errFlag } := rfl

end P6

/-! ## The claims -/

/-- C1 (invariants): after one execution of the first variant's `render`
on a non-nil snapshot tree, `renderedItems` equals exactly the target set
computed from that snapshot: the checker item, the global spacer, and per
visible workspace its workspace item, bracket item, bracket spacer and
window items, plus the inter-workspace spacer of every non-last visible
workspace of each monitor. -/
theorem claim_C1 (t : Tree) (f a : Str) (now : Nat) (st : P5.St) (b : Batches)
    (pos : Str) (y : Str) :
    y ∈ (P5.render (some t) f a now st b pos).st.renderedItems ↔
      y = aerospaceCheckerItemName ∨ y = aerospaceGlobalSpacerID ∨
        ∃ m ∈ t.monitors,
          (∃ w ∈ visibleWorkspaces m,
            y = getSketchybarWorkspaceID w.workspace ∨
            y = getSketchybarBracketID w.workspace ∨
            y = getSketchybarBracketSpacerID w.workspace ∨
            ∃ wid ∈ w.windows, y = getSketchybarWindowID wid) ∨
          ∃ w ∈ (visibleWorkspaces m).dropLast,
            y = getSketchybarSpacerID w.workspace := by
  rw [P5.renderedItems_render, P5.mem_newItems]
  simp only [P5.mem_workspaceNewItems]

/-- C8 (error_handling): a nil snapshot tree is a hard stop for the
cycle: `render` returns the input command batch unchanged, reports an
error, and leaves renderedItems, closingItems, workspaceWindowIDs and
bracketStates untouched. -/
theorem claim_C8 (f a : Str) (now : Nat) (st : P5.St) (b : Batches) (pos : Str) :
    P5.render none f a now st b pos = { batches := b, st := st, err := true } := rfl

/-- C7 counterexample: with no recorded membership and an empty current
window-id list, `bracketNeedsUpdate` answers false, while the claim
demands true whenever no previous membership is recorded. -/
theorem claim_C7_counterexample :
    alookup ([] : List (Str × List Str)) ("1".toList) = none ∧
      P6.bracketNeedsUpdate [] ("1".toList) [] = false := by
  exact ⟨rfl, rfl⟩

/-- C7 (functional_correctness), amended: `bracketNeedsUpdate` returns
true iff either no previous membership is recorded AND the current
window-id list is non-empty, or a previous list is recorded that differs
in length or element order from the current one. -/
theorem claim_C7 (wwids : List (Str × List Str)) (workspaceID : Str)
    (cur : List Str) :
    P6.bracketNeedsUpdate wwids workspaceID cur = true ↔
      (alookup wwids workspaceID = none ∧ cur ≠ []) ∨
        ∃ prev, alookup wwids workspaceID = some prev ∧ prev ≠ cur :=
  P6.bracketNeedsUpdate_iff wwids workspaceID cur

/-- C5 counterexample: the identifier-deriving functions are NOT jointly
injective over all workspace names: the bracket id of a workspace named
"spacer.1" coincides with the bracket-spacer id of the distinct
workspace "1". -/
theorem claim_C5_counterexample :
    getSketchybarBracketID ("spacer.1".toList) =
        getSketchybarBracketSpacerID ("1".toList) ∧
      ("spacer.1".toList : Str) ≠ "1".toList := by
  exact ⟨by decide, by decide⟩

/-- C5 (functional_correctness), amended: over workspace names that pass
the visibility filter (`icons.Workspace`) and over all window ids, the
identifier derivations are injective within each kind and pairwise
disjoint across kinds (workspace, bracket, bracket spacer,
inter-workspace spacer, window, checker, global spacer). -/
theorem claim_C5 (w1 w2 : Str) (i1 i2 : Int)
    (hv1 : (alookup iconsWorkspace w1).isSome)
    (hv2 : (alookup iconsWorkspace w2).isSome) :
    (getSketchybarWorkspaceID w1 = getSketchybarWorkspaceID w2 → w1 = w2) ∧
    (getSketchybarBracketID w1 = getSketchybarBracketID w2 → w1 = w2) ∧
    (getSketchybarBracketSpacerID w1 = getSketchybarBracketSpacerID w2 → w1 = w2) ∧
    (getSketchybarSpacerID w1 = getSketchybarSpacerID w2 → w1 = w2) ∧
    (getSketchybarWindowID i1 = getSketchybarWindowID i2 → i1 = i2) ∧
    getSketchybarWorkspaceID w1 ≠ getSketchybarBracketID w2 ∧
    getSketchybarWorkspaceID w1 ≠ getSketchybarBracketSpacerID w2 ∧
    getSketchybarWorkspaceID w1 ≠ getSketchybarSpacerID w2 ∧
    getSketchybarWorkspaceID w1 ≠ getSketchybarWindowID i1 ∧
    getSketchybarWorkspaceID w1 ≠ aerospaceCheckerItemName ∧
    getSketchybarWorkspaceID w1 ≠ aerospaceGlobalSpacerID ∧
    getSketchybarBracketID w1 ≠ getSketchybarBracketSpacerID w2 ∧
    getSketchybarBracketSpacerID w1 ≠ getSketchybarBracketID w2 ∧
    getSketchybarBracketID w1 ≠ getSketchybarSpacerID w2 ∧
    getSketchybarBracketID w1 ≠ getSketchybarWindowID i1 ∧
    getSketchybarBracketID w1 ≠ aerospaceCheckerItemName ∧
    getSketchybarBracketID w1 ≠ aerospaceGlobalSpacerID ∧
    getSketchybarBracketSpacerID w1 ≠ getSketchybarSpacerID w2 ∧
    getSketchybarBracketSpacerID w1 ≠ getSketchybarWindowID i1 ∧
    getSketchybarBracketSpacerID w1 ≠ aerospaceCheckerItemName ∧
    getSketchybarBracketSpacerID w1 ≠ aerospaceGlobalSpacerID ∧
    getSketchybarSpacerID w1 ≠ getSketchybarWindowID i1 ∧
    getSketchybarSpacerID w1 ≠ aerospaceCheckerItemName ∧
    getSketchybarSpacerID w1 ≠ aerospaceGlobalSpacerID ∧
    getSketchybarWindowID i1 ≠ aerospaceCheckerItemName ∧
    getSketchybarWindowID i1 ≠ aerospaceGlobalSpacerID ∧
    aerospaceCheckerItemName ≠ aerospaceGlobalSpacerID :=
  ⟨fun h => wsID_inj h, fun h => brID_inj h, fun h => brspID_inj h,
   fun h => spID_inj h, fun h => winID_inj h,
   wsID_ne_brID w1 w2, wsID_ne_brspID w1 w2, wsID_ne_spID w1 w2,
   wsID_ne_winID w1 i1, wsID_ne_checker w1, wsID_ne_gsp w1,
   brID_ne_brspID_of_visible w2 hv1,
   (brID_ne_brspID_of_visible w1 hv2).symm,
   brID_ne_spID w1 w2, brID_ne_winID w1 i1, brID_ne_checker w1, brID_ne_gsp w1,
   brspID_ne_spID w1 w2, brspID_ne_winID w1 i1, brspID_ne_checker w1,
   brspID_ne_gsp w1,
   spID_ne_winID w1 i1, spID_ne_checker w1, spID_ne_gsp w1,
   winID_ne_checker i1, winID_ne_gsp i1, checker_ne_gsp⟩

/-- C6 (temporal): any reconciliation pass running at a time at least
`transitionDuration` after an identifier's recorded closing start time
emits a remove command for that identifier and deletes it from
`closingItems` (and step 1 replaces `renderedItems` by the target set, so
the identifier also leaves `renderedItems`). -/
theorem claim_C6 (t : Tree) (f a : Str) (now : Nat) (st : P5.St) (b : Batches)
    (pos : Str) (id : Str) (start : Nat)
    (h1 : alookup st.closingItems id = some start)
    (h2 : start + transitionDuration ≤ now) :
    ["--remove".toList, id] ∈ (P5.render (some t) f a now st b pos).batches ∧
      alookup (P5.render (some t) f a now st b pos).st.closingItems id = none := by
  have hpres : alookup (P5.step2b t st b now).2.1 id = some start :=
    closeStale_pres_lookup_some h1
  have hsw : ["--remove".toList, id] ∈ (P5.step2c t st b now).1 ∧
      alookup (P5.step2c t st b now).2 id = none := sweep_emits hpres h2
  rw [P5.render_some_eq]
  exact ⟨P5.updatePass_batches_mono (checkerSpacerSection_batches_mono hsw.1), hsw.2⟩

/-- C6 witness: the entry ("x", 0) of `closingItems` is expired at time 5
and the pass on an empty snapshot removes it. -/
theorem claim_C6_witness :
    ["--remove".toList, "x".toList] ∈
      (P5.render (some { monitors := [], indexedWindows := [] }) [] [] 5
        { renderedItems := [], closingItems := [("x".toList, 0)],
          workspaceWindowIDs := [], bracketStates := [] } [] []).batches ∧
      alookup (P5.render (some { monitors := [], indexedWindows := [] }) [] [] 5
        { renderedItems := [], closingItems := [("x".toList, 0)],
          workspaceWindowIDs := [], bracketStates := [] } [] []).st.closingItems
        ("x".toList) = none :=
  claim_C6 { monitors := [], indexedWindows := [] } [] [] 5
    { renderedItems := [], closingItems := [("x".toList, 0)],
      workspaceWindowIDs := [], bracketStates := [] } [] [] ("x".toList) 0 rfl
    (by decide)

/-- C10 (functional_correctness): the bracket-spacer id of any workspace
satisfies `isBracketItem`, so a stale bracket spacer takes the bracket
branch of the disappearance loop (an immediate remove command, and not
the closing-animation path), and `extractWorkspaceFromBracketID` on it
returns "spacer." + w rather than w. -/
theorem claim_C10 (t : Tree) (f a : Str) (now : Nat) (st : P5.St) (b : Batches)
    (pos : Str) (w : Str)
    (hmem : getSketchybarBracketSpacerID w ∈ st.renderedItems)
    (hnew : getSketchybarBracketSpacerID w ∉ P5.newItems t)
    (hcl : alookup st.closingItems (getSketchybarBracketSpacerID w) = none) :
    isBracketItem (getSketchybarBracketSpacerID w) = true ∧
    extractWorkspaceFromBracketID (getSketchybarBracketSpacerID w) =
      "spacer.".toList ++ w ∧
    ["--remove".toList, getSketchybarBracketSpacerID w] ∈
      (P5.render (some t) f a now st b pos).batches ∧
    alookup (P5.render (some t) f a now st b pos).st.closingItems
      (getSketchybarBracketSpacerID w) = none := by
  have hspec :
      ["--remove".toList, getSketchybarBracketSpacerID w] ∈ (P5.step2b t st b now).1 ∧
        alookup (P5.step2b t st b now).2.1 (getSketchybarBracketSpacerID w) = none ∧
        alookup (P5.step2b t st b now).2.2
          (extractWorkspaceFromBracketID (getSketchybarBracketSpacerID w)) = none :=
    closeStale_bracket_spec (isBracketItem_getSketchybarBracketSpacerID w) hmem hnew hcl
  have hb1 : ["--remove".toList, getSketchybarBracketSpacerID w] ∈
      (P5.step2c t st b now).1 := sweep_batches_mono hspec.1
  have hcl2 : alookup (P5.step2c t st b now).2 (getSketchybarBracketSpacerID w) = none :=
    sweep_pres_none hspec.2.1
  rw [P5.render_some_eq]
  exact ⟨isBracketItem_getSketchybarBracketSpacerID w,
    extractWorkspaceFromBracketID_bracketSpacer w,
    P5.updatePass_batches_mono (checkerSpacerSection_batches_mono hb1), hcl2⟩

/-- C10 witness: the stale bracket spacer of workspace "9" is removed
immediately by a pass on an empty snapshot and does not enter the closing
set. -/
theorem claim_C10_witness :
    isBracketItem (getSketchybarBracketSpacerID ("9".toList)) = true ∧
      ["--remove".toList, getSketchybarBracketSpacerID ("9".toList)] ∈
        (P5.render (some { monitors := [], indexedWindows := [] }) [] [] 0
          { renderedItems := [getSketchybarBracketSpacerID ("9".toList)],
            closingItems := [], workspaceWindowIDs := [], bracketStates := [] }
          [] []).batches := by
  have h := claim_C10 { monitors := [], indexedWindows := [] } [] [] 0
    { renderedItems := [getSketchybarBracketSpacerID ("9".toList)],
      closingItems := [], workspaceWindowIDs := [], bracketStates := [] } [] []
    ("9".toList) (by decide) (by decide) rfl
  exact ⟨h.1, h.2.2.1⟩

/-- C4 counterexample: the stale identifier "aerospace.spacer.9" is
neither a bracket nor a window item; the pass emits NO remove command for
it — against the claim's "identifiers of any other kind are removed
immediately in that same pass" — and instead records it in
`closingItems`. -/
theorem claim_C4_counterexample :
    isBracketItem ("aerospace.spacer.9".toList) = false ∧
    isWindowItem ("aerospace.spacer.9".toList) = false ∧
    ["--remove".toList, "aerospace.spacer.9".toList] ∉
      (P5.render (some { monitors := [], indexedWindows := [] }) [] [] 0
        { renderedItems := ["aerospace.spacer.9".toList], closingItems := [],
          workspaceWindowIDs := [], bracketStates := [] } [] []).batches ∧
    alookup (P5.render (some { monitors := [], indexedWindows := [] }) [] [] 0
        { renderedItems := ["aerospace.spacer.9".toList], closingItems := [],
          workspaceWindowIDs := [], bracketStates := [] } [] []).st.closingItems
      ("aerospace.spacer.9".toList) = some 0 := by
  refine ⟨by decide, by decide, by decide, by decide⟩

/-- C4 (functional_correctness), amended: for a rendered identifier
outside the target set and not yet closing, a bracket id gets an
immediate remove and its per-workspace tracking is cleared; a window id
gets the shrink/hide animate command and its start time recorded in
`closingItems`; an identifier of any other kind is NOT removed in that
pass — it only enters `closingItems` (and is removed by the expiry sweep
of a later pass). -/
theorem claim_C4_amended (t : Tree) (f a : Str) (now : Nat) (st : P5.St) (b : Batches)
    (pos : Str) (id : Str)
    (hmem : id ∈ st.renderedItems) (hnew : id ∉ P5.newItems t)
    (hcl : alookup st.closingItems id = none)
    (hb : ["--remove".toList, id] ∉ b) :
    (isBracketItem id = true →
      ["--remove".toList, id] ∈ (P5.render (some t) f a now st b pos).batches ∧
      alookup (P5.render (some t) f a now st b pos).st.closingItems id = none ∧
      alookup (P5.render (some t) f a now st b pos).st.bracketStates
        (extractWorkspaceFromBracketID id) = none) ∧
    (isBracketItem id = false → isWindowItem id = true →
      animateCloseCmd id ∈ (P5.render (some t) f a now st b pos).batches ∧
      alookup (P5.render (some t) f a now st b pos).st.closingItems id = some now) ∧
    (isBracketItem id = false → isWindowItem id = false →
      alookup (P5.render (some t) f a now st b pos).st.closingItems id = some now ∧
      ["--remove".toList, id] ∉ (P5.render (some t) f a now st b pos).batches) := by
  have htd : transitionDuration = 1 := rfl
  have hkey : ∀ e ∈ (P5.step2b t st b now).2.1, e.1 = id → e.2 = now := by
    intro e he hek
    rcases closeStale_closing_sub he with h | h
    · exact absurd hek (alookup_none_mem hcl e h)
    · exact h
  have hall : ∀ e ∈ (P5.step2b t st b now).2.1, e.1 = id →
      ¬ (e.2 + transitionDuration ≤ now) := by
    intro e he hek
    rw [hkey e he hek, htd]
    omega
  rw [P5.render_some_eq]
  refine ⟨?_, ?_, ?_⟩
  · intro hbr
    have hspec :
        ["--remove".toList, id] ∈ (P5.step2b t st b now).1 ∧
          alookup (P5.step2b t st b now).2.1 id = none ∧
          alookup (P5.step2b t st b now).2.2
            (extractWorkspaceFromBracketID id) = none :=
      closeStale_bracket_spec hbr hmem hnew hcl
    have hb1 : ["--remove".toList, id] ∈ (P5.step2c t st b now).1 :=
      sweep_batches_mono hspec.1
    have hbs : alookup (P5.step3 t f a st b now pos).2.2.1
        (extractWorkspaceFromBracketID id) = none :=
      P5.updatePass_bstates_pres_none hspec.2.2
    exact ⟨P5.updatePass_batches_mono (checkerSpacerSection_batches_mono hb1),
      sweep_pres_none hspec.2.1, hbs⟩
  · intro hbr hwin
    have hspec : animateCloseCmd id ∈ (P5.step2b t st b now).1 ∧
        alookup (P5.step2b t st b now).2.1 id = some now :=
      closeStale_window_spec hbr hwin hmem hnew hcl
    have hb1 : animateCloseCmd id ∈ (P5.step2c t st b now).1 :=
      sweep_batches_mono hspec.1
    exact ⟨P5.updatePass_batches_mono (checkerSpacerSection_batches_mono hb1),
      sweep_pres_lookup hall hspec.2⟩
  · intro hbr hwin
    have hcl2 : alookup (P5.step2b t st b now).2.1 id = some now :=
      closeStale_other_spec hbr hwin hmem hnew hcl
    refine ⟨sweep_pres_lookup hall hcl2, ?_⟩
    intro hcon
    rcases P5.updatePass_origin hcon with h4 | hno
    · rcases checkerSpacerSection_origin h4 with h3 | hno
      · rcases sweep_origin h3 with h2 | ⟨e, he, hexp, heq⟩
        · rcases closeStale_origin h2 with h1 | ⟨id2, hbid2, heq⟩ | ⟨id2, heq⟩
          · rcases removeEmptyBrackets_origin h1 with h0 | ⟨w2, heq⟩
            · exact hb h0
            · have hid : id = getSketchybarBracketID w2 := by
                simpa using heq
              rw [hid, isBracketItem_getSketchybarBracketID] at hbr
              cases hbr
          · have hid : id = id2 := by simpa using heq
            rw [← hid] at hbid2
            rw [hbid2] at hbr
            cases hbr
          · have h5 := congrArg List.head? heq
            simp [animateCloseCmd] at h5
        · have hek : e.1 = id := by
            have h5 := congrArg (fun l => l.get? 1) heq
            simp only [List.get?] at h5
            exact (Option.some.injEq .. ▸ h5).symm
          have := hall e he hek
          exact this hexp
      · exact absurd rfl hno
    · exact absurd rfl hno

/-- C4 witness: the amended per-kind behavior at the stale bracket id
"aerospace.bracket.9": the pass emits its immediate remove. -/
theorem claim_C4_witness :
    ["--remove".toList, "aerospace.bracket.9".toList] ∈
      (P5.render (some { monitors := [], indexedWindows := [] }) [] [] 0
        { renderedItems := ["aerospace.bracket.9".toList], closingItems := [],
          workspaceWindowIDs := [], bracketStates := [] } [] []).batches := by
  have h := claim_C4_amended { monitors := [], indexedWindows := [] } [] [] 0
    { renderedItems := ["aerospace.bracket.9".toList], closingItems := [],
      workspaceWindowIDs := [], bracketStates := [] } [] []
    ("aerospace.bracket.9".toList) (by decide) (by decide) rfl (by decide)
  exact (h.1 (by decide)).1

/-- C3 counterexample: rendering twice against the same unchanged (empty)
snapshot is NOT free of remove commands in the second batch: the stale
window item "aerospace.window.9" starts closing in the first pass at time
0, and the second pass at time 5 emits its remove. -/
theorem claim_C3_counterexample :
    ["--remove".toList, "aerospace.window.9".toList] ∈
      (P5.render (some { monitors := [], indexedWindows := [] }) [] [] 5
        (P5.render (some { monitors := [], indexedWindows := [] }) [] [] 0
          { renderedItems := ["aerospace.window.9".toList], closingItems := [],
            workspaceWindowIDs := [], bracketStates := [] } [] []).st
        [] []).batches := by decide

/-- C3 (algebraic_relational), amended: in the pass after a pass over the
same snapshot, no command of the second batch is an add command; and when
the second pass runs at the same timestamp as the first, none is a remove
command either (remove commands can still appear at a later timestamp,
when closing animations expire). -/
theorem claim_C3_amended (t : Tree) (f a f2 a2 : Str) (now now2 : Nat) (st : P5.St)
    (b : Batches) (pos pos2 : Str) (c : Cmd)
    (hc : c ∈ (P5.render (some t) f2 a2 now2
        (P5.render (some t) f a now st b pos).st [] pos2).batches) :
    c.head? ≠ some ("--add".toList) ∧
      (now2 = now → c.head? ≠ some ("--remove".toList)) := by
  set st1 := (P5.render (some t) f a now st b pos).st
  have hsub : ∀ x ∈ st1.renderedItems, x ∈ P5.newItems t := fun x hx => hx
  have h2a : P5.step2a t st1 [] = ([], st1.bracketStates) :=
    removeEmptyBrackets_noop hsub
  have h2b : P5.step2b t st1 [] now2 = ([], st1.closingItems, st1.bracketStates) := by
    show closeStale st1.renderedItems (P5.newItems t) now2 (P5.step2a t st1 []).1
        st1.closingItems (P5.step2a t st1 []).2 = _
    rw [h2a]
    exact closeStale_noop hsub
  rw [P5.render_some_eq] at hc
  have hcov : ∀ m ∈ t.monitors, ∀ w ∈ visibleWorkspaces m,
      P5.wsCovered st1.renderedItems w := P5.newItems_covers t
  have hsp : ∀ m ∈ t.monitors, ∀ w ∈ (visibleWorkspaces m).dropLast,
      getSketchybarSpacerID w.workspace ∈ st1.renderedItems :=
    P5.newItems_covers_spacers t
  rcases P5.updatePass_covered hcov hsp hc with hc4 | hno
  · have hchk : aerospaceCheckerItemName ∈ st1.renderedItems := P5.checker_mem_newItems t
    have hgspm : aerospaceGlobalSpacerID ∈ st1.renderedItems := P5.gsp_mem_newItems t
    rcases checkerSpacerSection_covered hchk hgspm hc4 with hc3 | hno
    · rcases sweep_origin hc3 with hc2 | ⟨e, he, hexp, rfl⟩
      · rw [h2b] at hc2
        simp at hc2
      · have he2 : e ∈ st1.closingItems := by
          rw [h2b] at he
          exact he
        have hne : ¬ (e.2 + transitionDuration ≤ now) := sweep_out_not_expired he2
        refine ⟨head_ne rfl (by decide), ?_⟩
        intro hnow _
        exact hne (hnow ▸ hexp)
    · exact ⟨hno.1, fun _ => hno.2⟩
  · exact ⟨hno.1, fun _ => hno.2⟩

/-- C3 witness: the amended no-add guarantee at a concrete repeated pass:
the second batch over the unchanged empty snapshot at the same timestamp
contains the global spacer's set command, which is neither an add nor a
remove. -/
theorem claim_C3_witness :
    (["--set".toList, aerospaceGlobalSpacerID] ++
        aerospaceSpacerItemOptions.toArgs).head? ≠ some ("--add".toList) ∧
      ((0 : Nat) = 0 →
        (["--set".toList, aerospaceGlobalSpacerID] ++
          aerospaceSpacerItemOptions.toArgs).head? ≠ some ("--remove".toList)) :=
  claim_C3_amended { monitors := [], indexedWindows := [] } [] [] [] [] 0 0
    P5.initialSt [] [] []
    (["--set".toList, aerospaceGlobalSpacerID] ++ aerospaceSpacerItemOptions.toArgs)
    (by decide)

/-- C5 witness: the amended injectivity applied at the visible workspace
names "1" and "2" and the window ids 3 and 4. -/
theorem claim_C5_witness :
    (alookup iconsWorkspace ("1".toList)).isSome = true ∧
    (alookup iconsWorkspace ("2".toList)).isSome = true ∧
    getSketchybarBracketID ("1".toList) ≠ getSketchybarBracketSpacerID ("2".toList) := by
  have h := claim_C5 ("1".toList) ("2".toList) 3 4 (by decide) (by decide)
  obtain ⟨-, -, -, -, -, -, -, -, -, -, -, h12, -⟩ := h
  exact ⟨by decide, by decide, h12⟩

/-- C2 counterexample: in the first variant the bracket/windows
equivalence FAILS: a visible workspace ("2") with zero windows still
contributes its bracket item to the target set, so the bracket exists
after the pass although the workspace has no window. -/
theorem claim_C2_counterexample :
    ({ workspace := "2".toList, windows := [] } : WorkspaceWithWindowIDs).windows = [] ∧
    getSketchybarBracketID ("2".toList) ∈
      (P5.render (some { monitors := [{ monitor := 0, workspaces := [{ workspace := "2".toList, windows := [] }] }], indexedWindows := [] }) [] [] 0 P5.initialSt [] []).st.renderedItems := by
  exact ⟨rfl, by decide⟩

/-- C2 (invariants), amended for the second variant: after a pass, a
bracket item for w is rendered iff some visible workspace named w
currently has at least one window; and when every visible workspace named
w has zero windows (and one such exists), the same cycle emits the remove
for a previously rendered bracket of w (it left the target set and is not
mid-close) and purges all three tracking entries at w
(workspaceWindowIDs, pendingBracketUpdates, bracketStates). -/
theorem claim_C2_amended (t : Tree) (f a : Str) (now : Nat) (st : P6.St) (b : Batches)
    (pos : Str) (w : Str) :
    (getSketchybarBracketID w ∈ (P6.render (some t) f a now st b pos).st.renderedItems ↔
      ∃ m ∈ t.monitors, ∃ ws ∈ visibleWorkspaces m,
        ws.workspace = w ∧ ws.windows ≠ []) ∧
    ((∀ m ∈ t.monitors, ∀ ws ∈ visibleWorkspaces m,
        ws.workspace = w → ws.windows = []) →
      (∃ m ∈ t.monitors, ∃ ws ∈ visibleWorkspaces m, ws.workspace = w) →
      (getSketchybarBracketID w ∈ st.renderedItems →
        alookup st.closingItems (getSketchybarBracketID w) = none →
        ["--remove".toList, getSketchybarBracketID w] ∈
          (P6.render (some t) f a now st b pos).batches) ∧
      alookup (P6.render (some t) f a now st b pos).st.workspaceWindowIDs w = none ∧
      alookup (P6.render (some t) f a now st b pos).st.pendingBracketUpdates w = none ∧
      alookup (P6.render (some t) f a now st b pos).st.bracketStates w = none) := by
  constructor
  · rw [P6.renderedItems_renderB]
    constructor
    · intro hmem
      rcases P6.mem_newItemsB.mp hmem with h | h | ⟨m, hm, h⟩
      · exact absurd h (brID_ne_checker w)
      · exact absurd h (brID_ne_gsp w)
      · rcases h with ⟨ws, hws, hwy⟩ | ⟨ws, hws, hy⟩
        · rcases P6.mem_workspaceNewItemsB.mp hwy with hy | ⟨wid, _, hy⟩ | ⟨hne, hy⟩
          · exact absurd hy.symm (wsID_ne_brID ws.workspace w)
          · exact absurd hy (brID_ne_winID w wid)
          · exact ⟨m, hm, ws, hws, (brID_inj hy).symm, hne⟩
        · exact absurd hy (brID_ne_spID w ws.workspace)
    · rintro ⟨m, hm, ws, hws, rfl, hne⟩
      exact P6.mem_newItemsB.mpr (Or.inr (Or.inr ⟨m, hm, Or.inl ⟨ws, hws,
        P6.mem_workspaceNewItemsB.mpr (Or.inr (Or.inr ⟨hne, rfl⟩))⟩⟩))
  · intro hall hex
    have hnotnew : getSketchybarBracketID w ∉ P6.newItems t := by
      intro hmem
      rcases P6.mem_newItemsB.mp hmem with h | h | ⟨m, hm, h⟩
      · exact brID_ne_checker w h
      · exact brID_ne_gsp w h
      · rcases h with ⟨ws, hws, hwy⟩ | ⟨ws, hws, hy⟩
        · rcases P6.mem_workspaceNewItemsB.mp hwy with hy | ⟨wid, _, hy⟩ | ⟨hne, hy⟩
          · exact wsID_ne_brID ws.workspace w hy.symm
          · exact brID_ne_winID w wid hy
          · exact hne (hall m hm ws hws (brID_inj hy).symm)
        · exact brID_ne_spID w ws.workspace hy
    have hpurge : P6.accNone (P6.step3B t f a st b now pos) w :=
      P6.updatePass_purgeB hall hex
    have hfinal : P6.accNone (P6.step4B t f a st b now pos) w :=
      P6.processPending_pres_none hpurge
    rw [P6.render_some_eqB]
    refine ⟨?_, hfinal.1, hfinal.2.1, hfinal.2.2⟩
    intro hr hcl
    have hspec :
        ["--remove".toList, getSketchybarBracketID w] ∈ (P6.step2bB t st b now).1 ∧
          alookup (P6.step2bB t st b now).2.1 (getSketchybarBracketID w) = none ∧
          alookup (P6.step2bB t st b now).2.2
            (extractWorkspaceFromBracketID (getSketchybarBracketID w)) = none :=
      closeStale_bracket_spec (isBracketItem_getSketchybarBracketID w) hr hnotnew hcl
    have hb1 : ["--remove".toList, getSketchybarBracketID w] ∈ (P6.step2cB t st b now).1 :=
      sweep_batches_mono hspec.1
    exact P6.processPending_batches_mono (P6.updatePass_batches_monoB
      (checkerSpacerSection_batches_mono hb1))

/-- C2 witness: the amended behavior at a concrete snapshot where the
visible workspace "2" has zero windows and its bracket was rendered: the
pass removes the bracket and clears the workspace's window tracking. -/
theorem claim_C2_witness :
    ["--remove".toList, getSketchybarBracketID ("2".toList)] ∈
      (P6.render (some { monitors := [{ monitor := 0, workspaces := [{ workspace := "2".toList, windows := [] }] }], indexedWindows := [] }) [] [] 0
        { renderedItems := [getSketchybarBracketID ("2".toList)], closingItems := [],
          workspaceWindowIDs := [], pendingBracketUpdates := [], bracketStates := [] }
        [] []).batches ∧
    alookup (P6.render (some { monitors := [{ monitor := 0, workspaces := [{ workspace := "2".toList, windows := [] }] }], indexedWindows := [] }) [] [] 0
        { renderedItems := [getSketchybarBracketID ("2".toList)], closingItems := [],
          workspaceWindowIDs := [], pendingBracketUpdates := [], bracketStates := [] }
        [] []).st.workspaceWindowIDs ("2".toList) = none := by
  have h := claim_C2_amended { monitors := [{ monitor := 0, workspaces := [{ workspace := "2".toList, windows := [] }] }], indexedWindows := [] } [] [] 0
    { renderedItems := [getSketchybarBracketID ("2".toList)], closingItems := [],
      workspaceWindowIDs := [], pendingBracketUpdates := [], bracketStates := [] }
    [] [] ("2".toList)
  have h2 := h.2 (by decide) (by decide)
  exact ⟨h2.1 (by decide) rfl, h2.2.1⟩

end Wentsketchy
